import Mathlib

/-!
# W5100 socket layer (`src/w5100_socket.c`)

A shallow embedding of the BSD-socket emulation that drives the W5100 Ethernet
controller, followed by theorems about it.

Conventions of the embedding.

* C pointers into the two global tables become indices: a `struct w5100_socket *`
  is an `Option Nat` (channel index, `none` for `NULL`), a `struct fd *` is an
  `Option Nat` (descriptor index, `none` for `NULL`).
* `uint8_t` / `uint16_t` values are natural numbers reduced `% 256` / `% 65536`
  at the places where the C code stores them in a variable of that type.
  `size_t`, `ssize_t` and `int` are unbounded (`Nat` / `Int`).
* The chip is an environment.  Registers that only the driver changes are
  stored; registers the chip drives (`Sn_CR`, `Sn_SR`, `Sn_TX_FSR`,
  `Sn_RX_RSR`) are answered from a finite script of future readings, one entry
  consumed per read.  A call that needs a reading after the script has ended
  does not return (`Stuck.hang`).  Every register write and memory transfer is
  appended to a bus log.
* Dereferencing a `NULL` descriptor pointer is `Stuck.null_deref`.
-/

namespace W5100

/-! ## Constants taken from the system and chip headers -/

def W5100_SOCKET_FREE : Int := -1

/-- Address families of `<sys/socket.h>`. -/
def AF_UNSPEC : Nat := 0
def AF_INET : Nat := 2

/-- Socket types of `<sys/socket.h>`. -/
def SOCK_STREAM : Int := 1
def SOCK_DGRAM : Int := 2
def SOCK_RAW : Int := 3

def INADDR_ANY : Nat := 0
def INADDR_BROADCAST : Nat := 0xFFFFFFFF

/-- File status flags of `<fcntl.h>`. -/
def O_RDWR : Nat := 2
def O_NONBLOCK : Nat := 0x4000

/-- Event flags of `<poll.h>`. -/
def POLLIN : Nat := 0x001
def POLLOUT : Nat := 0x004
def POLLHUP : Nat := 0x010
def POLLNVAL : Nat := 0x020
def POLLRDNORM : Nat := 0x040
def POLLWRNORM : Nat := 0x100

/-- Socket status values of the `Sn_SR` register (`w5100.h`). -/
def W5100_SOCK_CLOSED : Nat := 0x00
def W5100_SOCK_INIT : Nat := 0x13
def W5100_SOCK_LISTEN : Nat := 0x14
def W5100_SOCK_ESTABLISHED : Nat := 0x17
def W5100_SOCK_CLOSE_WAIT : Nat := 0x1C
def W5100_SOCK_UDP : Nat := 0x22

/-- Command codes of the `Sn_CR` register (`w5100.h`). -/
def W5100_CMD_OPEN : Nat := 0x01
def W5100_CMD_LISTEN : Nat := 0x02
def W5100_CMD_CONNECT : Nat := 0x04
def W5100_CMD_DISCON : Nat := 0x08
def W5100_CMD_CLOSE : Nat := 0x10
def W5100_CMD_SEND : Nat := 0x20
def W5100_CMD_RECV : Nat := 0x40

/-- Protocol modes written to `Sn_MR` (`w5100.h`). -/
def W5100_SOCK_MODE_TCP : Nat := 0x01
def W5100_SOCK_MODE_UDP : Nat := 0x02
def W5100_SOCK_MODE_IPRAW : Nat := 0x03

/-- Base addresses of the TX and RX buffer memory (`w5100.h`). -/
def W5100_TX_MEM_BASE : Nat := 0x4000
def W5100_RX_MEM_BASE : Nat := 0x6000

/-- The `errno` values the layer uses. -/
inductive Errno
  | EBADF | ENOTSOCK | ENFILE | ENOMEM | EAFNOSUPPORT | EPROTOTYPE
  | EPROTONOSUPPORT | EISCONN | EOPNOTSUPP | ECONNREFUSED | EINVAL
  | EDESTADDRREQ | ENOTCONN | EAGAIN | EMSGSIZE | ECONNRESET | ETIMEDOUT
  deriving DecidableEq, Repr

open Errno

/-- Byte swap of a 16-bit value: `htons` on the little-endian host. -/
def htons (x : Nat) : Nat := (x % 256) * 256 + (x / 256) % 256

/-- Byte swap of a 16-bit value: `ntohs` on the little-endian host. -/
def ntohs (x : Nat) : Nat := (x % 256) * 256 + (x / 256) % 256

/-! ## Data model -/

inductive w5100_socket_state
  | W5100_SOCK_STATE_NONE
  | W5100_SOCK_STATE_CREATED
  | W5100_SOCK_STATE_CONNECTED
  | W5100_SOCK_STATE_BOUND
  | W5100_SOCK_STATE_LISTENING
  | W5100_SOCK_STATE_ACCEPTED
  | W5100_SOCK_STATE_DISCONNECTED
  deriving DecidableEq, Repr

open w5100_socket_state

structure timeout_manager where
  has_timeout : Bool
  tm_end : Nat
  deriving DecidableEq, Repr

/-- The `struct sockaddr_in`; `sin_port` and `sin_addr` hold the host image of
the network-order bytes. -/
structure sockaddr_in where
  sin_family : Nat
  sin_port : Nat
  sin_addr : Nat
  deriving DecidableEq, Repr

instance : Inhabited sockaddr_in := ⟨⟨0, 0, 0⟩⟩

/-- One entry of the global table `w5100_sockets`.  A `struct timespec` is a
number of nanoseconds. -/
structure w5100_socket where
  fd : Int
  isocket : Nat
  domain : Nat
  type : Int
  protocol : Int
  state : w5100_socket_state
  sockname : sockaddr_in
  dest_address : sockaddr_in
  can_broadcast : Bool
  recv_timeout : Nat
  send_timeout : Nat
  fd_data : Option Nat
  connection_data : Option Nat
  deriving DecidableEq, Repr

instance : Inhabited w5100_socket :=
  ⟨⟨0, 0, 0, 0, 0, W5100_SOCK_STATE_NONE, default, default, false, 0, 0, none, none⟩⟩

/-- Modelled from the spec: the `struct fd` of the generic descriptor table
(`file.h`, an external collaborator that is not part of the sources): the
fields this layer touches.  `fd` is the handle stored in the entry (`-1` in a
free slot), `is_sock` is `S_ISSOCK(stat.st_mode)`, `backing` is the untyped
backing pointer, here the index of the owning channel. -/
structure struct_fd where
  fd : Int
  isopen : Bool
  is_sock : Bool
  status_flags : Nat
  backing : Option Nat
  deriving DecidableEq, Repr

instance : Inhabited struct_fd := ⟨⟨-1, false, false, 0, none⟩⟩

/-- The per-channel registers of the chip that the layer uses. -/
inductive SockReg
  | W5100_Sn_MR | W5100_Sn_CR | W5100_Sn_SR | W5100_Sn_PORT | W5100_Sn_DIPR
  | W5100_Sn_DPORT | W5100_Sn_TX_FSR | W5100_Sn_TX_WR | W5100_Sn_RX_RSR
  | W5100_Sn_RX_RD
  deriving DecidableEq, Repr

open SockReg

/-- One transfer on the bus to the chip. -/
inductive BusOp
  | wreg (reg : SockReg) (isocket : Nat) (val : Nat)
  | wmem (addr : Nat) (data : List Nat)
  | rmem (addr : Nat) (len : Nat)
  deriving DecidableEq, Repr

/-- The whole state: the two global tables, `errno`, the chip and the clock. -/
structure World where
  w5100_sockets : List w5100_socket
  files : List struct_fd
  errno : Option Errno
  regs : SockReg → Nat → Nat
  feed : SockReg → Nat → List Nat
  mem : Nat → Nat
  clock : List Nat
  bus : List BusOp

/-- Why a call does not return. -/
inductive Stuck
  | hang
  | null_deref
  deriving DecidableEq, Repr

/-- The outcome of a call: a result, or the reason there is none. -/
abbrev Run (α : Type) := Except Stuck α

/-- The value a call returned, if it returned. -/
def ret_of {α : Type} : Run (α × World) → Option α
  | .ok (a, _) => some a
  | .error _ => none

/-- The state a call left, if it returned. -/
def world_of {α : Type} : Run (α × World) → Option World
  | .ok (_, w) => some w
  | .error _ => none

/-- The channel entry `w5100_sockets[i]`. -/
def sock (w : World) (i : Nat) : w5100_socket := w.w5100_sockets.getD i default

/-- The assignment `w5100_sockets[i] = f(w5100_sockets[i])`. -/
def upd_sock (w : World) (i : Nat) (f : w5100_socket → w5100_socket) : World :=
  { w with w5100_sockets := w.w5100_sockets.set i (f (sock w i)) }

/-- The descriptor entry a `struct fd *` points to. -/
def file (w : World) (k : Nat) : struct_fd := w.files.getD k default

/-- An assignment through a `struct fd *`. -/
def upd_file (w : World) (k : Nat) (f : struct_fd → struct_fd) : World :=
  { w with files := w.files.set k (f (file w k)) }

def set_errno (e : Errno) (w : World) : World := { w with errno := some e }

/-! ## Register access (external collaborator) -/

/-- The registers whose value the chip drives. -/
def SockReg.volatile : SockReg → Bool
  | W5100_Sn_CR | W5100_Sn_SR | W5100_Sn_TX_FSR | W5100_Sn_RX_RSR => true
  | _ => false

/-- Replace the script of one register of one channel. -/
def set_feed (w : World) (reg : SockReg) (isocket : Nat) (l : List Nat) : World :=
  { w with feed := fun r j => if r = reg ∧ j = isocket then l else w.feed r j }

/-- Modelled from the spec: the bus read primitive (`w5100.h`), taken raw.  A
stored register yields its content, a chip-driven one the next scripted
reading. -/
def read_raw (reg : SockReg) (isocket : Nat) (w : World) : Run (Nat × World) :=
  if reg.volatile then
    match w.feed reg isocket with
    | [] => .error Stuck.hang
    | v :: rest => .ok (v, set_feed w reg isocket rest)
  else .ok (w.regs reg isocket, w)

/-- Modelled from the spec: `w5100_read_sock_reg`, the 8-bit register read. -/
def w5100_read_sock_reg (reg : SockReg) (isocket : Nat) (w : World) : Run (Nat × World) :=
  match read_raw reg isocket w with
  | .ok (v, w1) => .ok (v % 256, w1)
  | .error e => .error e

/-- Modelled from the spec: `w5100_read_sock_regx` into a `uint16_t`. -/
def w5100_read_sock_regx (reg : SockReg) (isocket : Nat) (w : World) : Run (Nat × World) :=
  match read_raw reg isocket w with
  | .ok (v, w1) => .ok (v % 65536, w1)
  | .error e => .error e

/-- Modelled from the spec: `w5100_read_sock_regx` into a 32-bit address. -/
def w5100_read_sock_regx32 (reg : SockReg) (isocket : Nat) (w : World) : Run (Nat × World) :=
  match read_raw reg isocket w with
  | .ok (v, w1) => .ok (v % 4294967296, w1)
  | .error e => .error e

/-- Modelled from the spec: `w5100_write_sock_reg` / `w5100_write_sock_regx`. -/
def w5100_write_sock_reg (reg : SockReg) (isocket : Nat) (val : Nat) (w : World) : World :=
  { w with
    regs := fun r j => if r = reg ∧ j = isocket then val else w.regs r j
    bus := w.bus ++ [BusOp.wreg reg isocket val] }

/-- Modelled from the spec: `w5100_read_mem(addr, dst, n)`; the bytes read. -/
def w5100_read_mem (addr n : Nat) (w : World) : List Nat × World :=
  ((List.range n).map (fun k => w.mem (addr + k) % 256),
   { w with bus := w.bus ++ [BusOp.rmem addr n] })

/-- Modelled from the spec: `w5100_write_mem(addr, src, n)`. -/
def w5100_write_mem (addr : Nat) (data : List Nat) (w : World) : World :=
  { w with
    mem := fun a => if addr ≤ a ∧ a < addr + data.length then data.getD (a - addr) 0 else w.mem a
    bus := w.bus ++ [BusOp.wmem addr data] }

/-- The loop `do { v = read(reg) } while (!stop(v))` over a script: the reading
that ended it and the rest of the script. -/
def await (stop : Nat → Bool) : List Nat → Option (Nat × List Nat)
  | [] => none
  | v :: rest => if stop (v % 256) then some (v % 256, rest) else await stop rest

/-- The busy wait `do { sr = w5100_read_sock_reg(reg, isocket); } while (!stop(sr))`. -/
def wait_reg (reg : SockReg) (isocket : Nat) (stop : Nat → Bool) (w : World) :
    Run (Nat × World) :=
  match await stop (w.feed reg isocket) with
  | none => .error Stuck.hang
  | some (v, rest) => .ok (v, set_feed w reg isocket rest)

/-! ## Descriptor table (external collaborator) -/

/-- Modelled from the spec: `file_struct_get` of the generic descriptor table
(not part of the sources): the entry of a handle, `NULL` for a handle outside
the table. -/
def file_struct_get (fd : Int) (w : World) : Option Nat :=
  if 0 ≤ fd ∧ fd.toNat < w.files.length then some fd.toNat else none

/-- The first slot of the descriptor table that holds the free marker. -/
def first_free_file : List struct_fd → Option Nat
  | [] => none
  | f :: rest => if f.fd = -1 then some 0 else (first_free_file rest).map (· + 1)

/-- Modelled from the spec: `file_alloc` of the generic descriptor table (not
part of the sources): takes the first free slot, records the handle in it and
returns the handle, or returns `-1` when no slot is free. -/
def file_alloc (w : World) : Int × World :=
  match first_free_file w.files with
  | some k => ((k : Int), upd_file w k (fun f => { f with fd := (k : Int) }))
  | none => (-1, w)

/-- Modelled from the spec: `file_free` of the generic descriptor table (not
part of the sources): puts the free marker back into the slot of the handle. -/
def file_free (fd : Int) (w : World) : World :=
  if 0 ≤ fd ∧ fd.toNat < w.files.length then
    upd_file w fd.toNat (fun f => { f with fd := -1 })
  else w

/-! ## Socket registry -/

def get_socket_from_isocket (isocket : Int) (w : World) : Option Nat :=
  if isocket < 0 ∨ isocket ≥ (w.w5100_sockets.length : Int) then none
  else some isocket.toNat

def get_socket_from_fd (fd : Int) (w : World) : Option Nat × World :=
  match file_struct_get fd w with
  | none => (none, set_errno EBADF w)
  | some k =>
    if !(file w k).is_sock then (none, set_errno ENOTSOCK w)
    else
      match (file w k).backing with
      | none => (none, set_errno EBADF w)
      | some i => (some i, w)

/-- Returns the `struct fd *` of `sockfd`; that pointer is dereferenced without
a check. -/
def fill_fd_struct (sockfd : Int) (isocket : Nat) (w : World) : Run (Nat × World) :=
  match file_struct_get sockfd w with
  | none => .error Stuck.null_deref
  | some k =>
    .ok (k, upd_file w k (fun f =>
      { f with isopen := true, is_sock := true, status_flags := O_RDWR,
               backing := some isocket }))

/-- The scan of `socket_alloc`: the first channel whose `fd` is the free marker. -/
def first_free_sock : List w5100_socket → Option Nat
  | [] => none
  | s :: rest =>
    if s.fd = W5100_SOCKET_FREE then some 0 else (first_free_sock rest).map (· + 1)

def socket_alloc (w : World) : Int × World :=
  match first_free_sock w.w5100_sockets with
  | some i => ((i : Int), upd_sock w i (fun s => { s with fd := (i : Int) }))
  | none => (-1, set_errno ENFILE w)

def socket_free (isocket : Nat) (w : World) : World :=
  upd_sock w isocket (fun s =>
    { s with fd := W5100_SOCKET_FREE, fd_data := none, connection_data := none,
             state := W5100_SOCK_STATE_NONE })

/-! ## Command protocol -/

def w5100_command (isocket : Nat) (cmd : Nat) (w : World) : Run World :=
  match wait_reg W5100_Sn_CR isocket (fun cr => cr == 0)
      (w5100_write_sock_reg W5100_Sn_CR isocket cmd w) with
  | .ok (_, w1) => .ok w1
  | .error e => .error e

/-- The test `(p != NULL) && (p->fd == fd)` on a `struct fd *`. -/
def ptr_fd_is (w : World) (p : Option Nat) (fd : Int) : Bool :=
  match p with
  | some k => (file w k).fd == fd
  | none => false

def w5100_sock_close (fd : Int) (w : World) : Run (Int × World) :=
  match get_socket_from_fd fd w with
  | (none, w) => .ok (-1, w)
  | (some si, w) =>
    let s := sock w si
    let isocket := s.isocket
    if ptr_fd_is w s.fd_data fd then
      let k := s.fd_data.getD 0
      let w := upd_file w k (fun f => { f with isopen := false })
      let w := file_free (file w k).fd w
      let w := upd_sock w si (fun s => { s with fd_data := none })
      if s.state ≠ W5100_SOCK_STATE_ACCEPTED then do
        let w ← w5100_command isocket
          (if s.state = W5100_SOCK_STATE_CONNECTED then W5100_CMD_DISCON
           else W5100_CMD_CLOSE) w
        let (_, w) ← wait_reg W5100_Sn_SR isocket (fun sr => sr == W5100_SOCK_CLOSED) w
        pure (0, socket_free isocket w)
      else pure (0, w)
    else if s.connection_data = none then .ok (-1, set_errno EBADF w)
    else if ptr_fd_is w s.connection_data fd then do
      let k := s.connection_data.getD 0
      let w := upd_file w k (fun f => { f with isopen := false })
      let w := file_free (file w k).fd w
      let w := upd_sock w si (fun s => { s with connection_data := none })
      let w ← w5100_command isocket W5100_CMD_DISCON w
      let (_, w) ← wait_reg W5100_Sn_SR isocket (fun sr => sr == W5100_SOCK_CLOSED) w
      if s.fd_data = none then
        pure (0, socket_free isocket w)
      else do
        let w ← w5100_command isocket W5100_CMD_OPEN w
        let w ← w5100_command isocket W5100_CMD_LISTEN w
        let (_, w) ← wait_reg W5100_Sn_SR (sock w si).isocket
          (fun sr => sr == W5100_SOCK_LISTEN || sr == W5100_SOCK_ESTABLISHED) w
        pure (0, upd_sock w si (fun s => { s with state := W5100_SOCK_STATE_LISTENING }))
    else .ok (-1, set_errno EBADF w)

def socket_create (type : Int) (w : World) : Run (Int × World) :=
  match socket_alloc w with
  | (isocket, w) =>
    if isocket ≠ -1 then
      match file_alloc w with
      | (fd, w) =>
        if fd = -1 then
          .ok (fd, set_errno ENFILE (socket_free isocket.toNat w))
        else do
          let (fds, w) ← fill_fd_struct fd isocket.toNat w
          match get_socket_from_isocket isocket w with
          | none => .error Stuck.null_deref
          | some si =>
            let w := upd_sock w si (fun s =>
              { s with fd := fd, isocket := isocket.toNat, domain := AF_INET, type := type,
                       protocol := 0, state := W5100_SOCK_STATE_CREATED,
                       dest_address := { s.dest_address with sin_family := AF_UNSPEC },
                       sockname := { s.sockname with sin_family := AF_UNSPEC },
                       fd_data := some fds, connection_data := none,
                       recv_timeout := 0, send_timeout := 0, can_broadcast := false })
            let sock_mode :=
              if type = SOCK_STREAM then W5100_SOCK_MODE_TCP
              else if type = SOCK_DGRAM then W5100_SOCK_MODE_UDP
              else if type = SOCK_RAW then W5100_SOCK_MODE_IPRAW
              else W5100_SOCK_MODE_TCP
            pure (fd, w5100_write_sock_reg W5100_Sn_MR isocket.toNat sock_mode w)
    else .ok (-1, set_errno ENOMEM w)

def socket (domain : Int) (type : Int) (protocol : Int) (w : World) : Run (Int × World) :=
  if domain ≠ (AF_INET : Int) then .ok (-1, set_errno EAFNOSUPPORT w)
  else if type ≠ SOCK_STREAM ∧ type ≠ SOCK_DGRAM ∧ type ≠ SOCK_RAW then
    .ok (-1, set_errno EPROTOTYPE w)
  else if protocol ≠ 0 then .ok (-1, set_errno EPROTONOSUPPORT w)
  else socket_create type w

/-! ## Channel state machine -/

def bind_udp (si : Nat) (port : Nat) (w : World) : Run World := do
  let isocket := (sock w si).isocket
  let w := w5100_write_sock_reg W5100_Sn_PORT isocket port w
  let w ← w5100_command isocket W5100_CMD_OPEN w
  let (_, w) ← wait_reg W5100_Sn_SR isocket (fun sr => sr == W5100_SOCK_UDP) w
  pure (upd_sock w si (fun s =>
    { s with sockname := { sin_family := AF_INET, sin_addr := INADDR_ANY, sin_port := port },
             state := W5100_SOCK_STATE_BOUND }))

/-- The `for` loop of `get_avail_port` from channel `isocket` on, `n` channels
left: whether a channel not in state NONE has `avail_port` in its port
register (a stored register, read with `w5100_read_sock_regx`). -/
def port_scan (w : World) (avail_port : Nat) : Nat → Nat → Bool
  | 0, _ => false
  | n + 1, isocket =>
    if (sock w isocket).state ≠ W5100_SOCK_STATE_NONE
        ∧ w.regs W5100_Sn_PORT isocket % 65536 = avail_port then true
    else port_scan w avail_port n (isocket + 1)

/-- The `do ... while (port_used)` loop of `get_avail_port`, at most `fuel`
rounds. -/
def get_avail_port_loop (w : World) : Nat → Nat → Option Nat
  | 0, _ => none
  | fuel + 1, avail_port =>
    if port_scan w avail_port w.w5100_sockets.length 0 then
      get_avail_port_loop w fuel ((avail_port + 65535) % 65536)
    else some avail_port

def get_avail_port (w : World) : Option Nat :=
  get_avail_port_loop w (w.w5100_sockets.length + 1) (htons 0x7FF0)

def check_bind_udp (si : Nat) (w : World) : Run World :=
  if (sock w si).state = W5100_SOCK_STATE_CREATED then
    match get_avail_port w with
    | none => .error Stuck.hang
    | some port => bind_udp si port w
  else .ok w

def connect_tcp (si : Nat) (addr : sockaddr_in) (w : World) : Run (Int × World) :=
  let s := sock w si
  if addr.sin_family ≠ AF_INET then .ok (-1, set_errno EAFNOSUPPORT w)
  else if s.state = W5100_SOCK_STATE_CONNECTED ∨ s.state = W5100_SOCK_STATE_ACCEPTED then
    .ok (-1, set_errno EISCONN w)
  else if s.state = W5100_SOCK_STATE_LISTENING then .ok (-1, set_errno EOPNOTSUPP w)
  else if s.state ≠ W5100_SOCK_STATE_CREATED then .ok (-1, set_errno EOPNOTSUPP w)
  else do
    let isocket := s.isocket
    let w := w5100_write_sock_reg W5100_Sn_PORT isocket addr.sin_port w
    let w ← w5100_command isocket W5100_CMD_OPEN w
    let (_, w) ← wait_reg W5100_Sn_SR isocket (fun sr => sr == W5100_SOCK_INIT) w
    let w := w5100_write_sock_reg W5100_Sn_DIPR isocket addr.sin_addr w
    let w := w5100_write_sock_reg W5100_Sn_DPORT isocket addr.sin_port w
    let w ← w5100_command isocket W5100_CMD_CONNECT w
    let (sr, w) ← wait_reg W5100_Sn_SR isocket
      (fun sr => sr == W5100_SOCK_CLOSED || sr == W5100_SOCK_ESTABLISHED) w
    if sr = W5100_SOCK_ESTABLISHED then
      pure (0, upd_sock w si (fun s =>
        { s with state := W5100_SOCK_STATE_CONNECTED, dest_address := addr }))
    else if sr = W5100_SOCK_CLOSED then pure (-1, set_errno ECONNREFUSED w)
    else pure (-1, set_errno ECONNREFUSED w)

def connect_udp (si : Nat) (addr : sockaddr_in) (w : World) : Run (Int × World) :=
  if addr.sin_family = AF_UNSPEC then do
    let w := upd_sock w si (fun s =>
      { s with dest_address := { s.dest_address with sin_family := AF_UNSPEC } })
    let w ← check_bind_udp si w
    pure (0, w)
  else if addr.sin_family = AF_INET then do
    let w := upd_sock w si (fun s => { s with dest_address := addr })
    let w ← check_bind_udp si w
    pure (0, w)
  else .ok (-1, set_errno EAFNOSUPPORT w)

def connect (sockfd : Int) (addr : sockaddr_in) (w : World) : Run (Int × World) :=
  match get_socket_from_fd sockfd w with
  | (none, w) => .ok (-1, w)
  | (some si, w) =>
    if (sock w si).type = SOCK_STREAM then connect_tcp si addr w
    else if (sock w si).type = SOCK_DGRAM then connect_udp si addr w
    else .ok (-1, set_errno EAFNOSUPPORT w)

def bind (sockfd : Int) (addr : sockaddr_in) (w : World) : Run (Int × World) :=
  match get_socket_from_fd sockfd w with
  | (none, w) => .ok (-1, w)
  | (some si, w) =>
    let s := sock w si
    if addr.sin_family ≠ AF_INET then .ok (-1, set_errno EAFNOSUPPORT w)
    else if s.state ≠ W5100_SOCK_STATE_CREATED then .ok (1, set_errno EINVAL w)
    else if s.type = SOCK_STREAM then do
      let w := w5100_write_sock_reg W5100_Sn_PORT s.isocket addr.sin_port w
      let w ← w5100_command s.isocket W5100_CMD_OPEN w
      let sr_end := W5100_SOCK_INIT
      let (_, w) ← wait_reg W5100_Sn_SR s.isocket (fun sr => sr == sr_end) w
      pure (0, upd_sock w si (fun s =>
        { s with sockname := addr, state := W5100_SOCK_STATE_BOUND }))
    else if s.type = SOCK_DGRAM then do
      let w ← bind_udp si addr.sin_port w
      pure (0, w)
    else .ok (-1, set_errno EBADF w)

def listen (sockfd : Int) (backlog : Int) (w : World) : Run (Int × World) :=
  match get_socket_from_fd sockfd w with
  | (none, w) => .ok (-1, w)
  | (some si, w) =>
    let s := sock w si
    if s.state ≠ W5100_SOCK_STATE_BOUND then .ok (1, set_errno EDESTADDRREQ w)
    else if s.type ≠ SOCK_STREAM then .ok (-1, set_errno EOPNOTSUPP w)
    else do
      let _ := backlog
      let w ← w5100_command s.isocket W5100_CMD_LISTEN w
      let (_, w) ← wait_reg W5100_Sn_SR s.isocket
        (fun sr => sr == W5100_SOCK_LISTEN || sr == W5100_SOCK_ESTABLISHED) w
      pure (0, upd_sock w si (fun s => { s with state := W5100_SOCK_STATE_LISTENING }))

/-- The read `p->status_flags & O_NONBLOCK` through a `struct fd *`. -/
def nonblock_of (p : Option Nat) (w : World) : Run Bool :=
  match p with
  | none => .error Stuck.null_deref
  | some k => .ok ((file w k).status_flags &&& O_NONBLOCK != 0)

/-- What `accept` hands back: the return value and the caller's `addr` and
`addrlen` objects (`none` for a `NULL` pointer). -/
structure AcceptResult where
  ret : Int
  addr : Option sockaddr_in
  addrlen : Option Nat
  deriving DecidableEq, Repr

/-- The `do ... while (1)` loop of `accept`, at most `fuel` rounds. -/
def accept_loop (si : Nat) (addr : Option sockaddr_in) (addrlen : Option Nat)
    (nonblock : Bool) : Nat → World → Run (AcceptResult × World)
  | 0, _ => .error Stuck.hang
  | fuel + 1, w => do
    let isocket := (sock w si).isocket
    let (sr, w) ← w5100_read_sock_reg W5100_Sn_SR isocket w
    if sr = W5100_SOCK_ESTABLISHED then
      match file_alloc w with
      | (newsockfd, w) =>
        if newsockfd = -1 then do
          let w := set_errno ENFILE w
          let w ← w5100_command isocket W5100_CMD_CLOSE w
          let w ← w5100_command isocket W5100_CMD_OPEN w
          let w ← w5100_command isocket W5100_CMD_LISTEN w
          pure (⟨newsockfd, addr, addrlen⟩, w)
        else do
          let w := upd_sock w si (fun s => { s with state := W5100_SOCK_STATE_ACCEPTED })
          let (fds, w) ← fill_fd_struct newsockfd isocket w
          let w := upd_sock w si (fun s => { s with connection_data := some fds })
          match addr with
          | some client => do
            let addrlen := addrlen.map (fun _ => 16)
            let (ip, w) ← w5100_read_sock_regx32 W5100_Sn_DIPR isocket w
            let (port, w) ← w5100_read_sock_regx W5100_Sn_DPORT isocket w
            pure (⟨newsockfd,
              some { client with sin_family := AF_INET, sin_addr := ip, sin_port := port },
              addrlen⟩, w)
          | none => pure (⟨newsockfd, addr, addrlen⟩, w)
    else if nonblock then
      pure (⟨-1, addr, addrlen⟩, set_errno EAGAIN w)
    else accept_loop si addr addrlen nonblock fuel w

/-- Every round of the loop of `accept` reads `Sn_SR` once, so the length of
its script bounds the number of rounds that can return. -/
def accept (sockfd : Int) (addr : Option sockaddr_in) (addrlen : Option Nat) (w : World) :
    Run (AcceptResult × World) :=
  match get_socket_from_fd sockfd w with
  | (none, w) => .ok (⟨-1, addr, addrlen⟩, w)
  | (some si, w) =>
    let s := sock w si
    if s.state ≠ W5100_SOCK_STATE_LISTENING then
      .ok (⟨1, addr, addrlen⟩, set_errno EINVAL w)
    else if s.type ≠ SOCK_STREAM then .ok (⟨-1, addr, addrlen⟩, set_errno EOPNOTSUPP w)
    else do
      let nonblock ← nonblock_of s.fd_data w
      accept_loop si addr addrlen nonblock ((w.feed W5100_Sn_SR s.isocket).length + 1) w

/-! ## Timeout manager -/

/-- Modelled from the spec: `timespec_diff(a, b, NULL)` of `timespec.h` (not
part of the sources): negative, zero or positive as `a` is before, at or after
`b`. -/
def timespec_diff (a b : Nat) : Int := (a : Int) - (b : Int)

/-- Modelled from the spec: `clock_gettime(CLOCK_MONOTONIC, ...)`: the next
scripted reading of the monotonic clock. -/
def clock_gettime (w : World) : Run (Nat × World) :=
  match w.clock with
  | [] => .error Stuck.hang
  | t :: rest => .ok (t, { w with clock := rest })

def timeout_init (timeout : Nat) (w : World) : Run (timeout_manager × World) :=
  if timespec_diff 0 timeout ≠ 0 then do
    let (now, w) ← clock_gettime w
    pure ({ has_timeout := true, tm_end := now + timeout }, w)
  else .ok ({ has_timeout := false, tm_end := 0 }, w)

def timeout_ended (tom : timeout_manager) (w : World) : Run (Bool × World) :=
  if tom.has_timeout then do
    let (cur, w) ← clock_gettime w
    let ret := decide (timespec_diff tom.tm_end cur < 0)
    if ret then pure (ret, set_errno EAGAIN w) else pure (ret, w)
  else .ok (false, w)

/-! ## Ring buffer transfer -/

def get_tx_size (_isocket : Nat) : Nat := 0x800

def get_tx_mask (isocket : Nat) : Nat := (get_tx_size isocket - 1) % 65536

def get_tx_base (isocket : Nat) : Nat :=
  (W5100_TX_MEM_BASE + get_tx_size isocket * isocket) % 65536

def get_rx_size (_isocket : Nat) : Nat := 0x800

def get_rx_mask (isocket : Nat) : Nat := (get_rx_size isocket - 1) % 65536

def get_rx_base (isocket : Nat) : Nat :=
  (W5100_RX_MEM_BASE + get_rx_size isocket * isocket) % 65536

def manage_disconnect (si : Nat) (w : World) : Run (Int × World) := do
  let isocket := (sock w si).isocket
  let (sr, w) ← w5100_read_sock_reg W5100_Sn_SR isocket w
  if sr ≠ W5100_SOCK_ESTABLISHED then do
    let w := if sr = W5100_SOCK_CLOSE_WAIT then set_errno ECONNRESET w
             else set_errno ETIMEDOUT w
    let w ← w5100_command isocket W5100_CMD_DISCON w
    let (_, w) ← wait_reg W5100_Sn_SR isocket (fun sr => sr == W5100_SOCK_CLOSED) w
    if (sock w si).state = W5100_SOCK_STATE_ACCEPTED ∧ (sock w si).fd_data ≠ none then do
      let w ← w5100_command isocket W5100_CMD_OPEN w
      let w ← w5100_command isocket W5100_CMD_LISTEN w
      let (_, w) ← wait_reg W5100_Sn_SR isocket
        (fun sr => sr == W5100_SOCK_LISTEN || sr == W5100_SOCK_ESTABLISHED) w
      pure (-1, upd_sock w si (fun s => { s with state := W5100_SOCK_STATE_LISTENING }))
    else
      pure (-1, upd_sock w si (fun s => { s with state := W5100_SOCK_STATE_DISCONNECTED }))
  else pure (0, w)

def read_buf_len (isocket : Nat) (w : World) : Run (Nat × World) := do
  let (toread, w) ← w5100_read_sock_regx W5100_Sn_RX_RSR isocket w
  pure (ntohs toread, w)

/-- The bytes `buf[off], ..., buf[off + n - 1]` of a caller's buffer. -/
def slice (buf : List Nat) (off n : Nat) : List Nat :=
  (List.range n).map (fun k => buf.getD (off + k) 0)

/-- Returns the bytes stored into `buf` and the new value of `*pread`. -/
def read_buf_sure (isocket : Nat) (len : Nat) (pread : Nat) (w : World) :
    (List Nat × Nat) × World :=
  let offset := pread &&& get_rx_mask isocket
  let phys := (get_rx_base isocket + offset) % 65536
  let toread1 :=
    if offset + len > get_rx_size isocket then (get_rx_size isocket - offset) % 65536
    else len % 65536
  let toread2 :=
    if offset + len > get_rx_size isocket then (len - toread1) % 65536 else 0
  let (bytes1, w) := if toread1 > 0 then w5100_read_mem phys toread1 w else ([], w)
  let (bytes2, w) :=
    if toread2 > 0 then w5100_read_mem (get_rx_base isocket) toread2 w else ([], w)
  ((bytes1 ++ bytes2, (pread + len) % 65536), w)

def read_buf_pstart (isocket : Nat) (w : World) : Run (Nat × World) := do
  let (pread, w) ← w5100_read_sock_regx W5100_Sn_RX_RD isocket w
  pure (ntohs pread, w)

def read_buf_recv (isocket : Nat) (pstop : Nat) (w : World) : Run World :=
  let pstop := htons pstop
  let w := w5100_write_sock_reg W5100_Sn_RX_RD isocket pstop w
  w5100_command isocket W5100_CMD_RECV w

/-- Returns the count (a `uint16_t`) and the bytes stored into `buf`. -/
def read_buf (isocket : Nat) (len : Nat) (w : World) : Run ((Nat × List Nat) × World) := do
  let (toread, w) ← read_buf_len isocket w
  if toread ≠ 0 then do
    let len := if len > toread then toread else len
    let (pread, w) ← read_buf_pstart isocket w
    let ((bytes, pread), w) := read_buf_sure isocket len pread w
    let w ← read_buf_recv isocket pread w
    pure ((len % 65536, bytes), w)
  else pure ((0, []), w)

def write_buf_len (isocket : Nat) (w : World) : Run (Nat × World) := do
  let (nfree, w) ← w5100_read_sock_regx W5100_Sn_TX_FSR isocket w
  pure (ntohs nfree, w)

def write_buf_pstart (isocket : Nat) (w : World) : Run (Nat × World) := do
  let (pwrite, w) ← w5100_read_sock_regx W5100_Sn_TX_WR isocket w
  pure (ntohs pwrite, w)

def write_buf_send (isocket : Nat) (pstop : Nat) (w : World) : Run World :=
  let pstop := htons pstop
  let w := w5100_write_sock_reg W5100_Sn_TX_WR isocket pstop w
  w5100_command isocket W5100_CMD_SEND w

/-- Returns the new value of `*pwrite`. -/
def write_buf_sure (isocket : Nat) (buf : List Nat) (len : Nat) (pwrite : Nat) (w : World) :
    Nat × World :=
  let offset := pwrite &&& get_tx_mask isocket
  let phys := (offset + get_tx_base isocket) % 65536
  let towrite1 :=
    if len + offset > get_tx_size isocket then (get_tx_size isocket - offset) % 65536
    else len % 65536
  let towrite2 :=
    if len + offset > get_tx_size isocket then (len - towrite1) % 65536 else 0
  let w := if towrite1 > 0 then w5100_write_mem phys (slice buf 0 towrite1) w else w
  let w :=
    if towrite2 > 0 then w5100_write_mem (get_tx_base isocket) (slice buf towrite1 towrite2) w
    else w
  ((pwrite + len) % 65536, w)

def write_buf (isocket : Nat) (buf : List Nat) (len : Nat) (w : World) : Run (Nat × World) := do
  let (nfree, w) ← write_buf_len isocket w
  if nfree > 0 then do
    let len := if len > nfree then nfree else len
    let (pwrite, w) ← write_buf_pstart isocket w
    let (pwrite, w) := write_buf_sure isocket buf len pwrite w
    let w ← write_buf_send isocket pwrite w
    pure (len % 65536, w)
  else pure (0, w)

/-! ## Blocking I/O -/

/-- What `recvfrom` hands back: the return value, the bytes it stored into
`buf` (from `buf[0]` on), and the caller's `address` and `address_len` objects
(`none` for a `NULL` pointer). -/
structure RecvResult where
  ret : Int
  buf : List Nat
  address : Option sockaddr_in
  address_len : Option Nat
  deriving DecidableEq, Repr

/-- The integer `memcpy` builds from two bytes on the little-endian host. -/
def le16 (b0 b1 : Nat) : Nat := b0 + 256 * b1

/-- The integer `memcpy` builds from four bytes on the little-endian host. -/
def le32 (b0 b1 b2 b3 : Nat) : Nat := b0 + 256 * b1 + 65536 * b2 + 16777216 * b3

/-- The end of one round of the loop of `recvfrom`: `if (nonblock) ... else if
(timeout_ended(&tom)) ...`, and otherwise the next round `again`. -/
def recvfrom_wait (address : Option sockaddr_in) (address_len : Option Nat)
    (nonblock : Bool) (tom : timeout_manager)
    (again : World → Run (RecvResult × World)) (w : World) : Run (RecvResult × World) :=
  if nonblock then .ok (⟨-1, [], address, address_len⟩, set_errno EAGAIN w)
  else
    match timeout_ended tom w with
    | .error e => .error e
    | .ok (ended, w) =>
      if ended then .ok (⟨-1, [], address, address_len⟩, w) else again w

/-- The `do ... while (1)` loop of `recvfrom`, at most `fuel` rounds. -/
def recvfrom_loop (si : Nat) (len : Nat) (address : Option sockaddr_in)
    (address_len : Option Nat) (nonblock : Bool) (tom : timeout_manager) :
    Nat → World → Run (RecvResult × World)
  | 0, _ => .error Stuck.hang
  | fuel + 1, w =>
    let s := sock w si
    if s.type = SOCK_STREAM then
      match read_buf s.isocket len w with
      | .error e => .error e
      | .ok ((nread, bytes), w) =>
        if nread ≠ 0 then .ok (⟨nread, bytes, address, address_len⟩, w)
        else
          match manage_disconnect si w with
          | .error e => .error e
          | .ok (r, w) =>
            if r = -1 then .ok (⟨-1, [], address, address_len⟩, w)
            else recvfrom_wait address address_len nonblock tom
              (recvfrom_loop si len address address_len nonblock tom fuel) w
    else if s.type = SOCK_DGRAM then
      match read_buf_len s.isocket w with
      | .error e => .error e
      | .ok (toread, w) =>
        if toread ≥ 8 then
          match read_buf_pstart s.isocket w with
          | .error e => .error e
          | .ok (pread, w) =>
            let ((header, pread), w) := read_buf_sure s.isocket 8 pread w
            let address' :=
              if address ≠ none ∧ address_len ≠ none then
                address.map (fun peer =>
                  { peer with
                    sin_addr := le32 (header.getD 0 0) (header.getD 1 0) (header.getD 2 0)
                      (header.getD 3 0)
                    sin_port := le16 (header.getD 4 0) (header.getD 5 0) })
              else address
            let address_len' :=
              if address ≠ none ∧ address_len ≠ none then some 16 else address_len
            let msg_len := ntohs (le16 (header.getD 6 0) (header.getD 7 0))
            let ((bytes, pread), w) := read_buf_sure s.isocket msg_len pread w
            match read_buf_recv s.isocket pread w with
            | .error e => .error e
            | .ok w => .ok (⟨msg_len, bytes, address', address_len'⟩, w)
        else recvfrom_wait address address_len nonblock tom
          (recvfrom_loop si len address address_len nonblock tom fuel) w
    else recvfrom_wait address address_len nonblock tom
      (recvfrom_loop si len address address_len nonblock tom fuel) w

/-- A round of the loop of `recvfrom` that does not return either reads
`Sn_RX_RSR` or the clock, or changes nothing at all; so the lengths of the two
scripts bound the number of rounds of a call that returns. -/
def recvfrom (sockfd : Int) (len : Nat) (address : Option sockaddr_in)
    (address_len : Option Nat) (w : World) : Run (RecvResult × World) :=
  match get_socket_from_fd sockfd w with
  | (none, w) => .ok (⟨-1, [], address, address_len⟩, w)
  | (some si, w) =>
    let s := sock w si
    if s.type = SOCK_STREAM ∧ s.state ≠ W5100_SOCK_STATE_ACCEPTED
        ∧ s.state ≠ W5100_SOCK_STATE_CONNECTED then
      .ok (⟨1, [], address, address_len⟩, set_errno ENOTCONN w)
    else if s.type = SOCK_DGRAM ∧ s.state ≠ W5100_SOCK_STATE_BOUND
        ∧ s.state ≠ W5100_SOCK_STATE_CREATED then
      .ok (⟨1, [], address, address_len⟩, set_errno ENOTCONN w)
    else if len = 0 then .ok (⟨0, [], address, address_len⟩, w)
    else do
      let nonblock ← nonblock_of s.fd_data w
      let (tom, w) ←
        if !nonblock then timeout_init s.recv_timeout w
        else pure ({ has_timeout := false, tm_end := 0 }, w)
      recvfrom_loop si len address address_len nonblock tom
        ((w.feed W5100_Sn_RX_RSR s.isocket).length + w.clock.length + 1) w

def recv (sockfd : Int) (len : Nat) (w : World) : Run (RecvResult × World) :=
  recvfrom sockfd len none none w

/-- The `while (towrite > 0)` loop of `send`, at most `fuel` rounds: the values
of `ret` (`none` while unassigned) and `towrite` when the loop is left. -/
def send_loop (si : Nat) (nonblock : Bool) (tom : timeout_manager) :
    Nat → Option Int → List Nat → Nat → World → Run ((Option Int × Nat) × World)
  | 0, _, _, _, _ => .error Stuck.hang
  | fuel + 1, ret, bytes, towrite, w =>
    if towrite > 0 then
      match write_buf (sock w si).isocket bytes towrite w with
      | .error e => .error e
      | .ok (written, w) =>
        if written > 0 then
          if nonblock then .ok ((ret, towrite - written), w)
          else send_loop si nonblock tom fuel ret (bytes.drop written) (towrite - written) w
        else
          match manage_disconnect si w with
          | .error e => .error e
          | .ok (r, w) =>
            if r = -1 then .ok ((some (-1), towrite), w)
            else if nonblock then .ok ((ret, towrite), set_errno EAGAIN w)
            else
              match timeout_ended tom w with
              | .error e => .error e
              | .ok (ended, w) =>
                if ended then .ok ((ret, towrite), w)
                else send_loop si nonblock tom fuel ret bytes towrite w
    else .ok ((ret, towrite), w)

/-- The loop of `sendto` on a datagram socket, at most `fuel` rounds. -/
def sendto_loop (isocket : Nat) (buf : List Nat) (len : Nat) (peer : sockaddr_in)
    (nonblock : Bool) (tom : timeout_manager) : Nat → World → Run (Int × World)
  | 0, _ => .error Stuck.hang
  | fuel + 1, w =>
    match write_buf_len isocket w with
    | .error e => .error e
    | .ok (nfree, w) =>
      if nfree ≥ len then
        let w := w5100_write_sock_reg W5100_Sn_DIPR isocket peer.sin_addr w
        let w := w5100_write_sock_reg W5100_Sn_DPORT isocket peer.sin_port w
        match write_buf isocket buf len w with
        | .error e => .error e
        | .ok (n, w) => .ok ((n : Int), w)
      else if nonblock then .ok (1, set_errno EAGAIN w)
      else
        match timeout_ended tom w with
        | .error e => .error e
        | .ok (ended, w) =>
          if ended then .ok (-1, w)
          else sendto_loop isocket buf len peer nonblock tom fuel w

/-- The body of `send`; `sendto'` is the function it calls for a datagram
socket.  Every round of its loop reads `Sn_TX_FSR` once, so the length of that
script bounds the number of rounds of a call that returns. -/
def send_body
    (sendto' : Int → List Nat → Nat → Option sockaddr_in → World → Run (Int × World))
    (sockfd : Int) (buf : List Nat) (len : Nat) (w : World) : Run (Int × World) :=
  match get_socket_from_fd sockfd w with
  | (none, w) => .ok (-1, w)
  | (some si, w) =>
    let s := sock w si
    if s.type = SOCK_DGRAM then
      if s.dest_address.sin_family = AF_UNSPEC then .ok (-1, set_errno EDESTADDRREQ w)
      else sendto' sockfd buf len (some s.dest_address) w
    else if s.type ≠ SOCK_STREAM then .ok (-1, set_errno EDESTADDRREQ w)
    else if s.state ≠ W5100_SOCK_STATE_ACCEPTED ∧ s.state ≠ W5100_SOCK_STATE_CONNECTED then
      .ok (1, set_errno ENOTCONN w)
    else do
      let nonblock ← nonblock_of s.fd_data w
      let (tom, w) ←
        if !nonblock then timeout_init s.send_timeout w
        else pure ({ has_timeout := false, tm_end := 0 }, w)
      let ((_, towrite), w) ← send_loop si nonblock tom
        ((w.feed W5100_Sn_TX_FSR s.isocket).length + 1) none buf len w
      pure (((len - towrite : Nat) : Int), w)

/-- The body of `sendto`; `send'` is the function it calls for a stream
socket. -/
def sendto_body (send' : Int → List Nat → Nat → World → Run (Int × World))
    (sockfd : Int) (buf : List Nat) (len : Nat) (dest_address : Option sockaddr_in)
    (w : World) : Run (Int × World) :=
  match get_socket_from_fd sockfd w with
  | (none, w) => .ok (-1, w)
  | (some si, w) =>
    if (sock w si).type = SOCK_STREAM then send' sockfd buf len w
    else if (sock w si).type = SOCK_DGRAM then do
      let w ← check_bind_udp si w
      let s := sock w si
      if len > get_tx_size s.isocket then pure (-1, set_errno EMSGSIZE w)
      else
        match dest_address with
        | none => pure (-1, set_errno EDESTADDRREQ w)
        | some peer =>
          if peer.sin_addr = INADDR_BROADCAST ∧ !s.can_broadcast then
            pure (-1, set_errno EINVAL w)
          else do
            let nonblock ← nonblock_of s.fd_data w
            let (tom, w) ←
              if !nonblock then timeout_init s.send_timeout w
              else pure ({ has_timeout := false, tm_end := 0 }, w)
            sendto_loop s.isocket buf len peer nonblock tom
              ((w.feed W5100_Sn_TX_FSR s.isocket).length + 1) w
    else .ok (-1, set_errno EBADF w)

/-- The function `send`.  It and `sendto` call each other, `send` for a
datagram socket and `sendto` for a stream socket, so the call chain ends after
one step: the innermost call is never reached. -/
def send (sockfd : Int) (buf : List Nat) (len : Nat) (w : World) : Run (Int × World) :=
  send_body (sendto_body (fun _ _ _ _ => .error Stuck.hang)) sockfd buf len w

def sendto (sockfd : Int) (buf : List Nat) (len : Nat) (dest_address : Option sockaddr_in)
    (w : World) : Run (Int × World) :=
  sendto_body (send_body (fun _ _ _ _ _ => .error Stuck.hang)) sockfd buf len dest_address w

def w5100_sock_write (fd : Int) (buf : List Nat) (len : Nat) (w : World) : Run (Int × World) :=
  send fd buf len w

def w5100_sock_read (fd : Int) (len : Nat) (w : World) : Run (RecvResult × World) :=
  recv fd len w

/-! ## Poll -/

def w5100_sock_poll_rw (isocket : Nat) (w : World) : Run (Nat × World) := do
  let (toread, w) ← read_buf_len isocket w
  let (towrite, w) ← write_buf_len isocket w
  let ret := 0
  let ret := if toread > 0 then ret ||| (POLLRDNORM ||| POLLIN) else ret
  let ret := if towrite > 0 then ret ||| (POLLWRNORM ||| POLLOUT) else ret
  pure (ret, w)

def w5100_sock_poll (fd : Int) (w : World) : Run (Nat × World) :=
  match get_socket_from_fd fd w with
  | (none, w) => .ok (POLLNVAL, w)
  | (some si, w) =>
    let s := sock w si
    if s.state = W5100_SOCK_STATE_LISTENING then do
      let (sr, w) ← w5100_read_sock_reg W5100_Sn_SR s.isocket w
      if sr = W5100_SOCK_ESTABLISHED then pure (POLLRDNORM ||| POLLIN, w) else pure (0, w)
    else if s.type = SOCK_STREAM
        ∧ (s.state = W5100_SOCK_STATE_CONNECTED ∨ s.state = W5100_SOCK_STATE_ACCEPTED) then do
      let (sr, w) ← w5100_read_sock_reg W5100_Sn_SR s.isocket w
      if sr ≠ W5100_SOCK_ESTABLISHED then pure (POLLHUP, w)
      else w5100_sock_poll_rw s.isocket w
    else if s.type = SOCK_DGRAM
        ∧ (s.state = W5100_SOCK_STATE_CONNECTED ∨ s.state = W5100_SOCK_STATE_BOUND) then
      w5100_sock_poll_rw s.isocket w
    else .ok (POLLNVAL, w)

/-! ## Scenarios -/

/-- A world with the given tables and scripts for channel 0; every stored
register and memory byte is zero, the bus log is empty. -/
def world0 (socks : List w5100_socket) (files : List struct_fd)
    (cr sr fsr rsr : List Nat) (clock : List Nat) : World :=
  { w5100_sockets := socks
    files := files
    errno := none
    regs := fun _ _ => 0
    feed := fun r j =>
      if j = 0 then
        match r with
        | W5100_Sn_CR => cr
        | W5100_Sn_SR => sr
        | W5100_Sn_TX_FSR => fsr
        | W5100_Sn_RX_RSR => rsr
        | _ => []
      else []
    mem := fun _ => 0
    clock := clock
    bus := [] }

/-- A channel entry as `socket_create` leaves it, moved to the given state:
channel 0, owned by handle 0. -/
def chan0 (type : Int) (state : w5100_socket_state) : w5100_socket :=
  { fd := 0, isocket := 0, domain := AF_INET, type := type, protocol := 0, state := state,
    sockname := ⟨AF_UNSPEC, 0, 0⟩, dest_address := ⟨AF_UNSPEC, 0, 0⟩, can_broadcast := false,
    recv_timeout := 0, send_timeout := 0, fd_data := some 0, connection_data := none }

/-- The descriptor entry of an open socket handle `h` of channel 0. -/
def sockfd0 (h : Int) (flags : Nat) : struct_fd :=
  { fd := h, isopen := true, is_sock := true, status_flags := flags, backing := some 0 }

/-- The failing input of the hard-disconnect case of `send`: a connected stream
socket, no room in the TX ring, and a status register that reads CLOSED. -/
def world_send_disconnect : World :=
  world0 [chan0 SOCK_STREAM W5100_SOCK_STATE_CONNECTED] [sockfd0 0 O_RDWR]
    [0] [W5100_SOCK_CLOSED, W5100_SOCK_CLOSED] [0] [] []

/-- As `world_send_disconnect`, but the first reading of the free size is one
byte, so that one byte is sent before the disconnect is seen. -/
def world_send_disconnect_late : World :=
  world0 [chan0 SOCK_STREAM W5100_SOCK_STATE_CONNECTED] [sockfd0 0 O_RDWR]
    [0, 0] [W5100_SOCK_CLOSED, W5100_SOCK_CLOSED] [htons 1, 0] [] []

/-- A world whose only channel is a stream socket in the given state, with a
chip that is never asked anything. -/
def world_stream (state : w5100_socket_state) : World :=
  world0 [chan0 SOCK_STREAM state] [sockfd0 0 O_RDWR] [] [] [] [] []

/-- A listening channel 0 with its handle 0 attached; handle 1 is a released
socket descriptor that still points at the channel. -/
def world_stale_handle : World :=
  world0 [chan0 SOCK_STREAM W5100_SOCK_STATE_LISTENING]
    [sockfd0 0 O_RDWR, { sockfd0 (-1) O_RDWR with isopen := false }] [] [] [] [] []

/-- A world whose only channel is a raw socket in CREATED state, owned by
handle 0 with the given status flags; the chip is never asked anything. -/
def world_raw (flags : Nat) : World :=
  world0 [chan0 SOCK_RAW W5100_SOCK_STATE_CREATED] [sockfd0 0 flags] [] [] [] [] []

/-- A listening stream channel 0 owned by handle 0, with a pending connection
(the status register reads ESTABLISHED twice), data to read and room to write;
slot 1 of the descriptor table is free. -/
def world_listen_pending : World :=
  world0 [chan0 SOCK_STREAM W5100_SOCK_STATE_LISTENING]
    [sockfd0 0 O_RDWR, default] [] [W5100_SOCK_ESTABLISHED, W5100_SOCK_ESTABLISHED]
    [htons 2048] [htons 5] []

/-- A command register that reads zero: the chip took the command. -/
abbrev cmd_done : Nat → Bool := fun cr => cr == 0

/-- A status register that reads CLOSED. -/
abbrev sr_closed : Nat → Bool := fun sr => sr == W5100_SOCK_CLOSED

/-- A status register that reads LISTEN or ESTABLISHED. -/
abbrev sr_listen : Nat → Bool :=
  fun sr => sr == W5100_SOCK_LISTEN || sr == W5100_SOCK_ESTABLISHED

/-- The readings of a script let the busy waits for `stops`, one after the
other, all end: the chip answers each of them. -/
def awaits : List (Nat → Bool) → List Nat → Bool
  | [], _ => true
  | stop :: stops, l =>
    match await stop l with
    | none => false
    | some (_, rest) => awaits stops rest

/-- Channel 0 in ACCEPTED state: handle 0 listens, handle 1 is the accepted
connection.  The chip acknowledges three commands (the first after one busy
reading) and its status goes to CLOSED and then to LISTEN. -/
def world_accepted : World :=
  world0 [{ chan0 SOCK_STREAM W5100_SOCK_STATE_ACCEPTED with connection_data := some 1 }]
    [sockfd0 0 O_RDWR, sockfd0 1 O_RDWR] [W5100_CMD_DISCON, 0, 0, 0]
    [W5100_SOCK_ESTABLISHED, W5100_SOCK_CLOSED, W5100_SOCK_LISTEN] [] [] []

/-- The byte of the RX window of channel `isocket` at ring position `p`. -/
def rx_ring_byte (w : World) (isocket p : Nat) : Nat :=
  w.mem (get_rx_base isocket + p % get_rx_size isocket) % 256

/-- A bound datagram socket on channel 0 (handle 0, blocking, no timeout) that
holds one datagram at the end of its RX window: the read pointer is 2044, so
the header straddles the window end; source 10.0.0.1 port 0x1234, payload
length 3, payload 0xAA 0xBB 0xCC. -/
def world_datagram : World :=
  { world0 [chan0 SOCK_DGRAM W5100_SOCK_STATE_BOUND] [sockfd0 0 O_RDWR] [0] [] []
      [htons 11] [] with
    regs := fun r j => if r = W5100_Sn_RX_RD ∧ j = 0 then htons 2044 else 0
    mem := fun a =>
      if a = 0x6000 + 2044 then 10 else if a = 0x6000 + 2047 then 1
      else if a = 0x6000 then 0x12 else if a = 0x6000 + 1 then 0x34
      else if a = 0x6000 + 3 then 3
      else if a = 0x6000 + 4 then 0xAA else if a = 0x6000 + 5 then 0xBB
      else if a = 0x6000 + 6 then 0xCC else 0 }

/-- The scenario of `n` successive calls `socket(AF_INET, type, 0)`: the
handles they return, in order, and the state they leave. -/
def socket_n (type : Int) : Nat → World → Run (List Int × World)
  | 0, w => .ok ([], w)
  | n + 1, w =>
    match socket (AF_INET : Int) type 0 w with
    | .error e => .error e
    | .ok (fd, w) =>
      match socket_n type n w with
      | .error e => .error e
      | .ok (fds, w) => .ok (fd :: fds, w)

/-- The number of free slots of the descriptor table. -/
def free_files (w : World) : Nat := w.files.countP (fun f => f.fd == -1)

/-- The channels below `j` are taken and the channels from `j` on are free. -/
def occupied_below (w : World) (j : Nat) : Prop :=
  (∀ i, i < j → (sock w i).fd ≠ W5100_SOCKET_FREE) ∧
  (∀ i, j ≤ i → i < w.w5100_sockets.length → (sock w i).fd = W5100_SOCKET_FREE)

/-- The table after `w5100_socket_init` on a chip with four channels: every
entry is the zero-filled static entry after `socket_free`; the descriptor
table has five free slots. -/
def world_init : World :=
  world0 (List.replicate 4 { (default : w5100_socket) with fd := W5100_SOCKET_FREE })
    (List.replicate 5 default) [] [] [] [] []

/-- The number of bytes the bus log shows as written to buffer memory (only
the TX ring is ever written). -/
def tx_bytes : List BusOp → Nat
  | [] => 0
  | BusOp.wmem _ data :: rest => data.length + tx_bytes rest
  | BusOp.wreg _ _ _ :: rest => tx_bytes rest
  | BusOp.rmem _ _ :: rest => tx_bytes rest
/-- A connected stream socket on channel 0 (handle 0 with the given status
flags, no send timeout) whose link stays ESTABLISHED: the free size reads 3,
then 0, then 4, and every command is acknowledged at once. -/
def world_send (flags : Nat) : World :=
  world0 [chan0 SOCK_STREAM W5100_SOCK_STATE_CONNECTED] [sockfd0 0 flags] [0, 0, 0, 0, 0]
    [W5100_SOCK_ESTABLISHED, W5100_SOCK_ESTABLISHED] [htons 3, 0, htons 4] [] []

/-- As `world_send` in blocking mode, but the free size is never zero: it
reads 3, 1, 1, 1, 1. -/
def world_send_room : World :=
  world0 [chan0 SOCK_STREAM W5100_SOCK_STATE_CONNECTED] [sockfd0 0 O_RDWR] [0, 0, 0, 0, 0]
    [] [htons 3, htons 1, htons 1, htons 1, htons 1] [] []

/-- Some channel that is not in state NONE has `port` in its port register. -/
def port_used (w : World) (port : Nat) : Prop :=
  ∃ j, j < w.w5100_sockets.length ∧ (sock w j).state ≠ W5100_SOCK_STATE_NONE
    ∧ w.regs W5100_Sn_PORT j % 65536 = port

/-- Four channels: channels 0 and 2 are bound datagram sockets with the ports
`htons(0x7FF0)` and one less in their port registers, channels 1 and 3 are
free; the port register of the free channel 1 still holds the start port. -/
def world_ports : World :=
  { world0
      [chan0 SOCK_DGRAM W5100_SOCK_STATE_BOUND,
       { (default : w5100_socket) with fd := W5100_SOCKET_FREE, isocket := 1 },
       { chan0 SOCK_DGRAM W5100_SOCK_STATE_BOUND with fd := 2, isocket := 2, fd_data := some 2 },
       { (default : w5100_socket) with fd := W5100_SOCKET_FREE, isocket := 3 }]
      [sockfd0 0 O_RDWR, default, { sockfd0 2 O_RDWR with backing := some 2 }]
      [] [] [] [] [] with
    regs := fun r j =>
      if r = W5100_Sn_PORT then
        if j = 0 then htons 0x7FF0 else if j = 1 then htons 0x7FF0
        else if j = 2 then htons 0x7FF0 - 1 else 0
      else 0 }

/-- Channel 0 in ACCEPTED state with both handles attached, on a link the peer
has closed: the status register reads CLOSE_WAIT, then CLOSED, then LISTEN,
and every command is acknowledged at once. -/
def world_link_lost : World :=
  world0 [{ chan0 SOCK_STREAM W5100_SOCK_STATE_ACCEPTED with connection_data := some 1 }]
    [sockfd0 0 O_RDWR, sockfd0 1 O_RDWR] [0, 0, 0]
    [W5100_SOCK_CLOSE_WAIT, W5100_SOCK_CLOSED, W5100_SOCK_LISTEN] [] [] []

/-- The buffer memory addresses a bus transfer touches. -/
def BusOp.touches : BusOp → Nat → Prop
  | BusOp.wreg _ _ _, _ => False
  | BusOp.wmem addr data, a => addr ≤ a ∧ a < addr + data.length
  | BusOp.rmem addr len, a => addr ≤ a ∧ a < addr + len

/-- A state whose RX windows hold what the TX windows of `w` hold: the byte at
an RX address is the byte `w` has at the same offset of the TX region. -/
def loopback (w : World) : World :=
  { w with mem := fun a => w.mem (a - (W5100_RX_MEM_BASE - W5100_TX_MEM_BASE)) }

/-- The number of bytes the bus log shows as read from buffer memory (only the
RX ring is ever read). -/
def rx_bytes : List BusOp → Nat
  | [] => 0
  | BusOp.rmem _ len :: rest => len + rx_bytes rest
  | BusOp.wreg _ _ _ :: rest => rx_bytes rest
  | BusOp.wmem _ _ :: rest => rx_bytes rest

/-- A bound datagram socket on channel 0 whose RX size register reads 8, the
read pointer is 0 and the header in the ring announces a payload of 0x0FFF
bytes: more than the eight unread bytes and more than the 2 KiB window. -/
def world_datagram_oversize : World :=
  { world0 [chan0 SOCK_DGRAM W5100_SOCK_STATE_BOUND] [sockfd0 0 O_RDWR] [0] [] []
      [htons 8] [] with
    mem := fun a => if a = 0x6000 + 6 then 0x0F else if a = 0x6000 + 7 then 0xFF else 0 }

/-- A world whose only channel is a socket of the given type and state, owned
by the non-blocking handle 0, with the given scripts of the status, TX free
size and RX size registers; no command is ever acknowledged. -/
def world_nonblock (type : Int) (state : w5100_socket_state) (sr fsr rsr : List Nat) : World :=
  world0 [chan0 type state] [sockfd0 0 (O_RDWR ||| O_NONBLOCK)] [] sr fsr rsr []

/-! ## Socket options and names -/

/-- Levels and option names of `<sys/socket.h>`. -/
def SOL_SOCKET : Int := 0xFFFF
def SO_ACCEPTCONN : Int := 0x0002
def SO_BROADCAST : Int := 0x0020
def SO_SNDTIMEO : Int := 0x1005
def SO_RCVTIMEO : Int := 0x1006
def SO_TYPE : Int := 0x1008

/-- The `struct timeval` of `<sys/time.h>`. -/
structure timeval where
  tv_sec : Nat
  tv_usec : Nat
  deriving DecidableEq, Repr

/-- Modelled from the spec: `timeval_to_timespec` of `timespec.h` (not part of
the sources): the same duration, in nanoseconds. -/
def timeval_to_timespec (tv : timeval) : Nat := tv.tv_sec * 1000000000 + tv.tv_usec * 1000

/-- Modelled from the spec: `timespec_to_timeval` of `timespec.h` (not part of
the sources): the same duration, in seconds and microseconds. -/
def timespec_to_timeval (ts : Nat) : timeval :=
  { tv_sec := ts / 1000000000, tv_usec := ts % 1000000000 / 1000 }

/-- The object `option_value` points to: what it holds when it is accessed as
an `int` and when it is accessed as a `struct timeval`. -/
structure option_object where
  as_int : Int
  as_timeval : timeval
  deriving DecidableEq, Repr

def setsockopt (sockfd level option_name : Int) (option_value : option_object) (w : World) :
    Int × World :=
  match get_socket_from_fd sockfd w with
  | (none, w) => (-1, w)
  | (some si, w) =>
    if level ≠ SOL_SOCKET then (-1, set_errno EINVAL w)
    else if option_name = SO_BROADCAST then
      (0, upd_sock w si (fun s => { s with can_broadcast := decide (option_value.as_int ≠ 0) }))
    else if option_name = SO_RCVTIMEO then
      (0, upd_sock w si (fun s =>
        { s with recv_timeout := timeval_to_timespec option_value.as_timeval }))
    else if option_name = SO_SNDTIMEO then
      (0, upd_sock w si (fun s =>
        { s with send_timeout := timeval_to_timespec option_value.as_timeval }))
    else (-1, set_errno EINVAL w)

/-- Returns the return value and the object `option_value` points to. -/
def getsockopt (sockfd level option_name : Int) (option_value : option_object) (w : World) :
    (Int × option_object) × World :=
  match get_socket_from_fd sockfd w with
  | (none, w) => ((-1, option_value), w)
  | (some si, w) =>
    let s := sock w si
    if level ≠ SOL_SOCKET then ((-1, option_value), set_errno EINVAL w)
    else if option_name = SO_ACCEPTCONN then
      ((0, { option_value with
             as_int := if s.state = W5100_SOCK_STATE_LISTENING then 1 else 0 }), w)
    else if option_name = SO_BROADCAST then ((0, option_value), w)
    else if option_name = SO_RCVTIMEO then
      ((0, { option_value with as_timeval := timespec_to_timeval s.recv_timeout }), w)
    else if option_name = SO_SNDTIMEO then
      ((0, { option_value with as_timeval := timespec_to_timeval s.send_timeout }), w)
    else if option_name = SO_TYPE then ((0, { option_value with as_int := s.type }), w)
    else ((-1, option_value), set_errno EINVAL w)

/-- The low `k` bytes of `src` over the remaining bytes of `dst`: what a
partial `memcpy` leaves in an integer on the little-endian host. -/
def copy_low_bytes (k : Nat) (src dst : Nat) : Nat := src % 256 ^ k + dst / 256 ^ k * 256 ^ k

/-- The call `memcpy(address, sock_addr, len)` on a `struct sockaddr_in`, whose
family is at bytes 0..1, port at bytes 2..3 and address at bytes 4..7. -/
def memcpy_sockaddr_in (len : Nat) (src dst : sockaddr_in) : sockaddr_in :=
  { sin_family := copy_low_bytes (min len 2) src.sin_family dst.sin_family
    sin_port := copy_low_bytes (min (len - 2) 2) src.sin_port dst.sin_port
    sin_addr := copy_low_bytes (min (len - 4) 4) src.sin_addr dst.sin_addr }

/-- Returns the return value and the caller's `address` and `address_len`
objects (`none` for a `NULL` pointer). -/
def get_sockaddr_in (sock_addr : sockaddr_in) (address : Option sockaddr_in)
    (address_len : Option Nat) (w : World) : (Int × Option sockaddr_in × Option Nat) × World :=
  let len :=
    match address_len with
    | some l => if l > 16 then 16 else l
    | none => 16
  let address_len := address_len.map (fun _ => len)
  match address with
  | none => ((-1, none, address_len), set_errno EINVAL w)
  | some a => ((0, some (memcpy_sockaddr_in len sock_addr a), address_len), w)

def getsockname (sockfd : Int) (address : Option sockaddr_in) (address_len : Option Nat)
    (w : World) : (Int × Option sockaddr_in × Option Nat) × World :=
  match get_socket_from_fd sockfd w with
  | (none, w) => ((-1, address, address_len), w)
  | (some si, w) =>
    if (sock w si).sockname.sin_family = AF_UNSPEC then
      ((-1, address, address_len), set_errno EINVAL w)
    else get_sockaddr_in (sock w si).sockname address address_len w

def getpeername (sockfd : Int) (address : Option sockaddr_in) (address_len : Option Nat)
    (w : World) : (Int × Option sockaddr_in × Option Nat) × World :=
  match get_socket_from_fd sockfd w with
  | (none, w) => ((-1, address, address_len), w)
  | (some si, w) =>
    if (sock w si).dest_address.sin_family = AF_UNSPEC then
      ((-1, address, address_len), set_errno ENOTCONN w)
    else get_sockaddr_in (sock w si).dest_address address address_len w

/-- The loop `for (i = 0; i < W5100_N_SOCKETS; i++) socket_free(i);`. -/
def free_all : Nat → World → World
  | 0, w => w
  | n + 1, w => socket_free n (free_all n w)

/-- The effect of `w5100_socket_init` on the channel table.  The reset of the
chip and its common registers (mode, memory sizes, hardware and IP addresses)
are not per-channel state and no other function of the layer reads them. -/
def w5100_socket_init (w : World) : World := free_all w.w5100_sockets.length w

/-! ## Sequences of calls -/

/-- One call of the public interface: the functions the layer exports and the
four callbacks it installs in a descriptor. -/
inductive ApiCall
  | socket (domain type protocol : Int)
  | bind (sockfd : Int) (addr : sockaddr_in)
  | connect (sockfd : Int) (addr : sockaddr_in)
  | listen (sockfd : Int) (backlog : Int)
  | accept (sockfd : Int) (addr : Option sockaddr_in) (addrlen : Option Nat)
  | send (sockfd : Int) (buf : List Nat) (len : Nat)
  | sendto (sockfd : Int) (buf : List Nat) (len : Nat) (dest_address : Option sockaddr_in)
  | recv (sockfd : Int) (len : Nat)
  | recvfrom (sockfd : Int) (len : Nat) (address : Option sockaddr_in)
      (address_len : Option Nat)
  | setsockopt (sockfd level option_name : Int) (option_value : option_object)
  | getsockopt (sockfd level option_name : Int) (option_value : option_object)
  | getsockname (sockfd : Int) (address : Option sockaddr_in) (address_len : Option Nat)
  | getpeername (sockfd : Int) (address : Option sockaddr_in) (address_len : Option Nat)
  | write (fd : Int) (buf : List Nat) (len : Nat)
  | read (fd : Int) (len : Nat)
  | poll (fd : Int)
  | close (fd : Int)

/-- The state a call leaves, when it returns. -/
def run_call : ApiCall → World → Run World
  | .socket domain type protocol, w => (socket domain type protocol w).map (·.2)
  | .bind sockfd addr, w => (bind sockfd addr w).map (·.2)
  | .connect sockfd addr, w => (connect sockfd addr w).map (·.2)
  | .listen sockfd backlog, w => (listen sockfd backlog w).map (·.2)
  | .accept sockfd addr addrlen, w => (accept sockfd addr addrlen w).map (·.2)
  | .send sockfd buf len, w => (send sockfd buf len w).map (·.2)
  | .sendto sockfd buf len dest, w => (sendto sockfd buf len dest w).map (·.2)
  | .recv sockfd len, w => (recv sockfd len w).map (·.2)
  | .recvfrom sockfd len address address_len, w =>
    (recvfrom sockfd len address address_len w).map (·.2)
  | .setsockopt sockfd level name value, w => .ok (setsockopt sockfd level name value w).2
  | .getsockopt sockfd level name value, w => .ok (getsockopt sockfd level name value w).2
  | .getsockname sockfd address address_len, w => .ok (getsockname sockfd address address_len w).2
  | .getpeername sockfd address address_len, w => .ok (getpeername sockfd address address_len w).2
  | .write fd buf len, w => (w5100_sock_write fd buf len w).map (·.2)
  | .read fd len, w => (w5100_sock_read fd len w).map (·.2)
  | .poll fd, w => (w5100_sock_poll fd w).map (·.2)
  | .close fd, w => (w5100_sock_close fd w).map (·.2)

/-- The state a sequence of calls leaves, when every one of them returns. -/
def run_calls : List ApiCall → World → Run World
  | [], w => .ok w
  | c :: rest, w =>
    match run_call c w with
    | .error e => .error e
    | .ok w1 => run_calls rest w1
/-- The state a sequence of calls left, if they all returned. -/
def final_state : Run World → Option World
  | .ok w => some w
  | .error _ => none

/-- A chip with four channels before initialisation, on each of which the
first command is acknowledged at once and the status then reads INIT; five
free descriptor slots. -/
def world_boot : World :=
  { world_init with
    feed := fun r _ =>
      match r with
      | W5100_Sn_CR => [0]
      | W5100_Sn_SR => [W5100_SOCK_INIT]
      | _ => [] }
/-- The failing input of the port invariant: after initialisation, two stream
sockets are created and both are bound to port 5000. -/
def bound_twice : Run World :=
  run_calls
    [ApiCall.socket (AF_INET : Int) SOCK_STREAM 0, ApiCall.socket (AF_INET : Int) SOCK_STREAM 0,
     ApiCall.bind 0 ⟨AF_INET, htons 5000, INADDR_ANY⟩,
     ApiCall.bind 1 ⟨AF_INET, htons 5000, INADDR_ANY⟩]
    (w5100_socket_init world_boot)

/-- A status register that reads UDP. -/
abbrev sr_udp : Nat → Bool := fun sr => sr == W5100_SOCK_UDP
/-- A datagram socket on channel 0 in the given state (blocking handle 0, no
send timeout, broadcast permission unset); every command is acknowledged at
once, the status reads UDP, and the TX free size reads 2048 twice. -/
def world_bcast (state : w5100_socket_state) : World :=
  world0 [chan0 SOCK_DGRAM state] [sockfd0 0 O_RDWR] [0, 0] [W5100_SOCK_UDP]
    [htons 2048, htons 2048] [] []

/-- A channel entry is consistent: it holds the free marker exactly when its
state is NONE, and a free entry has both ownership slots cleared. -/
def chan_ok (s : w5100_socket) : Prop :=
  (s.fd = W5100_SOCKET_FREE ↔ s.state = W5100_SOCK_STATE_NONE) ∧
  (s.fd = W5100_SOCKET_FREE → s.fd_data = none ∧ s.connection_data = none)

/-- Every entry of the channel table is consistent. -/
def table_ok (w : World) : Prop := ∀ i, i < w.w5100_sockets.length → chan_ok (sock w i)
/-- The state the calls of `bound_twice` leave. -/
def world_bound_twice : World := (final_state bound_twice).getD world_boot

/-- Why a call did not return, if it did not. -/
def stuck_of {α : Type} : Run α → Option Stuck
  | .ok _ => none
  | .error e => some e

/-- The state of `world_accepted` after the listening handle 0 has been
closed: channel 0 is still ACCEPTED, owned by the accepted handle 1 alone. -/
def world_listener_closed : World :=
  (final_state (run_calls [ApiCall.close 0] world_accepted)).getD world_accepted

/-- A stream socket in CREATED state on channel 0, owned by handle 0; the chip
acknowledges one command at once and its status then reads CLOSED. -/
def world_closable : World :=
  world0 [chan0 SOCK_STREAM W5100_SOCK_STATE_CREATED] [sockfd0 0 O_RDWR] [0]
    [W5100_SOCK_CLOSED] [] [] []

/-- The state of `world_closable` after handle 0 has been closed. -/
def world_closed : World :=
  (final_state (run_calls [ApiCall.close 0] world_closable)).getD world_closable

/-- The state of `world_accepted` after the accepted handle 1 has been closed:
channel 0 listens again. -/
def world_accepted_closed : World :=
  (final_state (run_calls [ApiCall.close 1] world_accepted)).getD world_accepted
/-- Channel 0 in ACCEPTED state, no send timeout: handle 0 listens with the
status flags `lflags`, handle 1 is the accepted connection with the status
flags `aflags`.  The link stays ESTABLISHED, two commands are acknowledged at
once, and the TX free size reads as scripted. -/
def world_accepted_modes (lflags aflags : Nat) (fsr : List Nat) : World :=
  world0 [{ chan0 SOCK_STREAM W5100_SOCK_STATE_ACCEPTED with connection_data := some 1 }]
    [sockfd0 0 lflags, sockfd0 1 aflags] [0, 0]
    [W5100_SOCK_ESTABLISHED, W5100_SOCK_ESTABLISHED] fsr [] []

/-- A connected stream socket on channel 0 (blocking handle 0) with a send
timeout of 5 ns: the TX free size reads 3, then 0; the clock reads 0 when the
call starts and 10 when the ring is found full. -/
def world_send_timeout : World :=
  world0 [{ chan0 SOCK_STREAM W5100_SOCK_STATE_CONNECTED with send_timeout := 5 }]
    [sockfd0 0 O_RDWR] [0] [W5100_SOCK_ESTABLISHED] [htons 3, 0] [] [0, 10]

/-! # Theorems -/

/-! ## Frame lemmas: what each state transformer leaves alone -/

@[simp] theorem set_errno_sockets (e : Errno) (w : World) :
    (set_errno e w).w5100_sockets = w.w5100_sockets := rfl
@[simp] theorem set_errno_files (e : Errno) (w : World) : (set_errno e w).files = w.files := rfl
@[simp] theorem set_errno_errno (e : Errno) (w : World) : (set_errno e w).errno = some e := rfl
@[simp] theorem set_errno_regs (e : Errno) (w : World) : (set_errno e w).regs = w.regs := rfl
@[simp] theorem set_errno_feed (e : Errno) (w : World) : (set_errno e w).feed = w.feed := rfl
@[simp] theorem set_errno_mem (e : Errno) (w : World) : (set_errno e w).mem = w.mem := rfl
@[simp] theorem set_errno_clock (e : Errno) (w : World) : (set_errno e w).clock = w.clock := rfl
@[simp] theorem set_errno_bus (e : Errno) (w : World) : (set_errno e w).bus = w.bus := rfl

@[simp] theorem set_feed_sockets (w : World) (r : SockReg) (i : Nat) (l : List Nat) :
    (set_feed w r i l).w5100_sockets = w.w5100_sockets := rfl
@[simp] theorem set_feed_files (w : World) (r : SockReg) (i : Nat) (l : List Nat) :
    (set_feed w r i l).files = w.files := rfl
@[simp] theorem set_feed_errno (w : World) (r : SockReg) (i : Nat) (l : List Nat) :
    (set_feed w r i l).errno = w.errno := rfl
@[simp] theorem set_feed_regs (w : World) (r : SockReg) (i : Nat) (l : List Nat) :
    (set_feed w r i l).regs = w.regs := rfl
@[simp] theorem set_feed_mem (w : World) (r : SockReg) (i : Nat) (l : List Nat) :
    (set_feed w r i l).mem = w.mem := rfl
@[simp] theorem set_feed_clock (w : World) (r : SockReg) (i : Nat) (l : List Nat) :
    (set_feed w r i l).clock = w.clock := rfl
@[simp] theorem set_feed_bus (w : World) (r : SockReg) (i : Nat) (l : List Nat) :
    (set_feed w r i l).bus = w.bus := rfl
theorem set_feed_feed (w : World) (r : SockReg) (i : Nat) (l : List Nat) (r2 : SockReg)
    (j : Nat) :
    (set_feed w r i l).feed r2 j = if r2 = r ∧ j = i then l else w.feed r2 j := rfl
@[simp] theorem set_feed_feed_same (w : World) (r : SockReg) (i : Nat) (l : List Nat) :
    (set_feed w r i l).feed r i = l := by simp [set_feed_feed]
@[simp] theorem set_feed_feed_reg (w : World) (r r2 : SockReg) (i j : Nat) (l : List Nat)
    (h : r2 ≠ r) : (set_feed w r i l).feed r2 j = w.feed r2 j := by simp [set_feed_feed, h]

@[simp] theorem write_reg_sockets (r : SockReg) (i v : Nat) (w : World) :
    (w5100_write_sock_reg r i v w).w5100_sockets = w.w5100_sockets := rfl
@[simp] theorem write_reg_files (r : SockReg) (i v : Nat) (w : World) :
    (w5100_write_sock_reg r i v w).files = w.files := rfl
@[simp] theorem write_reg_errno (r : SockReg) (i v : Nat) (w : World) :
    (w5100_write_sock_reg r i v w).errno = w.errno := rfl
@[simp] theorem write_reg_feed (r : SockReg) (i v : Nat) (w : World) :
    (w5100_write_sock_reg r i v w).feed = w.feed := rfl
@[simp] theorem write_reg_mem (r : SockReg) (i v : Nat) (w : World) :
    (w5100_write_sock_reg r i v w).mem = w.mem := rfl
@[simp] theorem write_reg_clock (r : SockReg) (i v : Nat) (w : World) :
    (w5100_write_sock_reg r i v w).clock = w.clock := rfl
@[simp] theorem write_reg_bus (r : SockReg) (i v : Nat) (w : World) :
    (w5100_write_sock_reg r i v w).bus = w.bus ++ [BusOp.wreg r i v] := rfl
theorem write_reg_regs (r : SockReg) (i v : Nat) (w : World) (r2 : SockReg) (j : Nat) :
    (w5100_write_sock_reg r i v w).regs r2 j = if r2 = r ∧ j = i then v else w.regs r2 j := rfl

@[simp] theorem upd_sock_files (w : World) (i : Nat) (f : w5100_socket → w5100_socket) :
    (upd_sock w i f).files = w.files := rfl
@[simp] theorem upd_sock_errno (w : World) (i : Nat) (f : w5100_socket → w5100_socket) :
    (upd_sock w i f).errno = w.errno := rfl
@[simp] theorem upd_sock_regs (w : World) (i : Nat) (f : w5100_socket → w5100_socket) :
    (upd_sock w i f).regs = w.regs := rfl
@[simp] theorem upd_sock_feed (w : World) (i : Nat) (f : w5100_socket → w5100_socket) :
    (upd_sock w i f).feed = w.feed := rfl
@[simp] theorem upd_sock_mem (w : World) (i : Nat) (f : w5100_socket → w5100_socket) :
    (upd_sock w i f).mem = w.mem := rfl
@[simp] theorem upd_sock_clock (w : World) (i : Nat) (f : w5100_socket → w5100_socket) :
    (upd_sock w i f).clock = w.clock := rfl
@[simp] theorem upd_sock_bus (w : World) (i : Nat) (f : w5100_socket → w5100_socket) :
    (upd_sock w i f).bus = w.bus := rfl
@[simp] theorem upd_sock_length (w : World) (i : Nat) (f : w5100_socket → w5100_socket) :
    (upd_sock w i f).w5100_sockets.length = w.w5100_sockets.length := by simp [upd_sock]

@[simp] theorem upd_file_sockets (w : World) (k : Nat) (f : struct_fd → struct_fd) :
    (upd_file w k f).w5100_sockets = w.w5100_sockets := rfl
@[simp] theorem upd_file_errno (w : World) (k : Nat) (f : struct_fd → struct_fd) :
    (upd_file w k f).errno = w.errno := rfl
@[simp] theorem upd_file_regs (w : World) (k : Nat) (f : struct_fd → struct_fd) :
    (upd_file w k f).regs = w.regs := rfl
@[simp] theorem upd_file_feed (w : World) (k : Nat) (f : struct_fd → struct_fd) :
    (upd_file w k f).feed = w.feed := rfl
@[simp] theorem upd_file_mem (w : World) (k : Nat) (f : struct_fd → struct_fd) :
    (upd_file w k f).mem = w.mem := rfl
@[simp] theorem upd_file_clock (w : World) (k : Nat) (f : struct_fd → struct_fd) :
    (upd_file w k f).clock = w.clock := rfl
@[simp] theorem upd_file_bus (w : World) (k : Nat) (f : struct_fd → struct_fd) :
    (upd_file w k f).bus = w.bus := rfl
@[simp] theorem upd_file_length (w : World) (k : Nat) (f : struct_fd → struct_fd) :
    (upd_file w k f).files.length = w.files.length := by simp [upd_file]

@[simp] theorem sock_set_errno (e : Errno) (w : World) (j : Nat) :
    sock (set_errno e w) j = sock w j := rfl
@[simp] theorem sock_set_feed (w : World) (r : SockReg) (i : Nat) (l : List Nat) (j : Nat) :
    sock (set_feed w r i l) j = sock w j := rfl
@[simp] theorem sock_write_reg (r : SockReg) (i v : Nat) (w : World) (j : Nat) :
    sock (w5100_write_sock_reg r i v w) j = sock w j := rfl
@[simp] theorem sock_upd_file (w : World) (k : Nat) (f : struct_fd → struct_fd) (j : Nat) :
    sock (upd_file w k f) j = sock w j := rfl
@[simp] theorem file_set_errno (e : Errno) (w : World) (j : Nat) :
    file (set_errno e w) j = file w j := rfl
@[simp] theorem file_set_feed (w : World) (r : SockReg) (i : Nat) (l : List Nat) (j : Nat) :
    file (set_feed w r i l) j = file w j := rfl
@[simp] theorem file_write_reg (r : SockReg) (i v : Nat) (w : World) (j : Nat) :
    file (w5100_write_sock_reg r i v w) j = file w j := rfl
@[simp] theorem file_upd_sock (w : World) (i : Nat) (f : w5100_socket → w5100_socket)
    (j : Nat) : file (upd_sock w i f) j = file w j := rfl

theorem sock_upd_sock (w : World) (i : Nat) (f : w5100_socket → w5100_socket) (j : Nat) :
    sock (upd_sock w i f) j
      = if j = i ∧ i < w.w5100_sockets.length then f (sock w i) else sock w j := by
  unfold upd_sock
  simp only [sock, List.getD_eq_getElem?_getD, List.getElem?_set]
  by_cases hji : j = i
  · subst hji
    by_cases hlt : j < w.w5100_sockets.length
    · simp [hlt, List.getElem?_eq_getElem hlt]
    · simp [hlt, List.getElem?_eq_none (Nat.le_of_not_lt hlt)]
  · have : ¬ i = j := fun h => hji h.symm
    simp [hji, this]

theorem file_upd_file (w : World) (k : Nat) (f : struct_fd → struct_fd) (j : Nat) :
    file (upd_file w k f) j
      = if j = k ∧ k < w.files.length then f (file w k) else file w j := by
  unfold upd_file
  simp only [file, List.getD_eq_getElem?_getD, List.getElem?_set]
  by_cases hji : j = k
  · subst hji
    by_cases hlt : j < w.files.length
    · simp [hlt, List.getElem?_eq_getElem hlt]
    · simp [hlt, List.getElem?_eq_none (Nat.le_of_not_lt hlt)]
  · have : ¬ k = j := fun h => hji h.symm
    simp [hji, this]

@[simp] theorem socket_free_files (i : Nat) (w : World) : (socket_free i w).files = w.files := rfl
@[simp] theorem socket_free_errno (i : Nat) (w : World) : (socket_free i w).errno = w.errno := rfl
@[simp] theorem socket_free_feed (i : Nat) (w : World) : (socket_free i w).feed = w.feed := rfl
@[simp] theorem socket_free_regs (i : Nat) (w : World) : (socket_free i w).regs = w.regs := rfl
@[simp] theorem socket_free_mem (i : Nat) (w : World) : (socket_free i w).mem = w.mem := rfl
@[simp] theorem socket_free_clock (i : Nat) (w : World) : (socket_free i w).clock = w.clock := rfl
@[simp] theorem socket_free_bus (i : Nat) (w : World) : (socket_free i w).bus = w.bus := rfl
@[simp] theorem file_socket_free (i : Nat) (w : World) (j : Nat) :
    file (socket_free i w) j = file w j := rfl

@[simp] theorem file_free_sockets (fd : Int) (w : World) :
    (file_free fd w).w5100_sockets = w.w5100_sockets := by
  unfold file_free; split <;> rfl
@[simp] theorem file_free_errno (fd : Int) (w : World) : (file_free fd w).errno = w.errno := by
  unfold file_free; split <;> rfl
@[simp] theorem file_free_feed (fd : Int) (w : World) : (file_free fd w).feed = w.feed := by
  unfold file_free; split <;> rfl
@[simp] theorem file_free_regs (fd : Int) (w : World) : (file_free fd w).regs = w.regs := by
  unfold file_free; split <;> rfl
@[simp] theorem file_free_mem (fd : Int) (w : World) : (file_free fd w).mem = w.mem := by
  unfold file_free; split <;> rfl
@[simp] theorem file_free_clock (fd : Int) (w : World) : (file_free fd w).clock = w.clock := by
  unfold file_free; split <;> rfl
@[simp] theorem file_free_bus (fd : Int) (w : World) : (file_free fd w).bus = w.bus := by
  unfold file_free; split <;> rfl
@[simp] theorem sock_file_free (fd : Int) (w : World) (j : Nat) :
    sock (file_free fd w) j = sock w j := by
  unfold file_free; split <;> rfl
@[simp] theorem file_free_length (fd : Int) (w : World) :
    (file_free fd w).files.length = w.files.length := by
  unfold file_free; split <;> simp

/-! ## Lookup by handle -/

theorem get_socket_from_fd_some {fd : Int} {w : World} {si : Nat}
    (h : (get_socket_from_fd fd w).1 = some si) : get_socket_from_fd fd w = (some si, w) := by
  unfold get_socket_from_fd at h ⊢
  cases hg : file_struct_get fd w with
  | none => simp [hg] at h
  | some k =>
    simp only [hg] at h ⊢
    by_cases hs : (file w k).is_sock
    · cases hb : (file w k).backing with
      | none => simp [hs, hb] at h
      | some i =>
        simp only [hs, hb, Bool.not_true] at h ⊢
        simp at h
        simp [h]
    · simp [hs] at h

theorem get_socket_from_fd_none {fd : Int} {w : World}
    (h : (get_socket_from_fd fd w).1 = none) :
    ∃ e, (e = EBADF ∨ e = ENOTSOCK) ∧ get_socket_from_fd fd w = (none, set_errno e w) := by
  unfold get_socket_from_fd at h ⊢
  cases hg : file_struct_get fd w with
  | none => exact ⟨EBADF, Or.inl rfl, by simp⟩
  | some k =>
    simp only [hg] at h ⊢
    by_cases hs : (file w k).is_sock
    · cases hb : (file w k).backing with
      | none => exact ⟨EBADF, Or.inl rfl, by simp [hs, hb]⟩
      | some i => simp [hs, hb] at h
    · exact ⟨ENOTSOCK, Or.inr rfl, by simp [hs]⟩

/-- A handle that resolves to a channel is a handle of the descriptor table. -/
theorem get_socket_from_fd_range {fd : Int} {w : World} {si : Nat}
    (h : (get_socket_from_fd fd w).1 = some si) :
    0 ≤ fd ∧ fd.toNat < w.files.length ∧ (file w fd.toNat).is_sock = true
      ∧ (file w fd.toNat).backing = some si := by
  unfold get_socket_from_fd at h
  unfold file_struct_get at h
  by_cases hr : 0 ≤ fd ∧ fd.toNat < w.files.length
  · simp only [hr, and_self, if_true] at h
    by_cases hs : (file w fd.toNat).is_sock
    · cases hb : (file w fd.toNat).backing with
      | none => simp [hs, hb] at h
      | some i =>
        simp [hs, hb] at h
        exact ⟨hr.1, hr.2, hs, by rw [h]⟩
    · simp [hs] at h
  · simp [hr] at h

/-- The lookup does not depend on `errno`, the chip or the channel table. -/
theorem get_socket_from_fd_fst_congr {fd : Int} {w u : World} (h : u.files = w.files) :
    (get_socket_from_fd fd u).1 = (get_socket_from_fd fd w).1 := by
  unfold get_socket_from_fd file_struct_get file
  rw [h]
  by_cases hr : 0 ≤ fd ∧ fd.toNat < w.files.length
  · simp only [hr, and_self, if_true]
    generalize w.files.getD fd.toNat default = e
    cases hs : e.is_sock <;> cases hb : e.backing <;> simp
  · simp [hr]

/-! ## Busy waits -/

theorem wait_reg_of_await {reg : SockReg} {i : Nat} {stop : Nat → Bool} {w : World}
    {v : Nat} {rest : List Nat} (h : await stop (w.feed reg i) = some (v, rest)) :
    wait_reg reg i stop w = .ok (v, set_feed w reg i rest) := by
  simp [wait_reg, h]

theorem w5100_command_of_await {i cmd : Nat} {w : World} {v : Nat} {rest : List Nat}
    (h : await (fun cr => cr == 0) (w.feed W5100_Sn_CR i) = some (v, rest)) :
    w5100_command i cmd w
      = .ok (set_feed (w5100_write_sock_reg W5100_Sn_CR i cmd w) W5100_Sn_CR i rest) := by
  have h2 : await (fun cr => cr == 0)
      ((w5100_write_sock_reg W5100_Sn_CR i cmd w).feed W5100_Sn_CR i) = some (v, rest) := by
    simpa using h
  simp [w5100_command, wait_reg_of_await h2]

theorem wait_reg_ok {reg : SockReg} {i : Nat} {stop : Nat → Bool} {w w1 : World} {v : Nat}
    (h : wait_reg reg i stop w = .ok (v, w1)) :
    ∃ rest, await stop (w.feed reg i) = some (v, rest) ∧ w1 = set_feed w reg i rest := by
  unfold wait_reg at h
  cases ha : await stop (w.feed reg i) with
  | none => simp [ha] at h
  | some p =>
    obtain ⟨v2, rest⟩ := p
    simp [ha] at h
    exact ⟨rest, by rw [h.1], h.2.symm⟩

theorem w5100_command_ok {i cmd : Nat} {w w1 : World} (h : w5100_command i cmd w = .ok w1) :
    ∃ rest, w1 = set_feed (w5100_write_sock_reg W5100_Sn_CR i cmd w) W5100_Sn_CR i rest := by
  unfold w5100_command at h
  cases hw : wait_reg W5100_Sn_CR i (fun cr => cr == 0)
      (w5100_write_sock_reg W5100_Sn_CR i cmd w) with
  | error e => simp [hw] at h
  | ok p =>
    obtain ⟨v, w2⟩ := p
    simp [hw] at h
    obtain ⟨rest, -, h2⟩ := wait_reg_ok hw
    exact ⟨rest, by rw [← h, h2]⟩

/-! ## Closing a handle -/

theorem ptr_fd_is_false_of_no_entry {w : World} {fd : Int} (hfd : 0 ≤ fd)
    (hno : ∀ k, k < w.files.length → (file w k).fd ≠ fd) (p : Option Nat) :
    ptr_fd_is w p fd = false := by
  cases p with
  | none => rfl
  | some k =>
    simp only [ptr_fd_is, beq_eq_false_iff_ne, ne_eq]
    by_cases hk : k < w.files.length
    · exact hno k hk
    · have : file w k = default := by
        simp [file, List.getD_eq_getElem?_getD, List.getElem?_eq_none (Nat.le_of_not_lt hk)]
      rw [this]
      show ¬ ((-1 : Int) = fd)
      omega

theorem close_unresolved {fd : Int} {w : World} (h : (get_socket_from_fd fd w).1 = none) :
    ∃ e, (e = EBADF ∨ e = ENOTSOCK) ∧ w5100_sock_close fd w = .ok (-1, set_errno e w) := by
  obtain ⟨e, he, hg⟩ := get_socket_from_fd_none h
  exact ⟨e, he, by simp [w5100_sock_close, hg]⟩

theorem close_unattached {fd : Int} {w : World} {si : Nat}
    (h : (get_socket_from_fd fd w).1 = some si)
    (h1 : ptr_fd_is w (sock w si).fd_data fd = false)
    (h2 : ptr_fd_is w (sock w si).connection_data fd = false) :
    w5100_sock_close fd w = .ok (-1, set_errno EBADF w) := by
  have hg := get_socket_from_fd_some h
  simp only [w5100_sock_close, hg, h1, h2]
  by_cases hc : (sock w si).connection_data = none <;> simp [hc]

theorem close_of_no_entry {fd : Int} {w : World}
    (hno : ∀ k, k < w.files.length → (file w k).fd ≠ fd) :
    ∃ e, (e = EBADF ∨ e = ENOTSOCK) ∧ w5100_sock_close fd w = .ok (-1, set_errno e w) := by
  cases hg : (get_socket_from_fd fd w).1 with
  | none => exact close_unresolved hg
  | some si =>
    have hfd := (get_socket_from_fd_range hg).1
    exact ⟨EBADF, Or.inl rfl, close_unattached hg (ptr_fd_is_false_of_no_entry hfd hno _)
      (ptr_fd_is_false_of_no_entry hfd hno _)⟩

theorem w5100_command_tables {i cmd : Nat} {w w1 : World} (h : w5100_command i cmd w = .ok w1) :
    w1.files = w.files ∧ w1.w5100_sockets = w.w5100_sockets := by
  obtain ⟨rest, rfl⟩ := w5100_command_ok h
  exact ⟨rfl, rfl⟩

theorem wait_reg_tables {reg : SockReg} {i : Nat} {stop : Nat → Bool} {w w1 : World} {v : Nat}
    (h : wait_reg reg i stop w = .ok (v, w1)) :
    w1.files = w.files ∧ w1.w5100_sockets = w.w5100_sockets := by
  obtain ⟨rest, -, rfl⟩ := wait_reg_ok h
  exact ⟨rfl, rfl⟩

/-- After `p->isopen = 0; file_free(p->fd);` on the entry of handle `fd`, no
entry of a table that keeps each handle in its own slot holds `fd`. -/
theorem no_entry_after_free {w : World} {fd : Int} {k : Nat}
    (hwf : ∀ j, j < w.files.length → (file w j).fd = fd → (j : Int) = fd)
    (hk : (file w k).fd = fd) (hfd : 0 ≤ fd) (hkl : k < w.files.length) :
    ∀ j, j < (file_free (file (upd_file w k (fun f => { f with isopen := false })) k).fd
        (upd_file w k (fun f => { f with isopen := false }))).files.length →
      (file (file_free (file (upd_file w k (fun f => { f with isopen := false })) k).fd
        (upd_file w k (fun f => { f with isopen := false }))) j).fd ≠ fd := by
  have hkfd : (k : Int) = fd := hwf k hkl hk
  have hto : fd.toNat = k := by omega
  have h1 : (file (upd_file w k (fun f => { f with isopen := false })) k).fd = fd := by
    rw [file_upd_file]; simp [hkl, hk]
  rw [h1]
  intro j hj
  unfold file_free
  have hr : 0 ≤ fd ∧ fd.toNat < (upd_file w k (fun f => { f with isopen := false })).files.length := by
    simp [hto, hkl, hfd]
  rw [if_pos hr, file_upd_file, hto]
  by_cases hjk : j = k
  · simp [hjk, hkl]
    omega
  · simp only [hjk, false_and, if_false]
    rw [file_upd_file]
    simp only [hjk, false_and, if_false]
    intro hc
    have hjl : j < w.files.length := by simpa using hj
    have := hwf j hjl hc
    omega
theorem ptr_fd_is_true {w : World} {p : Option Nat} {fd : Int} (hfd : 0 ≤ fd)
    (h : ptr_fd_is w p fd = true) :
    ∃ k, p = some k ∧ (file w k).fd = fd ∧ k < w.files.length := by
  cases p with
  | none => simp [ptr_fd_is] at h
  | some k =>
    simp only [ptr_fd_is, beq_iff_eq] at h
    refine ⟨k, rfl, h, ?_⟩
    by_contra hk
    have : file w k = default := by
      simp [file, List.getD_eq_getElem?_getD, List.getElem?_eq_none (Nat.le_of_not_lt hk)]
    rw [this] at h
    have h2 : (-1 : Int) = fd := h
    omega

theorem bind_ok_iff {α β : Type} {x : Run α} {f : α → Run β} {b : β} :
    (x >>= f) = Except.ok b ↔ ∃ a, x = Except.ok a ∧ f a = Except.ok b := by
  cases x with
  | error e => simp [Bind.bind, Except.bind]
  | ok a => simp [Bind.bind, Except.bind]

/-- The descriptor table a successful close through either ownership slot
leaves: the entry `k` the slot pointed to is marked closed and freed. -/
theorem close_attached_files {fd : Int} {w w1 : World} {si : Nat} {r : Int}
    (hg : (get_socket_from_fd fd w).1 = some si)
    (hat : ptr_fd_is w (sock w si).fd_data fd = true
      ∨ ptr_fd_is w (sock w si).connection_data fd = true)
    (h : w5100_sock_close fd w = .ok (r, w1)) :
    ∃ k, (file w k).fd = fd ∧ k < w.files.length ∧
      w1.files = (file_free (file (upd_file w k (fun f => { f with isopen := false })) k).fd
        (upd_file w k (fun f => { f with isopen := false }))).files := by
  have hfd := (get_socket_from_fd_range hg).1
  have hgs := get_socket_from_fd_some hg
  simp only [w5100_sock_close, hgs] at h
  by_cases p1 : ptr_fd_is w (sock w si).fd_data fd = true
  · obtain ⟨k, hk, hkf, hkl⟩ := ptr_fd_is_true hfd p1
    refine ⟨k, hkf, hkl, ?_⟩
    simp only [p1, if_true] at h
    simp only [hk, Option.getD_some] at h
    by_cases hst : (sock w si).state ≠ W5100_SOCK_STATE_ACCEPTED
    · rw [if_pos hst] at h
      obtain ⟨w2, hc, h⟩ := bind_ok_iff.1 h
      obtain ⟨⟨v, w3⟩, hw, h⟩ := bind_ok_iff.1 h
      simp only [pure, Except.pure, Except.ok.injEq, Prod.mk.injEq] at h
      rw [← h.2, socket_free_files, (wait_reg_tables hw).1, (w5100_command_tables hc).1]
      rfl
    · rw [if_neg hst] at h
      simp only [pure, Except.pure, Except.ok.injEq, Prod.mk.injEq] at h
      rw [← h.2]
      rfl
  · have p1f : ptr_fd_is w (sock w si).fd_data fd = false := by simpa using p1
    have p2 : ptr_fd_is w (sock w si).connection_data fd = true := by
      rcases hat with hat | hat
      · exact absurd hat p1
      · exact hat
    obtain ⟨k, hk, hkf, hkl⟩ := ptr_fd_is_true hfd p2
    refine ⟨k, hkf, hkl, ?_⟩
    have hcn : ¬ (sock w si).connection_data = none := by simp [hk]
    simp only [p1f, Bool.false_eq_true, if_false, hcn, p2, if_true] at h
    simp only [hk, Option.getD_some] at h
    obtain ⟨w2, hc, h⟩ := bind_ok_iff.1 h
    obtain ⟨⟨v, w3⟩, hw, h⟩ := bind_ok_iff.1 h
    have hf3 : w3.files = (file_free
        (file (upd_file w k (fun f => { f with isopen := false })) k).fd
        (upd_file w k (fun f => { f with isopen := false }))).files := by
      rw [(wait_reg_tables hw).1, (w5100_command_tables hc).1]; rfl
    by_cases hfdn : (sock w si).fd_data = none
    · simp only [hfdn, if_true, pure, Except.pure, Except.ok.injEq, Prod.mk.injEq] at h
      rw [← h.2, socket_free_files, hf3]
    · simp only [hfdn, if_false] at h
      obtain ⟨w4, hc2, h⟩ := bind_ok_iff.1 h
      obtain ⟨w5, hc3, h⟩ := bind_ok_iff.1 h
      obtain ⟨⟨v2, w6⟩, hw2, h⟩ := bind_ok_iff.1 h
      simp only [pure, Except.pure, Except.ok.injEq, Prod.mk.injEq] at h
      rw [← h.2, upd_sock_files, (wait_reg_tables hw2).1, (w5100_command_tables hc3).1,
        (w5100_command_tables hc2).1, hf3]

/-- On a raw socket in blocking mode without a receive timeout the loop of
`recvfrom` reads nothing and never ends, whatever the chip and the clock do. -/
theorem raw_recvfrom_loop_hangs (si len : Nat) (address : Option sockaddr_in)
    (address_len : Option Nat) (w : World) (h1 : (sock w si).type ≠ SOCK_STREAM)
    (h2 : (sock w si).type ≠ SOCK_DGRAM) (fuel : Nat) :
    recvfrom_loop si len address address_len false ⟨false, 0⟩ fuel w = .error Stuck.hang := by
  induction fuel with
  | zero => rfl
  | succ n ih =>
    unfold recvfrom_loop
    simp only [h1, h2, if_false, recvfrom_wait, timeout_ended, Bool.false_eq_true]
    exact ih

/-- The loop of `recvfrom` hangs on the blocking raw socket `world_raw`. -/
theorem raw_recvfrom_loop_hangs_witness :
    recvfrom_loop 0 4 none none false ⟨false, 0⟩ 7 (world_raw O_RDWR) = .error Stuck.hang :=
  raw_recvfrom_loop_hangs 0 4 none none (world_raw O_RDWR) (by decide) (by decide) 7

/-! ## Register reads -/

theorem read_sock_reg_cons {r : SockReg} {i : Nat} {w : World} {v : Nat} {rest : List Nat}
    (hv : r.volatile = true) (h : w.feed r i = v :: rest) :
    w5100_read_sock_reg r i w = .ok (v % 256, set_feed w r i rest) := by
  simp [w5100_read_sock_reg, read_raw, hv, h]

theorem read_sock_regx_cons {r : SockReg} {i : Nat} {w : World} {v : Nat} {rest : List Nat}
    (hv : r.volatile = true) (h : w.feed r i = v :: rest) :
    w5100_read_sock_regx r i w = .ok (v % 65536, set_feed w r i rest) := by
  simp [w5100_read_sock_regx, read_raw, hv, h]

theorem read_sock_regx_stored {reg : SockReg} (i : Nat) (w : World)
    (hv : reg.volatile = false) :
    w5100_read_sock_regx reg i w = .ok (w.regs reg i % 65536, w) := by
  simp [w5100_read_sock_regx, read_raw, hv]

theorem read_sock_regx32_stored {reg : SockReg} (i : Nat) (w : World)
    (hv : reg.volatile = false) :
    w5100_read_sock_regx32 reg i w = .ok (w.regs reg i % 4294967296, w) := by
  simp [w5100_read_sock_regx32, read_raw, hv]

/-! ## Descriptor allocation -/

theorem first_free_file_some {l : List struct_fd} {n : Nat} (h : first_free_file l = some n) :
    n < l.length ∧ (l.getD n default).fd = -1 ∧ ∀ j, j < n → (l.getD j default).fd ≠ -1 := by
  induction l generalizing n with
  | nil => simp [first_free_file] at h
  | cons f rest ih =>
    unfold first_free_file at h
    by_cases hf : f.fd = -1
    · simp only [hf, if_true, Option.some.injEq] at h
      subst h
      exact ⟨by simp, by simpa using hf, fun j hj => absurd hj (Nat.not_lt_zero j)⟩
    · simp only [hf, if_false, Option.map_eq_some'] at h
      obtain ⟨m, hm, rfl⟩ := h
      obtain ⟨h1, h2, h3⟩ := ih hm
      refine ⟨by simpa using h1, by simpa using h2, ?_⟩
      intro j hj
      cases j with
      | zero => simpa using hf
      | succ j => simpa using h3 j (by omega)

theorem first_free_file_none {l : List struct_fd} (h : first_free_file l = none) :
    ∀ j, j < l.length → (l.getD j default).fd ≠ -1 := by
  induction l with
  | nil => intro j hj; simp at hj
  | cons f rest ih =>
    unfold first_free_file at h
    by_cases hf : f.fd = -1
    · simp [hf] at h
    · simp only [hf, if_false, Option.map_eq_none'] at h
      intro j hj
      cases j with
      | zero => simpa using hf
      | succ j => simpa using ih h j (by simpa using hj)

theorem first_free_file_exists {l : List struct_fd} {j : Nat} (hj : j < l.length)
    (hf : (l.getD j default).fd = -1) : ∃ n, first_free_file l = some n := by
  cases h : first_free_file l with
  | some n => exact ⟨n, rfl⟩
  | none => exact absurd hf (first_free_file_none h j hj)

theorem file_alloc_some {w : World} {n : Nat} (h : first_free_file w.files = some n) :
    file_alloc w = ((n : Int), upd_file w n (fun f => { f with fd := (n : Int) })) := by
  simp [file_alloc, h]

theorem file_struct_get_nat {w : World} {n : Nat} (h : n < w.files.length) :
    file_struct_get (n : Int) w = some n := by
  simp [file_struct_get, h]

/-! ## Accept -/

theorem sock_in_range {w : World} {si : Nat}
    (h : (sock w si).state ≠ W5100_SOCK_STATE_NONE) : si < w.w5100_sockets.length := by
  by_contra hk
  have : sock w si = default := by
    simp [sock, List.getD_eq_getElem?_getD, List.getElem?_eq_none (Nat.le_of_not_lt hk)]
  rw [this] at h
  exact h rfl

/-- The lookup by handle reads one entry of the descriptor table. -/
theorem get_socket_from_fd_fst_entry {fd : Int} {w w2 : World}
    (hlen : w2.files.length = w.files.length)
    (hent : file w2 fd.toNat = file w fd.toNat) :
    (get_socket_from_fd fd w2).1 = (get_socket_from_fd fd w).1 := by
  unfold get_socket_from_fd file_struct_get
  rw [hlen]
  by_cases hr : 0 ≤ fd ∧ fd.toNat < w.files.length
  · simp only [hr, and_self, if_true, hent]
    generalize file w fd.toNat = e
    cases hs : e.is_sock <;> cases hb : e.backing <;> simp
  · simp [hr]

/-- The flags `w5100_sock_poll_rw` can return do not hold the invalid flag. -/
theorem poll_rw_not_invalid (a b : Bool) :
    ((if b then (if a then 0 ||| (POLLRDNORM ||| POLLIN) else 0) ||| (POLLWRNORM ||| POLLOUT)
      else (if a then 0 ||| (POLLRDNORM ||| POLLIN) else 0)) &&& POLLNVAL) = 0 := by
  cases a <;> cases b <;> decide

/-! ## Steps of the command protocol -/

theorem awaits_cons {stop : Nat → Bool} {stops : List (Nat → Bool)} {l : List Nat}
    (h : awaits (stop :: stops) l = true) :
    ∃ v rest, await stop l = some (v, rest) ∧ awaits stops rest = true := by
  unfold awaits at h
  cases ha : await stop l with
  | none => simp [ha] at h
  | some p =>
    obtain ⟨v, rest⟩ := p
    simp only [ha] at h
    exact ⟨v, rest, rfl, h⟩

/-- A command the chip acknowledges: the command is on the bus, the script of
`Sn_CR` has moved on, nothing else changed. -/
theorem command_step {w : World} {i : Nat} (cmd : Nat) {v : Nat} {rest : List Nat}
    (h : await cmd_done (w.feed W5100_Sn_CR i) = some (v, rest)) :
    ∃ w1, w5100_command i cmd w = .ok w1 ∧ w1.feed W5100_Sn_CR i = rest ∧
      (∀ r j, r ≠ W5100_Sn_CR → w1.feed r j = w.feed r j) ∧
      w1.w5100_sockets = w.w5100_sockets ∧ w1.files = w.files ∧ w1.errno = w.errno ∧
      w1.bus = w.bus ++ [BusOp.wreg W5100_Sn_CR i cmd] := by
  refine ⟨_, w5100_command_of_await h, by simp, ?_, rfl, rfl, rfl, rfl⟩
  intro r j hr
  simp [hr]

/-- A busy wait on the status register that ends. -/
theorem wait_step {w : World} {i : Nat} {p : Nat → Bool} {v : Nat} {rest : List Nat}
    (h : await p (w.feed W5100_Sn_SR i) = some (v, rest)) :
    ∃ w1, wait_reg W5100_Sn_SR i p w = .ok (v, w1) ∧ w1.feed W5100_Sn_SR i = rest ∧
      (∀ r j, r ≠ W5100_Sn_SR → w1.feed r j = w.feed r j) ∧
      w1.w5100_sockets = w.w5100_sockets ∧ w1.files = w.files ∧ w1.errno = w.errno ∧
      w1.bus = w.bus := by
  refine ⟨_, wait_reg_of_await h, by simp, ?_, rfl, rfl, rfl, rfl⟩
  intro r j hr
  simp [hr]

theorem sock_congr {w w2 : World} (h : w2.w5100_sockets = w.w5100_sockets) (i : Nat) :
    sock w2 i = sock w i := by
  unfold sock; rw [h]

theorem file_congr {w w2 : World} (h : w2.files = w.files) (k : Nat) :
    file w2 k = file w k := by
  unfold file; rw [h]

theorem upd_sock_congr {w w2 : World} (h : w2.w5100_sockets = w.w5100_sockets) (i : Nat)
    (f : w5100_socket → w5100_socket) (j : Nat) :
    sock (upd_sock w2 i f) j = sock (upd_sock w i f) j := by
  rw [sock_upd_sock, sock_upd_sock, h, sock_congr h, sock_congr h]

theorem sock_socket_free (w : World) (i j : Nat) :
    sock (socket_free i w) j
      = if j = i ∧ i < w.w5100_sockets.length then
          { sock w i with fd := W5100_SOCKET_FREE, fd_data := none, connection_data := none,
                          state := W5100_SOCK_STATE_NONE }
        else sock w j := by
  unfold socket_free
  rw [sock_upd_sock]

/-- The state after `p->isopen = 0; file_free(p->fd);` through a slot that
holds the handle `fd` in its own entry. -/
theorem file_after_detach {w : World} {fd : Int} (hfd : 0 ≤ fd)
    (hl : fd.toNat < w.files.length) (hent : (file w fd.toNat).fd = fd) (k : Nat) :
    file (file_free (file (upd_file w fd.toNat (fun f => { f with isopen := false }))
        fd.toNat).fd (upd_file w fd.toNat (fun f => { f with isopen := false }))) k
      = if k = fd.toNat then { file w fd.toNat with isopen := false, fd := -1 }
        else file w k := by
  have h1 : (file (upd_file w fd.toNat (fun f => { f with isopen := false })) fd.toNat).fd
      = fd := by
    rw [file_upd_file]; simp [hl, hent]
  rw [h1]
  unfold file_free
  have hr : 0 ≤ fd ∧ fd.toNat <
      (upd_file w fd.toNat (fun f => { f with isopen := false })).files.length := by
    simp [hl, hfd]
  rw [if_pos hr, file_upd_file, file_upd_file]
  by_cases hk : k = fd.toNat
  · subst hk
    simp [hl]
  · simp [hk, file_upd_file]

/-! ## Ring buffer reads -/

theorem ntohs_lt (x : Nat) : ntohs x < 65536 := by
  unfold ntohs; omega

theorem rx_offset (i p : Nat) : p &&& get_rx_mask i = p % 2048 := by
  have h : get_rx_mask i = 2 ^ 11 - 1 := rfl
  rw [h, Nat.and_pow_two_sub_one_eq_mod]

/-- The number of bytes `read_buf_sure` stores and the pointer it leaves. -/
theorem read_buf_sure_length (i len p : Nat) (w : World) (hlen : len < 65536) :
    (read_buf_sure i len p w).1.1.length = len ∧
    (read_buf_sure i len p w).1.2 = (p + len) % 65536 := by
  unfold read_buf_sure
  simp only [rx_offset, get_rx_size]
  have ho : p % 2048 < 2048 := Nat.mod_lt _ (by decide)
  by_cases hs : p % 2048 + len > 2048
  · simp only [hs, if_true]
    have h1 : (2048 - p % 2048) % 65536 = 2048 - p % 2048 := Nat.mod_eq_of_lt (by omega)
    have h2 : (len - (2048 - p % 2048)) % 65536 = len - (2048 - p % 2048) :=
      Nat.mod_eq_of_lt (by omega)
    rw [h1, h2]
    have h3 : 2048 - p % 2048 > 0 := by omega
    have h4 : len - (2048 - p % 2048) > 0 := by omega
    simp only [h3, h4, if_true, w5100_read_mem, List.length_append, List.length_map,
      List.length_range, and_true]
    omega
  · simp only [hs, if_false, Nat.mod_eq_of_lt hlen]
    by_cases hl : len > 0
    · simp [hl, w5100_read_mem]
    · have : len = 0 := by omega
      subst this
      simp

/-- What `read_buf_sure` does to the state: it appends memory reads to the bus
log and changes nothing else. -/
theorem read_buf_sure_world (i len p : Nat) (w : World) :
    ∃ reads, (∀ op ∈ reads, ∃ a n, op = BusOp.rmem a n) ∧
      (read_buf_sure i len p w).2 = { w with bus := w.bus ++ reads } := by
  unfold read_buf_sure
  simp only [w5100_read_mem]
  generalize (if (p &&& get_rx_mask i) + len > get_rx_size i then
    (get_rx_size i - (p &&& get_rx_mask i)) % 65536 else len % 65536) = t1
  generalize (if (p &&& get_rx_mask i) + len > get_rx_size i then (len - t1) % 65536 else 0)
    = t2
  by_cases h1 : t1 > 0 <;> by_cases h2 : t2 > 0
  · exact ⟨[BusOp.rmem ((get_rx_base i + (p &&& get_rx_mask i)) % 65536) t1,
      BusOp.rmem (get_rx_base i) t2], by simp, by simp [h1, h2]⟩
  · exact ⟨[BusOp.rmem ((get_rx_base i + (p &&& get_rx_mask i)) % 65536) t1], by simp,
      by simp [h1, h2]⟩
  · exact ⟨[BusOp.rmem (get_rx_base i) t2], by simp, by simp [h1, h2]⟩
  · exact ⟨[], by simp, by simp [h1, h2]⟩

/-- The bytes `read_buf_sure` stores do not depend on the bus log. -/
theorem read_buf_sure_content (i len p : Nat) (w : World) (hlen : len ≤ 2048)
    (hwin : W5100_RX_MEM_BASE + get_rx_size i * (i + 1) ≤ 65536) :
    (read_buf_sure i len p w).1.1
      = (List.range len).map (fun n => w.mem (get_rx_base i + (p + n) % 2048) % 256) := by
  have hb : get_rx_base i = W5100_RX_MEM_BASE + 2048 * i := by
    unfold get_rx_base get_rx_size
    apply Nat.mod_eq_of_lt
    simp only [get_rx_size] at hwin
    omega
  have hb2 : get_rx_base i + 2048 ≤ 65536 := by
    rw [hb]; simp only [get_rx_size] at hwin; omega
  unfold read_buf_sure
  simp only [rx_offset, get_rx_size]
  have ho : p % 2048 < 2048 := Nat.mod_lt _ (by decide)
  have hphys : (get_rx_base i + p % 2048) % 65536 = get_rx_base i + p % 2048 :=
    Nat.mod_eq_of_lt (by omega)
  rw [hphys]
  by_cases hs : p % 2048 + len > 2048
  · simp only [hs, if_true]
    have h1 : (2048 - p % 2048) % 65536 = 2048 - p % 2048 := Nat.mod_eq_of_lt (by omega)
    have h2 : (len - (2048 - p % 2048)) % 65536 = len - (2048 - p % 2048) :=
      Nat.mod_eq_of_lt (by omega)
    rw [h1, h2]
    have h3 : 2048 - p % 2048 > 0 := by omega
    have h4 : len - (2048 - p % 2048) > 0 := by omega
    simp only [h3, h4, if_true, w5100_read_mem]
    have hsplit : len = (2048 - p % 2048) + (len - (2048 - p % 2048)) := by omega
    conv_rhs => rw [hsplit, List.range_add, List.map_append, List.map_map]
    congr 1
    · apply List.map_congr_left
      intro n hn
      rw [List.mem_range] at hn
      have : (p + n) % 2048 = p % 2048 + n := by omega
      rw [this, Nat.add_assoc]
    · apply List.map_congr_left
      intro n hn
      rw [List.mem_range] at hn
      have : (p + (2048 - p % 2048 + n)) % 2048 = n := by omega
      simp only [Function.comp_apply, this]
  · simp only [hs, if_false]
    have hl : len % 65536 = len := Nat.mod_eq_of_lt (by omega)
    rw [hl]
    by_cases hl0 : len > 0
    · simp only [hl0, if_true, w5100_read_mem, Nat.lt_irrefl, if_false, List.append_nil]
      apply List.map_congr_left
      intro n hn
      rw [List.mem_range] at hn
      have : (p + n) % 2048 = p % 2048 + n := by omega
      rw [this, Nat.add_assoc]
    · have : len = 0 := by omega
      subst this
      simp
theorem ntohs_le16 (a b : Nat) (ha : a < 256) (hb : b < 256) :
    ntohs (le16 a b) = a * 256 + b := by
  unfold ntohs le16; omega

/-- One round of the loop of `recvfrom` on a datagram socket that finds a
header: the result in terms of the two ring reads and the RECV command. -/
theorem dgram_round_eq (si len : Nat) (address : Option sockaddr_in)
    (address_len : Option Nat) (nb : Bool) (tom : timeout_manager) (fuel : Nat) (u : World)
    (v : Nat) (rest : List Nat) (header bytes : List Nat) (p8 p9 : Nat) (uB uC uD : World)
    (hty : (sock u si).type = SOCK_DGRAM)
    (hrsr : u.feed W5100_Sn_RX_RSR (sock u si).isocket = v :: rest)
    (hv : 8 ≤ ntohs (v % 65536))
    (hA : read_buf_sure (sock u si).isocket 8
        (ntohs (u.regs W5100_Sn_RX_RD (sock u si).isocket % 65536))
        (set_feed u W5100_Sn_RX_RSR (sock u si).isocket rest) = ((header, p8), uB))
    (hB : read_buf_sure (sock u si).isocket
        (ntohs (le16 (header.getD 6 0) (header.getD 7 0))) p8 uB = ((bytes, p9), uC))
    (hC : w5100_command (sock u si).isocket W5100_CMD_RECV
        (w5100_write_sock_reg W5100_Sn_RX_RD (sock u si).isocket (htons p9) uC) = .ok uD) :
    recvfrom_loop si len address address_len nb tom (fuel + 1) u
      = .ok (⟨(ntohs (le16 (header.getD 6 0) (header.getD 7 0)) : Nat), bytes,
          if address ≠ none ∧ address_len ≠ none then
            address.map (fun peer =>
              { peer with
                sin_addr := le32 (header.getD 0 0) (header.getD 1 0) (header.getD 2 0)
                  (header.getD 3 0)
                sin_port := le16 (header.getD 4 0) (header.getD 5 0) })
          else address,
          if address ≠ none ∧ address_len ≠ none then some 16 else address_len⟩, uD) := by
  have hnot : ¬ (sock u si).type = SOCK_STREAM := by rw [hty]; decide
  have h1 := read_sock_regx_cons (r := W5100_Sn_RX_RSR) rfl hrsr
  rw [recvfrom_loop]
  simp only [hnot, if_false, hty, if_true, read_buf_len, Bind.bind, Except.bind,
    h1, pure, Except.pure, ge_iff_le, hv, read_buf_pstart, set_feed_regs,
    read_sock_regx_stored _ _ (rfl : W5100_Sn_RX_RD.volatile = false), read_buf_recv,
    sock_set_feed, hA, hB, hC]
  rw [if_neg (by decide : ¬ SOCK_DGRAM = SOCK_STREAM)]

/-! ## Allocation of channels -/

theorem first_free_sock_eq {l : List w5100_socket} {j : Nat} (hj : j < l.length)
    (hfree : (l.getD j default).fd = W5100_SOCKET_FREE)
    (hocc : ∀ i, i < j → (l.getD i default).fd ≠ W5100_SOCKET_FREE) :
    first_free_sock l = some j := by
  induction l generalizing j with
  | nil => simp at hj
  | cons s rest ih =>
    unfold first_free_sock
    cases j with
    | zero =>
      have : s.fd = W5100_SOCKET_FREE := by simpa using hfree
      simp [this]
    | succ j =>
      have h0 : ¬ s.fd = W5100_SOCKET_FREE := by simpa using hocc 0 (by omega)
      have := ih (j := j) (by simpa using hj) (by simpa using hfree)
        (fun i hi => by simpa using hocc (i + 1) (by omega))
      simp [h0, this]

theorem first_free_sock_none {l : List w5100_socket}
    (hocc : ∀ i, i < l.length → (l.getD i default).fd ≠ W5100_SOCKET_FREE) :
    first_free_sock l = none := by
  induction l with
  | nil => rfl
  | cons s rest ih =>
    unfold first_free_sock
    have h0 : ¬ s.fd = W5100_SOCKET_FREE := by simpa using hocc 0 (by simp)
    have := ih (fun i hi => by simpa using hocc (i + 1) (by simpa using hi))
    simp [h0, this]

theorem free_files_pos_of_free {w : World} (h : 0 < free_files w) :
    ∃ n, first_free_file w.files = some n := by
  unfold free_files at h
  obtain ⟨f, hf, hp⟩ := List.countP_pos_iff.1 h
  obtain ⟨k, hk, rfl⟩ := List.getElem_of_mem hf
  refine first_free_file_exists (j := k) hk ?_
  simpa [List.getD_eq_getElem?_getD, List.getElem?_eq_getElem hk] using hp
/-- Allocating slot `n`, free before, leaves one free slot less. -/
theorem free_files_set (w u : World) (n : Nat) (a b : struct_fd) (hn : n < w.files.length)
    (hu : u.files = (w.files.set n a).set n b) (hf : (file w n).fd = -1) (hb : b.fd ≠ -1) :
    free_files u = free_files w - 1 := by
  unfold free_files
  rw [hu, List.set_set, List.countP_set _ _ _ _ hn]
  have hget : w.files[n] = file w n := by
    simp [file, List.getD_eq_getElem?_getD, List.getElem?_eq_getElem hn]
  simp [hget, hf, hb]

/-- One successful call `socket(AF_INET, type, 0)` when channel `j` is the first
free channel and the descriptor table has a free slot. -/
theorem socket_step (type : Int)
    (htype : type = SOCK_STREAM ∨ type = SOCK_DGRAM ∨ type = SOCK_RAW) (w : World) (j : Nat)
    (hocc : occupied_below w j) (hj : j < w.w5100_sockets.length) (hfree : 0 < free_files w) :
    ∃ (n : Nat) (w1 : World), socket (AF_INET : Int) type 0 w = .ok ((n : Int), w1) ∧
      n < w.files.length ∧ (file w n).fd = -1 ∧
      occupied_below w1 (j + 1) ∧ w1.w5100_sockets.length = w.w5100_sockets.length ∧
      (sock w1 j).fd = (n : Int) ∧ (sock w1 j).state = W5100_SOCK_STATE_CREATED ∧
      (sock w1 j).type = type ∧
      (∀ i, i ≠ j → sock w1 i = sock w i) ∧
      w1.files.length = w.files.length ∧ (file w1 n).fd = (n : Int) ∧
      (∀ k, k ≠ n → file w1 k = file w k) ∧
      free_files w1 = free_files w - 1 := by
  obtain ⟨n, hn⟩ := free_files_pos_of_free hfree
  obtain ⟨hnl, hnf, -⟩ := first_free_file_some hn
  have hnf2 : (file w n).fd = -1 := by simpa [file] using hnf
  have hffs : first_free_sock w.w5100_sockets = some j :=
    first_free_sock_eq hj (by simpa [sock] using hocc.2 j (Nat.le_refl j) hj)
      (fun i hi => by simpa [sock] using hocc.1 i hi)
  have hvalid : ¬ (type ≠ SOCK_STREAM ∧ type ≠ SOCK_DGRAM ∧ type ≠ SOCK_RAW) := by
    rcases htype with h | h | h <;> simp [h]
  have hj1 : ¬ ((j : Int) = -1) := by omega
  have hn1 : ¬ ((n : Int) = -1) := by omega
  have hfa : file_alloc (upd_sock w j (fun s => { s with fd := (j : Int) }))
      = ((n : Int), upd_file (upd_sock w j (fun s => { s with fd := (j : Int) })) n
          (fun f => { f with fd := (n : Int) })) :=
    file_alloc_some (w := upd_sock w j (fun s => { s with fd := (j : Int) })) hn
  have hfsg : ∀ u : World, u.files.length = w.files.length →
      file_struct_get (n : Int) u = some n := fun u hu =>
    file_struct_get_nat (by rw [hu]; exact hnl)
  have hgs : ∀ u : World, u.w5100_sockets.length = w.w5100_sockets.length →
      get_socket_from_isocket (j : Int) u = some j := by
    intro u hu
    unfold get_socket_from_isocket
    have : ¬ ((j : Int) < 0 ∨ (j : Int) ≥ (u.w5100_sockets.length : Int)) := by
      rw [hu]; omega
    rw [if_neg this]
    simp
  refine ⟨n, ?_⟩
  simp only [socket, ne_eq, not_true_eq_false, if_false, hvalid, socket_create, socket_alloc,
    hffs, hj1, not_false_eq_true, if_true, hfa, hn1, fill_fd_struct, Int.toNat_ofNat,
    hfsg, Bind.bind, Except.bind, hgs, pure, Except.pure, upd_file_length, upd_sock_files,
    upd_sock_length, upd_file_sockets]
  refine ⟨_, rfl, hnl, hnf2, ?_⟩
  · refine ⟨⟨?_, ?_⟩, by simp, ?_, ?_, ?_, ?_, by simp, ?_, ?_, ?_⟩
    · intro i hi
      by_cases hij : i = j
      · subst hij
        simp [sock_upd_sock, hj, W5100_SOCKET_FREE]
      · simp only [sock_write_reg, sock_upd_sock, hij, false_and, if_false, sock_upd_file]
        exact hocc.1 i (by omega)
    · intro i hi hil
      have hij : ¬ i = j := by omega
      simp only [sock_write_reg, sock_upd_sock, hij, false_and, if_false, sock_upd_file]
      exact hocc.2 i (by omega) (by simpa using hil)
    · simp [sock_upd_sock, hj]
    · simp [sock_upd_sock, hj]
    · simp [sock_upd_sock, hj]
    · intro i hij
      simp [sock_upd_sock, hij]
    · simp [file_upd_file, hnl]
    · intro k hk
      simp [file_upd_file, hk]
    · refine free_files_set w _ n _ _ hnl rfl hnf2 ?_
      simp [file_upd_file, hnl, hn1]
/-- The scenario `socket_n`: `m` calls starting with channel `j` as the first
free channel and at least `m` free descriptor slots. -/
theorem socket_n_spec (type : Int)
    (htype : type = SOCK_STREAM ∨ type = SOCK_DGRAM ∨ type = SOCK_RAW) :
    ∀ (m j : Nat) (w : World), occupied_below w j → j + m ≤ w.w5100_sockets.length →
      m ≤ free_files w →
      ∃ fds w1, socket_n type m w = .ok (fds, w1) ∧ fds.length = m ∧
        occupied_below w1 (j + m) ∧ w1.w5100_sockets.length = w.w5100_sockets.length ∧
        (∀ t, t < m → (sock w1 (j + t)).fd = fds.getD t 0 ∧
          (sock w1 (j + t)).state = W5100_SOCK_STATE_CREATED ∧
          (sock w1 (j + t)).type = type) ∧
        (∀ i, i < j → sock w1 i = sock w i) ∧
        fds.Nodup ∧
        (∀ fd ∈ fds, 0 ≤ fd ∧ fd.toNat < w.files.length ∧ (file w fd.toNat).fd = -1) ∧
        (∀ k, (file w k).fd ≠ -1 → (file w1 k).fd = (file w k).fd) ∧
        w1.files.length = w.files.length := by
  intro m
  induction m with
  | zero =>
    intro j w hocc _ _
    exact ⟨[], w, rfl, rfl, hocc, rfl, fun t ht => absurd ht (Nat.not_lt_zero t),
      fun _ _ => rfl, List.nodup_nil, fun fd hfd => absurd hfd (List.not_mem_nil fd),
      fun _ _ => rfl, rfl⟩
  | succ m ih =>
    intro j w hocc hjm hfree
    obtain ⟨n, wa, hrun, hnl, hnf, hocca, hlen, hfd, hst, hty, hother, hflen, hfn, hfother,
      hcount⟩ := socket_step type htype w j hocc (by omega) (by omega)
    obtain ⟨fds, w1, hrun1, hl1, hocc1, hlen1, hch1, hkeep1, hnd1, hfree1, hstay1, hflen1⟩ :=
      ih (j + 1) wa hocca (by rw [hlen]; omega) (by rw [hcount]; omega)
    have hnotin : (n : Int) ∉ fds := by
      intro hmem
      have := (hfree1 _ hmem).2.2
      rw [Int.toNat_ofNat, hfn] at this
      omega
    refine ⟨(n : Int) :: fds, w1, ?_, by simp [hl1], ?_, by rw [hlen1, hlen], ?_, ?_, ?_, ?_,
      ?_, by rw [hflen1, hflen]⟩
    · simp only [socket_n, hrun, hrun1]
    · have : j + (m + 1) = j + 1 + m := by omega
      rw [this]; exact hocc1
    · intro t ht
      cases t with
      | zero =>
        rw [Nat.add_zero, hkeep1 j (by omega)]
        exact ⟨by simpa using hfd, hst, hty⟩
      | succ t =>
        have h := hch1 t (by omega)
        have e : j + (t + 1) = j + 1 + t := by omega
        rw [e]
        simpa using h
    · intro i hi
      rw [hkeep1 i (by omega), hother i (by omega)]
    · exact List.nodup_cons.2 ⟨hnotin, hnd1⟩
    · intro fd hfdm
      rcases List.mem_cons.1 hfdm with h | h
      · subst h
        exact ⟨by omega, by simpa using hnl, by simpa using hnf⟩
      · obtain ⟨h0, h1, h2⟩ := hfree1 fd h
        have hne : fd.toNat ≠ n := by
          intro he
          rw [he, hfn] at h2
          omega
        rw [hfother _ hne] at h2
        exact ⟨h0, by rw [← hflen]; exact h1, h2⟩
    · intro k hk
      have hne : k ≠ n := by
        intro he
        rw [he] at hk
        exact hk hnf
      rw [← hfother k hne] at hk ⊢
      exact hstay1 k hk

/-! ## Ring buffer writes -/

theorem tx_bytes_append (a b : List BusOp) : tx_bytes (a ++ b) = tx_bytes a + tx_bytes b := by
  induction a with
  | nil => simp [tx_bytes]
  | cons op rest ih =>
    cases op with
    | wreg r i v => simp [tx_bytes, ih]
    | wmem a d => simp [tx_bytes, ih]; omega
    | rmem a n => simp [tx_bytes, ih]

theorem slice_length (buf : List Nat) (off n : Nat) : (slice buf off n).length = n := by
  simp [slice]

theorem tx_offset (i p : Nat) : p &&& get_tx_mask i = p % 2048 := by
  have h : get_tx_mask i = 2 ^ 11 - 1 := rfl
  rw [h, Nat.and_pow_two_sub_one_eq_mod]

/-- What `write_buf_sure` does to the state: `len` bytes go to buffer memory,
nothing but memory and the bus log changes. -/
theorem write_buf_sure_world (i : Nat) (buf : List Nat) (len p : Nat) (w : World)
    (hlen : len < 65536) :
    (write_buf_sure i buf len p w).1 = (p + len) % 65536 ∧
    tx_bytes (write_buf_sure i buf len p w).2.bus = tx_bytes w.bus + len ∧
    (write_buf_sure i buf len p w).2.w5100_sockets = w.w5100_sockets ∧
    (write_buf_sure i buf len p w).2.files = w.files ∧
    (write_buf_sure i buf len p w).2.feed = w.feed ∧
    (write_buf_sure i buf len p w).2.clock = w.clock ∧
    (write_buf_sure i buf len p w).2.regs = w.regs ∧
    (write_buf_sure i buf len p w).2.errno = w.errno := by
  unfold write_buf_sure
  simp only [tx_offset, get_tx_size]
  have ho : p % 2048 < 2048 := Nat.mod_lt _ (by decide)
  by_cases hs : len + p % 2048 > 2048
  · have h1 : (2048 - p % 2048) % 65536 = 2048 - p % 2048 := Nat.mod_eq_of_lt (by omega)
    have h2 : (len - (2048 - p % 2048)) % 65536 = len - (2048 - p % 2048) :=
      Nat.mod_eq_of_lt (by omega)
    have h3 : 2048 - p % 2048 > 0 := by omega
    have h4 : len - (2048 - p % 2048) > 0 := by omega
    simp only [hs, if_true, h1, h2, h3, h4, w5100_write_mem, tx_bytes_append, tx_bytes,
      slice_length, and_true, true_and]
    omega
  · have hl : len % 65536 = len := Nat.mod_eq_of_lt hlen
    by_cases hl0 : len > 0
    · simp [hs, hl, hl0, w5100_write_mem, tx_bytes_append, tx_bytes, slice_length]
    · have : len = 0 := by omega
      subst this
      have h2 : ¬ (2048 < p % 2048) := by omega
      simp [h2]
/-- `write_buf` when the free size register reads zero: nothing is written. -/
theorem write_buf_full {i : Nat} {w : World} {v : Nat} {rest : List Nat} (buf : List Nat)
    (n : Nat) (hf : w.feed W5100_Sn_TX_FSR i = v :: rest) (hv : ntohs (v % 65536) = 0) :
    write_buf i buf n w = .ok (0, set_feed w W5100_Sn_TX_FSR i rest) := by
  have h1 := read_sock_regx_cons (r := W5100_Sn_TX_FSR) rfl hf
  simp [write_buf, write_buf_len, h1, Bind.bind, Except.bind, pure, Except.pure, hv]

/-- `write_buf` when the free size register reads `nfree > 0` and the chip
acknowledges the SEND command: `min n nfree` bytes are written. -/
theorem write_buf_room {i : Nat} {w : World} {v : Nat} {rest : List Nat} (buf : List Nat)
    (n : Nat) {c : Nat} {r1 : List Nat} (hf : w.feed W5100_Sn_TX_FSR i = v :: rest)
    (hv : 0 < ntohs (v % 65536))
    (hack : await cmd_done (w.feed W5100_Sn_CR i) = some (c, r1)) :
    ∃ w1, write_buf i buf n w = .ok (min n (ntohs (v % 65536)), w1) ∧
      tx_bytes w1.bus = tx_bytes w.bus + min n (ntohs (v % 65536)) ∧
      w1.w5100_sockets = w.w5100_sockets ∧ w1.files = w.files ∧ w1.clock = w.clock ∧
      w1.feed W5100_Sn_TX_FSR i = rest ∧ w1.feed W5100_Sn_CR i = r1 ∧
      (∀ r j, r ≠ W5100_Sn_TX_FSR → r ≠ W5100_Sn_CR → w1.feed r j = w.feed r j) := by
  have h1 := read_sock_regx_cons (r := W5100_Sn_TX_FSR) rfl hf
  have hlt := ntohs_lt (v % 65536)
  have hm : (if n > ntohs (v % 65536) then ntohs (v % 65536) else n)
      = min n (ntohs (v % 65536)) := by
    by_cases h : n > ntohs (v % 65536)
    · simp [h]; omega
    · simp [h]; omega
  have hm16 : min n (ntohs (v % 65536)) < 65536 := by omega
  obtain ⟨hp, hb, hs, hfi, hfe, hcl, -, -⟩ :=
    write_buf_sure_world i buf (min n (ntohs (v % 65536)))
      (ntohs (w.regs W5100_Sn_TX_WR i % 65536)) (set_feed w W5100_Sn_TX_FSR i rest) hm16
  obtain ⟨w1, hc, hcr, hoth, hcs, hcf, -, hcb⟩ :=
    command_step (w := w5100_write_sock_reg W5100_Sn_TX_WR i
      (htons (write_buf_sure i buf (min n (ntohs (v % 65536)))
        (ntohs (w.regs W5100_Sn_TX_WR i % 65536)) (set_feed w W5100_Sn_TX_FSR i rest)).1)
      (write_buf_sure i buf (min n (ntohs (v % 65536)))
        (ntohs (w.regs W5100_Sn_TX_WR i % 65536)) (set_feed w W5100_Sn_TX_FSR i rest)).2)
      (i := i) W5100_CMD_SEND (by rw [write_reg_feed, hfe]; simpa using hack)
  refine ⟨w1, ?_, ?_, ?_, ?_, ?_, ?_, hcr, ?_⟩
  · simp only [write_buf, write_buf_len, h1, Bind.bind, Except.bind, pure, Except.pure, hv,
      gt_iff_lt, if_true, write_buf_pstart, set_feed_regs,
      read_sock_regx_stored _ _ (rfl : W5100_Sn_TX_WR.volatile = false), write_buf_send]
    simp only [gt_iff_lt] at hm
    rw [hm, hc, Nat.mod_eq_of_lt hm16]
  · rw [hcb, tx_bytes_append, write_reg_bus, tx_bytes_append, hb]
    simp [tx_bytes]
  · rw [hcs, write_reg_sockets, hs]; rfl
  · rw [hcf, write_reg_files, hfi]; rfl
  · obtain ⟨rr, hrr⟩ := w5100_command_ok hc
    rw [hrr]; simp [hcl]
  · rw [hoth _ _ (by decide), write_reg_feed, hfe]; simp
  · intro r j hr1 hr2
    rw [hoth _ _ hr2, write_reg_feed, hfe]
    simp [hr1]

/-- `manage_disconnect` when the status register reads ESTABLISHED: it returns
0 and only consumes the reading. -/
theorem manage_disconnect_established {si : Nat} {w : World} {v : Nat} {l : List Nat}
    (hf : w.feed W5100_Sn_SR (sock w si).isocket = v :: l)
    (hv : v % 256 = W5100_SOCK_ESTABLISHED) :
    manage_disconnect si w = .ok (0, set_feed w W5100_Sn_SR (sock w si).isocket l) := by
  have h1 := read_sock_reg_cons (r := W5100_Sn_SR) rfl hf
  simp [manage_disconnect, h1, Bind.bind, Except.bind, pure, Except.pure, hv]
theorem read_sock_regx_nil {r : SockReg} {i : Nat} {w : World} (hv : r.volatile = true)
    (h : w.feed r i = []) : w5100_read_sock_regx r i w = .error Stuck.hang := by
  simp [w5100_read_sock_regx, read_raw, hv, h]

theorem read_sock_reg_nil {r : SockReg} {i : Nat} {w : World} (hv : r.volatile = true)
    (h : w.feed r i = []) : w5100_read_sock_reg r i w = .error Stuck.hang := by
  simp [w5100_read_sock_reg, read_raw, hv, h]

theorem write_buf_nofeed {i : Nat} {w : World} (buf : List Nat) (n : Nat)
    (hf : w.feed W5100_Sn_TX_FSR i = []) : write_buf i buf n w = .error Stuck.hang := by
  simp [write_buf, write_buf_len, read_sock_regx_nil (r := W5100_Sn_TX_FSR) rfl hf,
    Bind.bind, Except.bind]

theorem w5100_command_noack {i cmd : Nat} {w : World}
    (h : await cmd_done (w.feed W5100_Sn_CR i) = none) :
    w5100_command i cmd w = .error Stuck.hang := by
  have h2 : await (fun cr => cr == 0)
      ((w5100_write_sock_reg W5100_Sn_CR i cmd w).feed W5100_Sn_CR i) = none := by
    simpa using h
  simp only [w5100_command, wait_reg, h2]

theorem write_buf_noack {i : Nat} {w : World} {v : Nat} {rest : List Nat} (buf : List Nat)
    (n : Nat) (hf : w.feed W5100_Sn_TX_FSR i = v :: rest) (hv : 0 < ntohs (v % 65536))
    (hack : await cmd_done (w.feed W5100_Sn_CR i) = none) :
    write_buf i buf n w = .error Stuck.hang := by
  have h1 := read_sock_regx_cons (r := W5100_Sn_TX_FSR) rfl hf
  have hlt := ntohs_lt (v % 65536)
  have hm16 : (if n > ntohs (v % 65536) then ntohs (v % 65536) else n) < 65536 := by
    split <;> omega
  obtain ⟨-, -, -, -, hfe, -, -, -⟩ :=
    write_buf_sure_world i buf (if n > ntohs (v % 65536) then ntohs (v % 65536) else n)
      (ntohs (w.regs W5100_Sn_TX_WR i % 65536)) (set_feed w W5100_Sn_TX_FSR i rest) hm16
  simp only [write_buf, write_buf_len, h1, Bind.bind, Except.bind, pure, Except.pure, hv,
    gt_iff_lt, if_true, write_buf_pstart, set_feed_regs,
    read_sock_regx_stored _ _ (rfl : W5100_Sn_TX_WR.volatile = false), write_buf_send]
  rw [w5100_command_noack]
  rw [write_reg_feed]
  simp only [gt_iff_lt] at hfe
  rw [hfe]
  simpa using hack

theorem manage_disconnect_nofeed {si : Nat} {w : World}
    (hf : w.feed W5100_Sn_SR (sock w si).isocket = []) :
    manage_disconnect si w = .error Stuck.hang := by
  simp [manage_disconnect, read_sock_reg_nil (r := W5100_Sn_SR) rfl hf, Bind.bind,
    Except.bind]

/-- The loop of `send` while the link stays ESTABLISHED: what it returns is
sound.  `towrite - tw` bytes went to the TX ring, and a blocking call whose
timeout does not elapse leaves nothing unwritten. -/
theorem send_loop_sound (si : Nat) (nb : Bool) (tom : timeout_manager) :
    ∀ (fuel : Nat) (ret : Option Int) (bytes : List Nat) (towrite : Nat) (w : World)
      (r2 : Option Int) (tw : Nat) (w1 : World),
      send_loop si nb tom fuel ret bytes towrite w = .ok ((r2, tw), w1) →
      (∀ x ∈ w.feed W5100_Sn_SR (sock w si).isocket, x % 256 = W5100_SOCK_ESTABLISHED) →
      tw ≤ towrite ∧ tx_bytes w1.bus = tx_bytes w.bus + (towrite - tw) ∧
      (nb = false → (tom.has_timeout = false ∨ ∀ c ∈ w.clock, c ≤ tom.tm_end) → tw = 0) := by
  intro fuel
  induction fuel with
  | zero =>
    intro ret bytes towrite w r2 tw w1 h
    simp [send_loop] at h
  | succ fuel ih =>
    intro ret bytes towrite w r2 tw w1 h hlink
    rw [send_loop] at h
    by_cases ht : towrite > 0
    · rw [if_pos ht] at h
      cases hf : w.feed W5100_Sn_TX_FSR (sock w si).isocket with
      | nil => rw [write_buf_nofeed _ _ hf] at h; simp at h
      | cons v rest =>
        by_cases hv : ntohs (v % 65536) = 0
        · -- no room: the link is checked, then the call waits or gives up
          rw [write_buf_full _ _ hf hv] at h
          simp only [gt_iff_lt, Nat.lt_irrefl, if_false] at h
          have hiso : (sock (set_feed w W5100_Sn_TX_FSR (sock w si).isocket rest) si).isocket
              = (sock w si).isocket := rfl
          cases hsr : w.feed W5100_Sn_SR (sock w si).isocket with
          | nil =>
            rw [manage_disconnect_nofeed (by rw [hiso]; simpa using hsr)] at h
            simp at h
          | cons x xs =>
            have hx : x % 256 = W5100_SOCK_ESTABLISHED := hlink x (by rw [hsr]; simp)
            rw [manage_disconnect_established (v := x) (l := xs)
              (by rw [hiso]; simpa using hsr) hx] at h
            simp only [hiso] at h
            have h01 : ¬ ((0 : Int) = -1) := by decide
            simp only [h01, if_false] at h
            cases nb with
            | true =>
              simp only [if_true, Except.ok.injEq, Prod.mk.injEq] at h
              obtain ⟨⟨-, rfl⟩, rfl⟩ := h
              refine ⟨Nat.le_refl _, by simp, fun hc => absurd hc (by decide)⟩
            | false =>
              simp only [Bool.false_eq_true, if_false] at h
              unfold timeout_ended at h
              -- the next round, from any state that differs in the clock at most
              have key : ∀ W : World,
                  send_loop si false tom fuel ret bytes towrite W = .ok ((r2, tw), w1) →
                  W.w5100_sockets = w.w5100_sockets →
                  W.feed W5100_Sn_SR (sock w si).isocket = xs → W.bus = w.bus →
                  tw ≤ towrite ∧ tx_bytes w1.bus = tx_bytes w.bus + (towrite - tw) ∧
                  ((tom.has_timeout = false ∨ ∀ c ∈ W.clock, c ≤ tom.tm_end) → tw = 0) := by
                intro W hrun hWs hWf hWb
                have := ih ret bytes towrite W r2 tw w1 hrun (by
                  intro y hy
                  rw [sock_congr hWs, hWf] at hy
                  exact hlink y (by rw [hsr]; exact List.mem_cons_of_mem _ hy))
                exact ⟨this.1, by rw [this.2.1, hWb], fun hno => this.2.2 rfl hno⟩
              by_cases htm : tom.has_timeout = true
              · simp only [htm, if_true, clock_gettime] at h
                cases hcl : w.clock with
                | nil => simp [hcl, Bind.bind, Except.bind] at h
                | cons c cs =>
                  simp only [set_feed_clock, hcl, Bind.bind, Except.bind, pure,
                    Except.pure] at h
                  by_cases hend : timespec_diff tom.tm_end c < 0
                  · simp only [hend, decide_True, if_true, Except.ok.injEq,
                      Prod.mk.injEq] at h
                    obtain ⟨⟨-, rfl⟩, rfl⟩ := h
                    refine ⟨Nat.le_refl _, by simp, ?_⟩
                    intro _ hno
                    rcases hno with hno | hno
                    · rw [htm] at hno; exact absurd hno (by decide)
                    · have := hno c (by simp)
                      unfold timespec_diff at hend
                      omega
                  · simp only [hend, decide_False, Bool.false_eq_true, if_false] at h
                    have hk := key _ h rfl (by simp) rfl
                    refine ⟨hk.1, hk.2.1, ?_⟩
                    intro _ hno
                    apply hk.2.2
                    rcases hno with hno | hno
                    · exact Or.inl hno
                    · right
                      intro c2 hc2
                      exact hno c2 (List.mem_cons_of_mem _ hc2)
              · simp only [htm, Bool.false_eq_true, if_false] at h
                have hk := key _ h rfl (by simp) rfl
                exact ⟨hk.1, hk.2.1, fun _ hno => hk.2.2 hno⟩
        · have hv0 : 0 < ntohs (v % 65536) := by omega
          cases hack : await cmd_done (w.feed W5100_Sn_CR (sock w si).isocket) with
          | none => rw [write_buf_noack _ _ hf hv0 hack] at h; simp at h
          | some pr =>
            obtain ⟨c, r1⟩ := pr
            obtain ⟨w2, hwb, hbus, hsocks, -, hclk, -, -, hoth⟩ :=
              write_buf_room bytes towrite hf hv0 hack
            rw [hwb] at h
            have hpos : min towrite (ntohs (v % 65536)) > 0 := by omega
            simp only [hpos, if_true] at h
            cases nb with
            | true =>
              simp only [if_true, Except.ok.injEq, Prod.mk.injEq] at h
              obtain ⟨⟨-, rfl⟩, rfl⟩ := h
              refine ⟨by omega, ?_, fun hc => absurd hc (by decide)⟩
              rw [hbus]; omega
            | false =>
              simp only [Bool.false_eq_true, if_false] at h
              have hiso2 : (sock w2 si).isocket = (sock w si).isocket := by
                rw [sock_congr hsocks]
              have := ih ret _ _ w2 r2 tw w1 h (by
                intro y hy
                apply hlink y
                rw [hiso2, hoth _ _ (by decide) (by decide)] at hy
                exact hy)
              refine ⟨by omega, ?_, ?_⟩
              · rw [this.2.1, hbus]; omega
              · intro _ hno
                apply this.2.2 rfl
                rw [hclk]
                exact hno
    · rw [if_neg ht] at h
      simp only [Except.ok.injEq, Prod.mk.injEq] at h
      obtain ⟨⟨-, rfl⟩, rfl⟩ := h
      exact ⟨Nat.le_refl _, by simp, fun _ _ => by omega⟩
theorem await_cmd_done_cons {c : Nat} {cr : List Nat} (h : c % 256 = 0) :
    await cmd_done (c :: cr) = some (0, cr) := by
  simp [await, h]

/-- The loop of a blocking `send` returns with nothing left when every reading
of the free size is positive and every command is acknowledged at once, given
`towrite` readings of each. -/
theorem send_loop_room (si : Nat) (tom : timeout_manager) :
    ∀ (fuel : Nat) (ret : Option Int) (bytes : List Nat) (towrite : Nat) (w : World),
      (∀ x ∈ w.feed W5100_Sn_TX_FSR (sock w si).isocket, 0 < ntohs (x % 65536)) →
      towrite ≤ (w.feed W5100_Sn_TX_FSR (sock w si).isocket).length →
      (∀ x ∈ w.feed W5100_Sn_CR (sock w si).isocket, x % 256 = 0) →
      towrite ≤ (w.feed W5100_Sn_CR (sock w si).isocket).length →
      towrite < fuel →
      ∃ w1, send_loop si false tom fuel ret bytes towrite w = .ok ((ret, 0), w1) := by
  intro fuel
  induction fuel with
  | zero => intro ret bytes towrite w _ _ _ _ h; omega
  | succ fuel ih =>
    intro ret bytes towrite w hfsr hfl hcr hcl hfuel
    rw [send_loop]
    by_cases ht : towrite > 0
    · rw [if_pos ht]
      cases hf : w.feed W5100_Sn_TX_FSR (sock w si).isocket with
      | nil => rw [hf] at hfl; simp at hfl; omega
      | cons v rest =>
        cases hc : w.feed W5100_Sn_CR (sock w si).isocket with
        | nil => rw [hc] at hcl; simp at hcl; omega
        | cons c cr =>
          have hv0 : 0 < ntohs (v % 65536) := hfsr v (by rw [hf]; simp)
          have hack : await cmd_done (w.feed W5100_Sn_CR (sock w si).isocket) = some (0, cr) := by
            rw [hc]; exact await_cmd_done_cons (hcr c (by rw [hc]; simp))
          obtain ⟨w2, hwb, -, hsocks, -, -, hf2, hc2, -⟩ :=
            write_buf_room bytes towrite hf hv0 hack
          rw [hwb]
          have hpos : min towrite (ntohs (v % 65536)) > 0 := by omega
          simp only [hpos, if_true, Bool.false_eq_true, if_false]
          have hiso2 : (sock w2 si).isocket = (sock w si).isocket := by rw [sock_congr hsocks]
          rw [hf] at hfl hfsr
          rw [hc] at hcl hcr
          simp only [List.length_cons] at hfl hcl
          exact ih ret _ _ w2
            (by rw [hiso2, hf2]; intro x hx; exact hfsr x (List.mem_cons_of_mem _ hx))
            (by rw [hiso2, hf2]; omega)
            (by rw [hiso2, hc2]; intro x hx; exact hcr x (List.mem_cons_of_mem _ hx))
            (by rw [hiso2, hc2]; omega) (by omega)
    · rw [if_neg ht]
      have : towrite = 0 := by omega
      subst this
      exact ⟨w, rfl⟩

/-- On a stream socket in CONNECTED or ACCEPTED state `send` never returns a
negative value, whatever the chip does: the value it returns is always
`len - towrite`. -/
theorem send_stream_nonneg (fd : Int) (w : World) (si : Nat) (buf : List Nat) (len : Nat)
    (hg : (get_socket_from_fd fd w).1 = some si)
    (hty : (sock w si).type = SOCK_STREAM)
    (hst : (sock w si).state = W5100_SOCK_STATE_CONNECTED
      ∨ (sock w si).state = W5100_SOCK_STATE_ACCEPTED)
    (r : Int) (w1 : World) (h : send fd buf len w = .ok (r, w1)) : 0 ≤ r := by
  have hgs := get_socket_from_fd_some hg
  have hnd : ¬ (sock w si).type = SOCK_DGRAM := by rw [hty]; decide
  have hns : ¬ (sock w si).type ≠ SOCK_STREAM := by simp [hty]
  have hstate : ¬ ((sock w si).state ≠ W5100_SOCK_STATE_ACCEPTED
      ∧ (sock w si).state ≠ W5100_SOCK_STATE_CONNECTED) := by
    rcases hst with h | h <;> simp [h]
  simp only [send, send_body, hgs, hnd, if_false, hstate] at h
  rw [if_neg hns] at h
  obtain ⟨nb, -, h⟩ := bind_ok_iff.1 h
  have key : ∀ x : Run (timeout_manager × World),
      (x >>= fun y => send_loop si nb y.1
        ((y.2.feed W5100_Sn_TX_FSR (sock w si).isocket).length + 1) none buf len y.2
        >>= fun d => (pure (((len - d.1.2 : Nat) : Int), d.2) : Run (Int × World)))
        = .ok (r, w1) → ∃ tw : Nat, r = ((len - tw : Nat) : Int) := by
    intro x hx
    obtain ⟨y, -, hx⟩ := bind_ok_iff.1 hx
    obtain ⟨d, -, hx⟩ := bind_ok_iff.1 hx
    simp only [pure, Except.pure, Except.ok.injEq, Prod.mk.injEq] at hx
    exact ⟨d.1.2, hx.1.symm⟩
  have h2 : ∃ tw : Nat, r = ((len - tw : Nat) : Int) := by
    by_cases hb : (!nb) = true
    · rw [if_pos hb] at h; exact key _ h
    · rw [if_neg hb] at h; exact key _ h
  obtain ⟨tw, rfl⟩ := h2
  exact Int.ofNat_nonneg _

/-- The lemma `send_stream_nonneg` on the failing input of the hard-disconnect
case. -/
theorem send_stream_nonneg_witness :
    ∀ r w1, send 0 [7] 1 world_send_disconnect = .ok (r, w1) → 0 ≤ r :=
  fun r w1 h => send_stream_nonneg 0 world_send_disconnect 0 [7] 1 (by decide) (by decide)
    (Or.inl (by decide)) r w1 h

/-! ## Ephemeral ports -/

theorem port_scan_iff (w : World) (a : Nat) :
    ∀ n i, port_scan w a n i = true ↔
      ∃ j, i ≤ j ∧ j < i + n ∧ (sock w j).state ≠ W5100_SOCK_STATE_NONE
        ∧ w.regs W5100_Sn_PORT j % 65536 = a := by
  intro n
  induction n with
  | zero => intro i; simp [port_scan]; intro j hj hlt; omega
  | succ n ih =>
    intro i
    unfold port_scan
    by_cases h : (sock w i).state ≠ W5100_SOCK_STATE_NONE ∧ w.regs W5100_Sn_PORT i % 65536 = a
    · rw [if_pos h]
      simp only [true_iff]
      exact ⟨i, le_refl i, by omega, h.1, h.2⟩
    · rw [if_neg h, ih (i + 1)]
      constructor
      · rintro ⟨j, h1, h2, h3⟩
        exact ⟨j, by omega, by omega, h3⟩
      · rintro ⟨j, h1, h2, h3, h4⟩
        have hne : j ≠ i := by
          intro e; subst e; exact h ⟨h3, h4⟩
        exact ⟨j, by omega, by omega, h3, h4⟩

theorem port_scan_used (w : World) (a : Nat) :
    port_scan w a w.w5100_sockets.length 0 = true ↔ port_used w a := by
  rw [port_scan_iff]
  constructor
  · rintro ⟨j, -, h2, h3⟩
    exact ⟨j, by omega, h3⟩
  · rintro ⟨j, h2, h3⟩
    exact ⟨j, Nat.zero_le j, by omega, h3⟩

/-- Pigeonhole: the ports of a range that are all in use are no more than the
channels. -/
theorem used_ports_le (w : World) (a b : Nat)
    (h : ∀ u, a ≤ u → u ≤ b → port_used w u) : b + 1 - a ≤ w.w5100_sockets.length := by
  have h2 : ∀ u, ∃ j, a ≤ u → u ≤ b → (j < w.w5100_sockets.length
      ∧ w.regs W5100_Sn_PORT j % 65536 = u) := by
    intro u
    by_cases hu : a ≤ u ∧ u ≤ b
    · obtain ⟨j, h1, -, h3⟩ := h u hu.1 hu.2
      exact ⟨j, fun _ _ => ⟨h1, h3⟩⟩
    · exact ⟨0, fun h1 h2 => absurd ⟨h1, h2⟩ hu⟩
  choose f hf using h2
  have hcard : (Finset.Icc a b).card ≤ (Finset.range w.w5100_sockets.length).card := by
    apply Finset.card_le_card_of_injOn f
    · intro u hu
      have hu2 : a ≤ u ∧ u ≤ b := by simpa using hu
      simpa using (hf u hu2.1 hu2.2).1
    · intro u hu v hv he
      have hu2 : a ≤ u ∧ u ≤ b := by simpa using hu
      have hv2 : a ≤ v ∧ v ≤ b := by simpa using hv
      have h1 := (hf u hu2.1 hu2.2).2
      have h2 := (hf v hv2.1 hv2.2).2
      rw [← h1, ← h2, he]
  simpa using hcard

/-- The loop of `get_avail_port` from the candidate `a` on, when every port
above `a` up to `start` is in use. -/
theorem get_avail_port_loop_spec (w : World) (start : Nat)
    (hN : w.w5100_sockets.length ≤ start) (hs : start < 65536) :
    ∀ fuel a, a ≤ start → (∀ u, a < u → u ≤ start → port_used w u) →
      w.w5100_sockets.length + 1 ≤ start - a + fuel →
      ∃ v, get_avail_port_loop w fuel a = some v ∧ v ≤ a ∧ ¬ port_used w v ∧
        ∀ u, v < u → u ≤ start → port_used w u := by
  intro fuel
  induction fuel with
  | zero =>
    intro a ha hused hf
    have := used_ports_le w (a + 1) start (fun u h1 h2 => hused u (by omega) h2)
    omega
  | succ fuel ih =>
    intro a ha hused hf
    unfold get_avail_port_loop
    by_cases hu : port_used w a
    · rw [if_pos ((port_scan_used w a).2 hu)]
      have hall : ∀ u, a ≤ u → u ≤ start → port_used w u := by
        intro u h1 h2
        rcases Nat.eq_or_lt_of_le h1 with e | l
        · rw [← e]; exact hu
        · exact hused u l h2
      have hcnt := used_ports_le w a start hall
      have hpos : 0 < a := by omega
      have hdec : (a + 65535) % 65536 = a - 1 := by omega
      rw [hdec]
      obtain ⟨v, h1, h2, h3, h4⟩ := ih (a - 1) (by omega)
        (fun u h1 h2 => hall u (by omega) h2) (by omega)
      exact ⟨v, h1, by omega, h3, h4⟩
    · have hf : ¬ port_scan w a w.w5100_sockets.length 0 = true :=
        fun h => hu ((port_scan_used w a).1 h)
      rw [if_neg hf]
      exact ⟨a, rfl, le_refl a, hu, hused⟩

/-! ## The two parts of a ring transfer -/

theorem slice_getD (buf : List Nat) (off n k : Nat) (hk : k < n) :
    (slice buf off n).getD k 0 = buf.getD (off + k) 0 := by
  unfold slice
  rw [List.getD_eq_getElem?_getD, List.getElem?_map, List.getElem?_range hk]
  rfl

theorem rx_base_eq (i : Nat) (hwin : W5100_RX_MEM_BASE + get_rx_size i * (i + 1) ≤ 65536) :
    get_rx_base i = W5100_RX_MEM_BASE + 2048 * i := by
  unfold get_rx_base get_rx_size
  apply Nat.mod_eq_of_lt
  simp only [get_rx_size] at hwin
  omega

theorem tx_base_eq (i : Nat) (hwin : W5100_TX_MEM_BASE + get_tx_size i * (i + 1) ≤ 65536) :
    get_tx_base i = W5100_TX_MEM_BASE + 2048 * i := by
  unfold get_tx_base get_tx_size
  apply Nat.mod_eq_of_lt
  simp only [get_tx_size] at hwin
  omega

/-- The transfers `read_buf_sure` puts on the bus for a request that fits the
window: the tail of the window from the offset on, then the wrapped rest from
the window start. -/
theorem read_buf_sure_split (i len p : Nat) (w : World) (hlen : len ≤ 2048)
    (hwin : W5100_RX_MEM_BASE + get_rx_size i * (i + 1) ≤ 65536) :
    (read_buf_sure i len p w).2.bus = w.bus
      ++ (if 0 < min len (2048 - p % 2048) then
            [BusOp.rmem (get_rx_base i + p % 2048) (min len (2048 - p % 2048))] else [])
      ++ (if 0 < len - (2048 - p % 2048) then
            [BusOp.rmem (get_rx_base i) (len - (2048 - p % 2048))] else []) := by
  have hb := rx_base_eq i hwin
  have hb2 : get_rx_base i + 2048 ≤ 65536 := by
    rw [hb]; simp only [get_rx_size] at hwin; omega
  unfold read_buf_sure
  simp only [rx_offset, get_rx_size]
  have ho : p % 2048 < 2048 := Nat.mod_lt _ (by decide)
  have hphys : (get_rx_base i + p % 2048) % 65536 = get_rx_base i + p % 2048 :=
    Nat.mod_eq_of_lt (by omega)
  rw [hphys]
  by_cases hs : p % 2048 + len > 2048
  · have h1 : (2048 - p % 2048) % 65536 = 2048 - p % 2048 := Nat.mod_eq_of_lt (by omega)
    have h2 : (len - (2048 - p % 2048)) % 65536 = len - (2048 - p % 2048) :=
      Nat.mod_eq_of_lt (by omega)
    have h3 : 2048 - p % 2048 > 0 := by omega
    have h4 : len - (2048 - p % 2048) > 0 := by omega
    have hm : min len (2048 - p % 2048) = 2048 - p % 2048 := by omega
    simp only [hs, if_true, h1, h2, h3, h4, hm, w5100_read_mem, List.append_assoc]
  · have hl : len % 65536 = len := Nat.mod_eq_of_lt (by omega)
    have hm : min len (2048 - p % 2048) = len := by omega
    have h4 : len - (2048 - p % 2048) = 0 := by omega
    simp only [hs, if_false, hl, hm, h4, Nat.lt_irrefl, List.append_nil]
    by_cases hl0 : len > 0
    · simp only [hl0, if_true, w5100_read_mem]
    · have : len = 0 := by omega
      subst this
      simp

/-- The transfers `write_buf_sure` puts on the bus for a request that fits the
window, and the pointer it leaves. -/
theorem write_buf_sure_split (i : Nat) (buf : List Nat) (len p : Nat) (w : World)
    (hlen : len ≤ 2048) (hwin : W5100_TX_MEM_BASE + get_tx_size i * (i + 1) ≤ 65536) :
    (write_buf_sure i buf len p w).2.bus = w.bus
      ++ (if 0 < min len (2048 - p % 2048) then
            [BusOp.wmem (get_tx_base i + p % 2048) (slice buf 0 (min len (2048 - p % 2048)))]
          else [])
      ++ (if 0 < len - (2048 - p % 2048) then
            [BusOp.wmem (get_tx_base i)
              (slice buf (min len (2048 - p % 2048)) (len - (2048 - p % 2048)))]
          else []) := by
  have hb := tx_base_eq i hwin
  have hb2 : get_tx_base i + 2048 ≤ 65536 := by
    rw [hb]; simp only [get_tx_size] at hwin; omega
  unfold write_buf_sure
  simp only [tx_offset, get_tx_size]
  have ho : p % 2048 < 2048 := Nat.mod_lt _ (by decide)
  have hphys : (p % 2048 + get_tx_base i) % 65536 = get_tx_base i + p % 2048 := by
    rw [Nat.add_comm]; exact Nat.mod_eq_of_lt (by omega)
  rw [hphys]
  by_cases hs : len + p % 2048 > 2048
  · have h1 : (2048 - p % 2048) % 65536 = 2048 - p % 2048 := Nat.mod_eq_of_lt (by omega)
    have h2 : (len - (2048 - p % 2048)) % 65536 = len - (2048 - p % 2048) :=
      Nat.mod_eq_of_lt (by omega)
    have h3 : 2048 - p % 2048 > 0 := by omega
    have h4 : len - (2048 - p % 2048) > 0 := by omega
    have hm : min len (2048 - p % 2048) = 2048 - p % 2048 := by omega
    simp only [hs, if_true, h1, h2, h3, h4, hm, w5100_write_mem, List.append_assoc]
  · have hl : len % 65536 = len := Nat.mod_eq_of_lt (by omega)
    have hm : min len (2048 - p % 2048) = len := by omega
    have h4 : len - (2048 - p % 2048) = 0 := by omega
    simp only [hs, if_false, hl, hm, h4, Nat.lt_irrefl, List.append_nil]
    by_cases hl0 : len > 0
    · simp only [hl0, if_true, w5100_write_mem]
    · have : len = 0 := by omega
      subst this
      simp

/-- The buffer memory `write_buf_sure` leaves for a request that fits the
window: byte `n` of the source is at window offset `(p + n) mod 2048`, and
every other address keeps its content. -/
theorem write_buf_sure_mem (i : Nat) (buf : List Nat) (len p : Nat) (w : World)
    (hlen : len ≤ 2048) (hwin : W5100_TX_MEM_BASE + get_tx_size i * (i + 1) ≤ 65536) :
    (∀ n, n < len →
      (write_buf_sure i buf len p w).2.mem (get_tx_base i + (p + n) % 2048) = buf.getD n 0) ∧
    (∀ a, (∀ n, n < len → a ≠ get_tx_base i + (p + n) % 2048) →
      (write_buf_sure i buf len p w).2.mem a = w.mem a) := by
  have hb := tx_base_eq i hwin
  have hb2 : get_tx_base i + 2048 ≤ 65536 := by
    rw [hb]; simp only [get_tx_size] at hwin; omega
  unfold write_buf_sure
  simp only [tx_offset, get_tx_size]
  have ho : p % 2048 < 2048 := Nat.mod_lt _ (by decide)
  have hphys : (p % 2048 + get_tx_base i) % 65536 = get_tx_base i + p % 2048 := by
    rw [Nat.add_comm]; exact Nat.mod_eq_of_lt (by omega)
  rw [hphys]
  generalize get_tx_base i = base at *
  by_cases hs : len + p % 2048 > 2048
  · have h1 : (2048 - p % 2048) % 65536 = 2048 - p % 2048 := Nat.mod_eq_of_lt (by omega)
    have h2 : (len - (2048 - p % 2048)) % 65536 = len - (2048 - p % 2048) :=
      Nat.mod_eq_of_lt (by omega)
    have h3 : 2048 - p % 2048 > 0 := by omega
    have h4 : len - (2048 - p % 2048) > 0 := by omega
    simp only [hs, if_true, h1, h2, h3, h4, w5100_write_mem, slice_length]
    constructor
    · intro n hn
      by_cases hn1 : n < 2048 - p % 2048
      · have e : (p + n) % 2048 = p % 2048 + n := by omega
        have c2 : ¬ (base ≤ base + (p % 2048 + n)
            ∧ base + (p % 2048 + n) < base + (len - (2048 - p % 2048))) := by omega
        have c1 : base + p % 2048 ≤ base + (p % 2048 + n)
            ∧ base + (p % 2048 + n) < base + p % 2048 + (2048 - p % 2048) := by omega
        rw [e, if_neg c2, if_pos c1]
        have e2 : base + (p % 2048 + n) - (base + p % 2048) = n := by omega
        rw [e2, slice_getD _ _ _ _ hn1, Nat.zero_add]
      · have e : (p + n) % 2048 = n - (2048 - p % 2048) := by omega
        have c2 : base ≤ base + (n - (2048 - p % 2048))
            ∧ base + (n - (2048 - p % 2048)) < base + (len - (2048 - p % 2048)) := by omega
        rw [e, if_pos c2]
        have e2 : base + (n - (2048 - p % 2048)) - base = n - (2048 - p % 2048) := by omega
        rw [e2, slice_getD _ _ _ _ (by omega)]
        congr 1
        omega
    · intro a ha
      have c2 : ¬ (base ≤ a ∧ a < base + (len - (2048 - p % 2048))) := by
        intro hc
        apply ha (a - base + (2048 - p % 2048)) (by omega)
        omega
      have c1 : ¬ (base + p % 2048 ≤ a ∧ a < base + p % 2048 + (2048 - p % 2048)) := by
        intro hc
        apply ha (a - (base + p % 2048)) (by omega)
        omega
      rw [if_neg c2, if_neg c1]
  · have hl : len % 65536 = len := Nat.mod_eq_of_lt (by omega)
    simp only [hs, if_false, hl, Nat.lt_irrefl]
    by_cases hl0 : len > 0
    · simp only [hl0, if_true, w5100_write_mem, slice_length]
      constructor
      · intro n hn
        have e : (p + n) % 2048 = p % 2048 + n := by omega
        have c1 : base + p % 2048 ≤ base + (p % 2048 + n)
            ∧ base + (p % 2048 + n) < base + p % 2048 + len := by omega
        rw [e, if_pos c1]
        have e2 : base + (p % 2048 + n) - (base + p % 2048) = n := by omega
        rw [e2, slice_getD _ _ _ _ hn, Nat.zero_add]
      · intro a ha
        have c1 : ¬ (base + p % 2048 ≤ a ∧ a < base + p % 2048 + len) := by
          intro hc
          apply ha (a - (base + p % 2048)) (by omega)
          omega
        rw [if_neg c1]
    · have : len = 0 := by omega
      subst this
      simp

/-! ## Transfers through `read_buf` and `write_buf` -/

theorem ntohs_htons (x : Nat) (h : x < 65536) : ntohs (htons x) = x := by
  unfold ntohs htons
  have h1 : (x % 256 * 256 + x / 256 % 256) % 256 = x / 256 := by omega
  have h2 : (x % 256 * 256 + x / 256 % 256) / 256 = x % 256 := by omega
  rw [h1, h2]
  omega

/-- What `write_buf_sure` adds to the bus log: memory writes only. -/
theorem write_buf_sure_bus (i : Nat) (buf : List Nat) (len p : Nat) (w : World) :
    ∃ writes, (∀ op ∈ writes, ∃ a d, op = BusOp.wmem a d) ∧
      (write_buf_sure i buf len p w).2.bus = w.bus ++ writes := by
  unfold write_buf_sure
  simp only [w5100_write_mem]
  generalize (if len + (p &&& get_tx_mask i) > get_tx_size i then
    (get_tx_size i - (p &&& get_tx_mask i)) % 65536 else len % 65536) = t1
  generalize (if len + (p &&& get_tx_mask i) > get_tx_size i then (len - t1) % 65536 else 0)
    = t2
  by_cases h1 : t1 > 0 <;> by_cases h2 : t2 > 0
  · exact ⟨[BusOp.wmem (((p &&& get_tx_mask i) + get_tx_base i) % 65536) (slice buf 0 t1),
      BusOp.wmem (get_tx_base i) (slice buf t1 t2)], by simp, by simp [h1, h2]⟩
  · exact ⟨[BusOp.wmem (((p &&& get_tx_mask i) + get_tx_base i) % 65536) (slice buf 0 t1)],
      by simp, by simp [h1, h2]⟩
  · exact ⟨[BusOp.wmem (get_tx_base i) (slice buf t1 t2)], by simp, by simp [h1, h2]⟩
  · exact ⟨[], by simp, by simp [h1, h2]⟩

/-- `read_buf` when the received size register reads zero: nothing is read. -/
theorem read_buf_empty {i : Nat} {w : World} {v : Nat} {rest : List Nat} (n : Nat)
    (hf : w.feed W5100_Sn_RX_RSR i = v :: rest) (hv : ntohs (v % 65536) = 0) :
    read_buf i n w = .ok ((0, []), set_feed w W5100_Sn_RX_RSR i rest) := by
  have h1 := read_sock_regx_cons (r := W5100_Sn_RX_RSR) rfl hf
  simp [read_buf, read_buf_len, h1, Bind.bind, Except.bind, pure, Except.pure, hv]

/-- `read_buf` when the received size register reads `A > 0` and the chip
acknowledges the RECV command. -/
theorem read_buf_some {i : Nat} {w : World} {v : Nat} {rest : List Nat} (n : Nat)
    (hf : w.feed W5100_Sn_RX_RSR i = v :: rest) (hv : 0 < ntohs (v % 65536))
    (hack : awaits [cmd_done] (w.feed W5100_Sn_CR i) = true) :
    ∃ bytes w1 reads, read_buf i n w = .ok ((min n (ntohs (v % 65536)), bytes), w1) ∧
      bytes.length = min n (ntohs (v % 65536)) ∧
      (∀ op ∈ reads, ∃ a k, op = BusOp.rmem a k) ∧
      w1.bus = w.bus ++ reads ++
        [BusOp.wreg W5100_Sn_RX_RD i
          (htons ((ntohs (w.regs W5100_Sn_RX_RD i % 65536) + min n (ntohs (v % 65536)))
            % 65536)),
         BusOp.wreg W5100_Sn_CR i W5100_CMD_RECV] ∧
      w1.regs W5100_Sn_RX_RD i
        = htons ((ntohs (w.regs W5100_Sn_RX_RD i % 65536) + min n (ntohs (v % 65536)))
            % 65536) ∧
      w1.mem = w.mem ∧ w1.w5100_sockets = w.w5100_sockets ∧ w1.files = w.files ∧
      w1.errno = w.errno := by
  have h1 := read_sock_regx_cons (r := W5100_Sn_RX_RSR) rfl hf
  have hlt := ntohs_lt (v % 65536)
  have hm : (if n > ntohs (v % 65536) then ntohs (v % 65536) else n)
      = min n (ntohs (v % 65536)) := by
    by_cases h : n > ntohs (v % 65536)
    · simp [h]; omega
    · simp [h]; omega
  have hm16 : min n (ntohs (v % 65536)) < 65536 := by omega
  obtain ⟨c, r1, hack1, -⟩ := awaits_cons hack
  generalize hA : min n (ntohs (v % 65536)) = A at *
  generalize hP : ntohs (w.regs W5100_Sn_RX_RD i % 65536) = P
  obtain ⟨hlen, hptr⟩ := read_buf_sure_length i A P (set_feed w W5100_Sn_RX_RSR i rest) hm16
  obtain ⟨reads, hreads, hw⟩ := read_buf_sure_world i A P (set_feed w W5100_Sn_RX_RSR i rest)
  generalize hR : read_buf_sure i A P (set_feed w W5100_Sn_RX_RSR i rest) = R at *
  obtain ⟨⟨bytes, p2⟩, W⟩ := R
  simp only at hlen hptr hw
  obtain ⟨w1, hc, hcr, hoth, hcs, hcf, hce, hcb⟩ :=
    command_step (w := w5100_write_sock_reg W5100_Sn_RX_RD i (htons p2) W)
      (i := i) W5100_CMD_RECV (by rw [write_reg_feed, hw]; simpa using hack1)
  obtain ⟨rr, hrr⟩ := w5100_command_ok hc
  refine ⟨bytes, w1, reads, ?_, hlen, hreads, ?_, ?_, ?_, ?_, ?_, ?_⟩
  · have hv2 : ntohs (v % 65536) ≠ 0 := by omega
    simp only [read_buf, read_buf_len, h1, Bind.bind, Except.bind, pure, Except.pure, ne_eq,
      hv2, not_false_eq_true, if_true, read_buf_pstart, set_feed_regs,
      read_sock_regx_stored _ _ (rfl : W5100_Sn_RX_RD.volatile = false), read_buf_recv]
    simp only [gt_iff_lt] at hm
    rw [hm, hP, hR]
    simp only [hc, Nat.mod_eq_of_lt hm16]
  · rw [hcb, write_reg_bus, hw, hptr]
    simp
  · rw [hrr, hptr]
    simp [w5100_write_sock_reg]
  · rw [hrr, hw]; simp [w5100_write_sock_reg]
  · rw [hcs, write_reg_sockets, hw]; simp
  · rw [hcf, write_reg_files, hw]; simp
  · rw [hce, write_reg_errno, hw]; simp

/-- `write_buf` when the free size register reads `A > 0` and the chip
acknowledges the SEND command: the shape of the bus log and the pointer. -/
theorem write_buf_some {i : Nat} {w : World} {v : Nat} {rest : List Nat} (buf : List Nat)
    (n : Nat) (hf : w.feed W5100_Sn_TX_FSR i = v :: rest) (hv : 0 < ntohs (v % 65536))
    (hack : awaits [cmd_done] (w.feed W5100_Sn_CR i) = true) :
    ∃ w1 writes, write_buf i buf n w = .ok (min n (ntohs (v % 65536)), w1) ∧
      tx_bytes writes = min n (ntohs (v % 65536)) ∧
      (∀ op ∈ writes, ∃ a d, op = BusOp.wmem a d) ∧
      w1.bus = w.bus ++ writes ++
        [BusOp.wreg W5100_Sn_TX_WR i
          (htons ((ntohs (w.regs W5100_Sn_TX_WR i % 65536) + min n (ntohs (v % 65536)))
            % 65536)),
         BusOp.wreg W5100_Sn_CR i W5100_CMD_SEND] ∧
      w1.regs W5100_Sn_TX_WR i
        = htons ((ntohs (w.regs W5100_Sn_TX_WR i % 65536) + min n (ntohs (v % 65536)))
            % 65536) ∧
      w1.w5100_sockets = w.w5100_sockets ∧ w1.files = w.files ∧ w1.errno = w.errno := by
  have h1 := read_sock_regx_cons (r := W5100_Sn_TX_FSR) rfl hf
  have hlt := ntohs_lt (v % 65536)
  have hm : (if n > ntohs (v % 65536) then ntohs (v % 65536) else n)
      = min n (ntohs (v % 65536)) := by
    by_cases h : n > ntohs (v % 65536)
    · simp [h]; omega
    · simp [h]; omega
  have hm16 : min n (ntohs (v % 65536)) < 65536 := by omega
  obtain ⟨c, r1, hack1, -⟩ := awaits_cons hack
  generalize hA : min n (ntohs (v % 65536)) = A at *
  generalize hP : ntohs (w.regs W5100_Sn_TX_WR i % 65536) = P
  obtain ⟨hp, hb, hs, hfi, hfe, hcl, hrg, her⟩ :=
    write_buf_sure_world i buf A P (set_feed w W5100_Sn_TX_FSR i rest) hm16
  obtain ⟨writes, hwrites, hbus⟩ :=
    write_buf_sure_bus i buf A P (set_feed w W5100_Sn_TX_FSR i rest)
  generalize hR : write_buf_sure i buf A P (set_feed w W5100_Sn_TX_FSR i rest) = R at *
  obtain ⟨p2, W⟩ := R
  simp only at hp hb hs hfi hfe hcl hrg her hbus
  obtain ⟨w1, hc, hcr, hoth, hcs, hcf, hce, hcb⟩ :=
    command_step (w := w5100_write_sock_reg W5100_Sn_TX_WR i (htons p2) W)
      (i := i) W5100_CMD_SEND (by rw [write_reg_feed, hfe]; simpa using hack1)
  obtain ⟨rr, hrr⟩ := w5100_command_ok hc
  refine ⟨w1, writes, ?_, ?_, hwrites, ?_, ?_, ?_, ?_, ?_⟩
  · simp only [write_buf, write_buf_len, h1, Bind.bind, Except.bind, pure, Except.pure, hv,
      gt_iff_lt, if_true, write_buf_pstart, set_feed_regs,
      read_sock_regx_stored _ _ (rfl : W5100_Sn_TX_WR.volatile = false), write_buf_send]
    simp only [gt_iff_lt] at hm
    rw [hm, hP, hR]
    simp only [hc, Nat.mod_eq_of_lt hm16]
  · have := hb
    rw [hbus, tx_bytes_append] at this
    simp only [set_feed_bus] at this
    omega
  · rw [hcb, write_reg_bus, hbus, hp]
    simp
  · rw [hrr, hp]
    simp [w5100_write_sock_reg]
  · rw [hcs, write_reg_sockets, hs]; simp
  · rw [hcf, write_reg_files, hfi]; simp
  · rw [hce, write_reg_errno, her]; simp

/-! ## Datagram send -/

/-- What a call of `bind_udp` that returns has done. -/
theorem bind_udp_ok {si port : Nat} {w w1 : World} (h : bind_udp si port w = .ok w1) :
    ∃ u, u.w5100_sockets = w.w5100_sockets ∧ u.files = w.files ∧ u.errno = w.errno ∧
      u.mem = w.mem ∧ u.clock = w.clock ∧
      (∀ r j, r ≠ W5100_Sn_CR → r ≠ W5100_Sn_SR → u.feed r j = w.feed r j) ∧
      (∀ r j, r ≠ W5100_Sn_CR → r ≠ W5100_Sn_PORT → u.regs r j = w.regs r j) ∧
      u.bus = w.bus ++ [BusOp.wreg W5100_Sn_PORT (sock w si).isocket port,
        BusOp.wreg W5100_Sn_CR (sock w si).isocket W5100_CMD_OPEN] ∧
      w1 = upd_sock u si (fun s =>
        { s with sockname := { sin_family := AF_INET, sin_addr := INADDR_ANY, sin_port := port },
                 state := W5100_SOCK_STATE_BOUND }) := by
  unfold bind_udp at h
  cases hc : w5100_command (sock w si).isocket W5100_CMD_OPEN
      (w5100_write_sock_reg W5100_Sn_PORT (sock w si).isocket port w) with
  | error e => simp [hc, Bind.bind, Except.bind] at h
  | ok wa =>
    cases hw : wait_reg W5100_Sn_SR (sock w si).isocket (fun sr => sr == W5100_SOCK_UDP) wa with
    | error e => simp [hc, hw, Bind.bind, Except.bind] at h
    | ok p =>
      obtain ⟨v, wb⟩ := p
      simp only [hc, hw, Bind.bind, Except.bind, pure, Except.pure, Except.ok.injEq] at h
      obtain ⟨r1, h1⟩ := w5100_command_ok hc
      obtain ⟨r2, -, h2⟩ := wait_reg_ok hw
      refine ⟨wb, ?_, ?_, ?_, ?_, ?_, ?_, ?_, ?_, h.symm⟩
      · rw [h2, h1]; simp
      · rw [h2, h1]; simp
      · rw [h2, h1]; simp
      · rw [h2, h1]; simp [w5100_write_sock_reg, set_feed]
      · rw [h2, h1]; simp [w5100_write_sock_reg, set_feed]
      · intro r j hr1 hr2
        rw [h2, h1]; simp [set_feed, w5100_write_sock_reg, hr1, hr2]
      · intro r j hr1 hr2
        rw [h2, h1]; simp [set_feed, w5100_write_sock_reg, hr1, hr2]
      · rw [h2, h1]; simp [set_feed, w5100_write_sock_reg]

/-- A call of `bind_udp` returns when the chip acknowledges the OPEN command
and its status reaches UDP. -/
theorem bind_udp_acks {si : Nat} (port : Nat) {w : World}
    (hcr : awaits [cmd_done] (w.feed W5100_Sn_CR (sock w si).isocket) = true)
    (hsr : awaits [sr_udp] (w.feed W5100_Sn_SR (sock w si).isocket) = true) :
    ∃ w1, bind_udp si port w = .ok w1 := by
  obtain ⟨v1, r1, ha1, -⟩ := awaits_cons hcr
  obtain ⟨s1, q1, hb1, -⟩ := awaits_cons hsr
  obtain ⟨W1, hc1, hf1, hg1, -⟩ :=
    command_step (w := w5100_write_sock_reg W5100_Sn_PORT (sock w si).isocket port w)
      (i := (sock w si).isocket) W5100_CMD_OPEN (by rw [write_reg_feed]; exact ha1)
  obtain ⟨W2, hc2, -⟩ :=
    wait_step (w := W1) (i := (sock w si).isocket) (p := sr_udp)
      (by rw [hg1 _ _ (by decide), write_reg_feed]; exact hb1)
  have hsame : (fun sr => sr == W5100_SOCK_UDP) = sr_udp := rfl
  exact ⟨upd_sock W2 si (fun s =>
      { s with sockname := { sin_family := AF_INET, sin_addr := INADDR_ANY, sin_port := port },
               state := W5100_SOCK_STATE_BOUND }),
    by simp only [bind_udp, hc1, hsame, hc2, Bind.bind, Except.bind, pure, Except.pure]⟩

/-- What a call of `check_bind_udp` that returns has done: nothing on a
channel that is not in CREATED state, the automatic bind on one that is. -/
theorem check_bind_udp_ok {si : Nat} {w w1 : World} (h : check_bind_udp si w = .ok w1) :
    ((sock w si).state ≠ W5100_SOCK_STATE_CREATED ∧ w1 = w) ∨
    ((sock w si).state = W5100_SOCK_STATE_CREATED ∧
      ∃ u port, u.w5100_sockets = w.w5100_sockets ∧ u.files = w.files ∧ u.errno = w.errno ∧
        u.mem = w.mem ∧ u.clock = w.clock ∧
        (∀ r j, r ≠ W5100_Sn_CR → r ≠ W5100_Sn_SR → u.feed r j = w.feed r j) ∧
        (∀ r j, r ≠ W5100_Sn_CR → r ≠ W5100_Sn_PORT → u.regs r j = w.regs r j) ∧
        u.bus = w.bus ++ [BusOp.wreg W5100_Sn_PORT (sock w si).isocket port,
          BusOp.wreg W5100_Sn_CR (sock w si).isocket W5100_CMD_OPEN] ∧
        w1 = upd_sock u si (fun s =>
          { s with sockname := { sin_family := AF_INET, sin_addr := INADDR_ANY,
                                 sin_port := port },
                   state := W5100_SOCK_STATE_BOUND })) := by
  unfold check_bind_udp at h
  by_cases hst : (sock w si).state = W5100_SOCK_STATE_CREATED
  · rw [if_pos hst] at h
    cases hp : get_avail_port w with
    | none => simp [hp] at h
    | some port =>
      simp only [hp] at h
      obtain ⟨u, hu⟩ := bind_udp_ok h
      exact Or.inr ⟨hst, u, port, hu⟩
  · rw [if_neg hst] at h
    simp only [Except.ok.injEq] at h
    exact Or.inl ⟨hst, h.symm⟩
theorem sock_in_range_of_type {w : World} {si : Nat} (h : (sock w si).type ≠ 0) :
    si < w.w5100_sockets.length := by
  by_contra hk
  have : sock w si = default := by
    simp [sock, List.getD_eq_getElem?_getD, List.getElem?_eq_none (Nat.le_of_not_lt hk)]
  rw [this] at h
  exact h rfl

/-- `sendto` on a datagram socket, after the automatic bind (if any) has
returned: a broadcast destination without the permission is rejected. -/
theorem sendto_broadcast_denied {fd : Int} {w u : World} {si : Nat} (buf : List Nat)
    {len : Nat} {peer : sockaddr_in}
    (hg : (get_socket_from_fd fd w).1 = some si) (hty : (sock w si).type = SOCK_DGRAM)
    (hcb : check_bind_udp si w = .ok u)
    (hlen : len ≤ get_tx_size (sock u si).isocket)
    (hpeer : peer.sin_addr = INADDR_BROADCAST)
    (hperm : (sock u si).can_broadcast = false) :
    sendto fd buf len (some peer) w = .ok (-1, set_errno EINVAL u) := by
  have hns : ¬ (SOCK_DGRAM = SOCK_STREAM) := by decide
  have hl : ¬ (len > get_tx_size (sock u si).isocket) := by omega
  simp only [sendto, sendto_body, get_socket_from_fd_some hg, hty, hns, if_false, if_true, hcb,
    Bind.bind, Except.bind, hl, hpeer, hperm, Bool.not_false, and_self, pure, Except.pure]

/-- `sendto` on a datagram socket, after the automatic bind (if any) has
returned, when the destination is allowed and both readings of the free size
are at least `len`: the destination registers are written, `len` bytes go to
the TX ring and the call returns `len`. -/
theorem sendto_dgram_room {fd : Int} {w u : World} {si k : Nat} (buf : List Nat)
    {len : Nat} {q : sockaddr_in} {a b : Nat} {rest : List Nat}
    (hg : (get_socket_from_fd fd w).1 = some si) (hty : (sock w si).type = SOCK_DGRAM)
    (hcb : check_bind_udp si w = .ok u)
    (hlen : len ≤ get_tx_size (sock u si).isocket)
    (hperm : q.sin_addr = INADDR_BROADCAST → (sock u si).can_broadcast = true)
    (hk : (sock u si).fd_data = some k)
    (hclock : (file u k).status_flags &&& O_NONBLOCK ≠ 0 ∨ (sock u si).send_timeout = 0
      ∨ u.clock ≠ [])
    (hfsr : u.feed W5100_Sn_TX_FSR (sock u si).isocket = a :: b :: rest)
    (ha : len ≤ ntohs (a % 65536)) (hb : len ≤ ntohs (b % 65536))
    (hack : 0 < ntohs (b % 65536) →
      awaits [cmd_done] (u.feed W5100_Sn_CR (sock u si).isocket) = true) :
    ∃ w3 tail, sendto fd buf len (some q) w = .ok ((len : Int), w3) ∧
      w3.bus = u.bus ++ [BusOp.wreg W5100_Sn_DIPR (sock u si).isocket q.sin_addr,
        BusOp.wreg W5100_Sn_DPORT (sock u si).isocket q.sin_port] ++ tail ∧
      tx_bytes tail = len := by
  have hns : ¬ (SOCK_DGRAM = SOCK_STREAM) := by decide
  have hl : ¬ (len > get_tx_size (sock u si).isocket) := by omega
  have hbc : ¬ (q.sin_addr = INADDR_BROADCAST ∧ (!(sock u si).can_broadcast) = true) := by
    rintro ⟨h1, h2⟩
    rw [hperm h1] at h2
    exact absurd h2 (by decide)
  generalize hi : (sock u si).isocket = i at *
  -- the state when the loop is entered
  have hpre : ∃ nb tom fuel v,
      sendto fd buf len (some q) w = sendto_loop i buf len q nb tom (fuel + 1) v ∧
      v.feed = u.feed ∧ v.bus = u.bus := by
    simp only [sendto, sendto_body, get_socket_from_fd_some hg, hty, hns, if_false, if_true,
      hcb, Bind.bind, Except.bind, hl, hbc, hk, nonblock_of, hi]
    by_cases hnb : ((file u k).status_flags &&& O_NONBLOCK != 0) = true
    · simp only [hnb, Bool.not_true, Bool.false_eq_true, if_false, pure, Except.pure]
      exact ⟨_, _, _, _, rfl, rfl, rfl⟩
    · have hnb' : ((file u k).status_flags &&& O_NONBLOCK != 0) = false := by simpa using hnb
      simp only [hnb', Bool.not_false, if_true]
      by_cases ht : (sock u si).send_timeout = 0
      · simp only [timeout_init, ht, timespec_diff]
        exact ⟨_, _, _, _, rfl, rfl, rfl⟩
      · have hcl : u.clock ≠ [] := by
          rcases hclock with h | h | h
          · exact absurd (by simpa using h) hnb
          · exact absurd h ht
          · exact h
        obtain ⟨t, ct, hct⟩ := List.exists_cons_of_ne_nil hcl
        have htd : timespec_diff 0 (sock u si).send_timeout ≠ 0 := by
          unfold timespec_diff; omega
        simp only [timeout_init, htd, ne_eq, not_false_eq_true, if_true, clock_gettime, hct,
          Bind.bind, Except.bind, pure, Except.pure]
        exact ⟨_, _, _, _, rfl, rfl, rfl⟩
  obtain ⟨nb, tom, fuel, v, hrun, hvf, hvb⟩ := hpre
  have h1 := read_sock_regx_cons (r := W5100_Sn_TX_FSR) (i := i) (w := v) rfl
    (by rw [hvf]; exact hfsr)
  generalize hV : w5100_write_sock_reg W5100_Sn_DPORT i q.sin_port
    (w5100_write_sock_reg W5100_Sn_DIPR i q.sin_addr
      (set_feed v W5100_Sn_TX_FSR i (b :: rest))) = V
  have hVf : V.feed W5100_Sn_TX_FSR i = b :: rest := by rw [← hV]; simp
  have hVc : V.feed W5100_Sn_CR i = u.feed W5100_Sn_CR i := by rw [← hV]; simp [hvf]
  have hVb : V.bus = u.bus ++ [BusOp.wreg W5100_Sn_DIPR i q.sin_addr,
      BusOp.wreg W5100_Sn_DPORT i q.sin_port] := by
    rw [← hV]; simp [hvb]
  have hstart : ∀ n w3, write_buf i buf len V = .ok (n, w3) →
      sendto_loop i buf len q nb tom (fuel + 1) v = .ok ((n : Int), w3) := by
    intro n w3 hw
    simp only [sendto_loop, write_buf_len, h1, Bind.bind, Except.bind, pure, Except.pure, ha,
      ge_iff_le, if_true, hV, hw]
  by_cases hb0 : ntohs (b % 65536) = 0
  · have hlen0 : len = 0 := by omega
    have := write_buf_full buf len hVf hb0
    refine ⟨set_feed V W5100_Sn_TX_FSR i rest, [], ?_, ?_, ?_⟩
    · rw [hrun, hstart _ _ this, hlen0]
    · simp [hVb]
    · simp [tx_bytes, hlen0]
  · have hbp : 0 < ntohs (b % 65536) := by omega
    obtain ⟨w3, writes, hw, htx, -, hbus, -⟩ :=
      write_buf_some buf len hVf hbp (by rw [hVc]; exact hack hbp)
    have hmin : min len (ntohs (b % 65536)) = len := by omega
    rw [hmin] at hw htx hbus
    refine ⟨w3, writes ++ [BusOp.wreg W5100_Sn_TX_WR i
      (htons ((ntohs (V.regs W5100_Sn_TX_WR i % 65536) + len) % 65536)),
      BusOp.wreg W5100_Sn_CR i W5100_CMD_SEND], ?_, ?_, ?_⟩
    · rw [hrun, hstart _ _ hw]
    · rw [hbus, hVb, List.append_assoc]
    · rw [tx_bytes_append, htx]; simp [tx_bytes]
theorem get_avail_port_some (w : World) (hN : w.w5100_sockets.length ≤ htons 0x7FF0) :
    ∃ v, get_avail_port w = some v := by
  obtain ⟨v, h1, -⟩ := get_avail_port_loop_spec w (htons 0x7FF0) hN (by decide)
    (w.w5100_sockets.length + 1) (htons 0x7FF0) (le_refl _)
    (fun u h1 h2 => absurd h2 (Nat.not_le_of_lt h1)) (by omega)
  exact ⟨v, h1⟩

/-- What a call of `check_bind_udp` that returns leaves alone, and the state
of the channel after it. -/
theorem check_bind_udp_frame {si : Nat} {w u : World} (h : check_bind_udp si w = .ok u) :
    u.files = w.files ∧ u.mem = w.mem ∧ u.errno = w.errno ∧ u.clock = w.clock ∧
    tx_bytes u.bus = tx_bytes w.bus ∧
    (∀ r j, r ≠ W5100_Sn_CR → r ≠ W5100_Sn_PORT → u.regs r j = w.regs r j) ∧
    (∀ r j, r ≠ W5100_Sn_CR → r ≠ W5100_Sn_SR → u.feed r j = w.feed r j) ∧
    u.w5100_sockets.length = w.w5100_sockets.length ∧
    (sock u si).state ≠ W5100_SOCK_STATE_CREATED ∧
    (sock u si).type = (sock w si).type ∧ (sock u si).isocket = (sock w si).isocket ∧
    (sock u si).can_broadcast = (sock w si).can_broadcast ∧
    (sock u si).fd_data = (sock w si).fd_data ∧
    (sock u si).send_timeout = (sock w si).send_timeout := by
  rcases check_bind_udp_ok h with ⟨hst, rfl⟩ | ⟨hst, v, port, hs, hf, he, hm, hc, hfe, hr, hb, rfl⟩
  · exact ⟨rfl, rfl, rfl, rfl, rfl, fun _ _ _ _ => rfl, fun _ _ _ _ => rfl, rfl, hst, rfl, rfl,
      rfl, rfl, rfl⟩
  · have hin : si < v.w5100_sockets.length := by
      rw [hs]; exact sock_in_range (by rw [hst]; decide)
    have hsv : sock v si = sock w si := sock_congr hs si
    refine ⟨by simpa using hf, by simpa using hm, by simpa using he, by simpa using hc, ?_,
      ?_, ?_, by simp [hs], ?_, ?_, ?_, ?_, ?_, ?_⟩
    · simp [hb, tx_bytes_append, tx_bytes]
    · intro r j h1 h2; simpa using hr r j h1 h2
    · intro r j h1 h2; simpa using hfe r j h1 h2
    · rw [sock_upd_sock]; simp [hin]
    · rw [sock_upd_sock]; simp [hin, hsv]
    · rw [sock_upd_sock]; simp [hin, hsv]
    · rw [sock_upd_sock]; simp [hin, hsv]
    · rw [sock_upd_sock]; simp [hin, hsv]
    · rw [sock_upd_sock]; simp [hin, hsv]

/-! ## The channel table under the calls of the interface -/

theorem table_ok_congr {w u : World} (h : u.w5100_sockets = w.w5100_sockets)
    (hw : table_ok w) : table_ok u := by
  intro i hi
  rw [sock_congr h]
  exact hw i (by rw [← h]; exact hi)

theorem chan_ok_same {s t : w5100_socket} (h1 : t.fd = s.fd) (h2 : t.state = s.state)
    (h3 : t.fd_data = s.fd_data) (h4 : t.connection_data = s.connection_data)
    (hs : chan_ok s) : chan_ok t := by
  unfold chan_ok at *
  rw [h1, h2, h3, h4]
  exact hs

theorem chan_ok_live {s t : w5100_socket} (h1 : t.fd = s.fd)
    (h2 : t.state ≠ W5100_SOCK_STATE_NONE) (h3 : s.state ≠ W5100_SOCK_STATE_NONE)
    (hs : chan_ok s) : chan_ok t := by
  unfold chan_ok at *
  have hfd : ¬ s.fd = W5100_SOCKET_FREE := fun h => h3 (hs.1.1 h)
  rw [h1]
  exact ⟨⟨fun h => absurd h hfd, fun h => absurd h h2⟩, fun h => absurd h hfd⟩

theorem chan_ok_freed (s : w5100_socket) :
    chan_ok { s with fd := W5100_SOCKET_FREE, fd_data := none, connection_data := none,
                     state := W5100_SOCK_STATE_NONE } := by
  unfold chan_ok
  simp

theorem table_ok_upd {w : World} {si : Nat} {f : w5100_socket → w5100_socket}
    (hw : table_ok w) (hf : chan_ok (sock w si) → chan_ok (f (sock w si))) :
    table_ok (upd_sock w si f) := by
  intro i hi
  have hi2 : i < w.w5100_sockets.length := by simpa using hi
  rw [sock_upd_sock]
  by_cases hc : i = si ∧ si < w.w5100_sockets.length
  · rw [if_pos hc]; exact hf (hw si hc.2)
  · rw [if_neg hc]; exact hw i hi2

theorem table_ok_socket_free {w : World} (i : Nat) (hw : table_ok w) :
    table_ok (socket_free i w) :=
  table_ok_upd hw (fun _ => chan_ok_freed _)

/-- An update that keeps the handle and leaves a live channel live. -/
theorem table_ok_upd_live {w : World} {si : Nat} {f : w5100_socket → w5100_socket}
    (hw : table_ok w) (hlive : (sock w si).state ≠ W5100_SOCK_STATE_NONE)
    (h1 : (f (sock w si)).fd = (sock w si).fd)
    (h2 : (f (sock w si)).state ≠ W5100_SOCK_STATE_NONE) :
    table_ok (upd_sock w si f) :=
  table_ok_upd hw (fun hs => chan_ok_live h1 h2 hlive hs)

theorem free_all_length (n : Nat) (w : World) :
    (free_all n w).w5100_sockets.length = w.w5100_sockets.length := by
  induction n with
  | zero => rfl
  | succ n ih => simp [free_all, socket_free, ih]

theorem free_all_ok (w : World) :
    ∀ n, n ≤ w.w5100_sockets.length → ∀ i, i < n → chan_ok (sock (free_all n w) i) := by
  intro n
  induction n with
  | zero => intro _ i hi; omega
  | succ n ih =>
    intro hn i hi
    simp only [free_all]
    rw [sock_socket_free]
    by_cases hc : i = n ∧ n < (free_all n w).w5100_sockets.length
    · rw [if_pos hc]; exact chan_ok_freed _
    · rw [if_neg hc]
      rw [free_all_length] at hc
      exact ih (by omega) i (by omega)

theorem table_ok_init (w : World) : table_ok (w5100_socket_init w) := by
  intro i hi
  unfold w5100_socket_init at *
  rw [free_all_length] at hi
  exact free_all_ok w _ (le_refl _) i hi

theorem read_raw_sockets {r : SockReg} {i : Nat} {w w1 : World} {v : Nat}
    (h : read_raw r i w = .ok (v, w1)) : w1.w5100_sockets = w.w5100_sockets := by
  unfold read_raw at h
  split at h
  · split at h
    · exact absurd h (by simp)
    · simp only [Except.ok.injEq, Prod.mk.injEq] at h
      rw [← h.2]; rfl
  · simp only [Except.ok.injEq, Prod.mk.injEq] at h
    rw [← h.2]

theorem read_sock_reg_sockets {r : SockReg} {i : Nat} {w w1 : World} {v : Nat}
    (h : w5100_read_sock_reg r i w = .ok (v, w1)) : w1.w5100_sockets = w.w5100_sockets := by
  unfold w5100_read_sock_reg at h
  cases hr : read_raw r i w with
  | error e => simp [hr] at h
  | ok p =>
    obtain ⟨a, u⟩ := p
    simp only [hr, Except.ok.injEq, Prod.mk.injEq] at h
    rw [← h.2]; exact read_raw_sockets hr

theorem read_sock_regx_sockets {r : SockReg} {i : Nat} {w w1 : World} {v : Nat}
    (h : w5100_read_sock_regx r i w = .ok (v, w1)) : w1.w5100_sockets = w.w5100_sockets := by
  unfold w5100_read_sock_regx at h
  cases hr : read_raw r i w with
  | error e => simp [hr] at h
  | ok p =>
    obtain ⟨a, u⟩ := p
    simp only [hr, Except.ok.injEq, Prod.mk.injEq] at h
    rw [← h.2]; exact read_raw_sockets hr

theorem read_sock_regx32_sockets {r : SockReg} {i : Nat} {w w1 : World} {v : Nat}
    (h : w5100_read_sock_regx32 r i w = .ok (v, w1)) : w1.w5100_sockets = w.w5100_sockets := by
  unfold w5100_read_sock_regx32 at h
  cases hr : read_raw r i w with
  | error e => simp [hr] at h
  | ok p =>
    obtain ⟨a, u⟩ := p
    simp only [hr, Except.ok.injEq, Prod.mk.injEq] at h
    rw [← h.2]; exact read_raw_sockets hr

theorem read_buf_len_sockets {i : Nat} {w w1 : World} {v : Nat}
    (h : read_buf_len i w = .ok (v, w1)) : w1.w5100_sockets = w.w5100_sockets := by
  unfold read_buf_len at h
  obtain ⟨⟨a, u⟩, h1, h2⟩ := bind_ok_iff.1 h
  simp only [pure, Except.pure, Except.ok.injEq, Prod.mk.injEq] at h2
  rw [← h2.2]; exact read_sock_regx_sockets h1

theorem write_buf_len_sockets {i : Nat} {w w1 : World} {v : Nat}
    (h : write_buf_len i w = .ok (v, w1)) : w1.w5100_sockets = w.w5100_sockets := by
  unfold write_buf_len at h
  obtain ⟨⟨a, u⟩, h1, h2⟩ := bind_ok_iff.1 h
  simp only [pure, Except.pure, Except.ok.injEq, Prod.mk.injEq] at h2
  rw [← h2.2]; exact read_sock_regx_sockets h1

theorem read_buf_sockets {i n : Nat} {w w1 : World} {r : Nat × List Nat}
    (h : read_buf i n w = .ok (r, w1)) : w1.w5100_sockets = w.w5100_sockets := by
  unfold read_buf at h
  obtain ⟨⟨toread, u⟩, h1, h2⟩ := bind_ok_iff.1 h
  have hu := read_buf_len_sockets h1
  simp only at h2
  split at h2
  · obtain ⟨⟨p, u2⟩, h3, h4⟩ := bind_ok_iff.1 h2
    unfold read_buf_pstart at h3
    obtain ⟨⟨p0, u3⟩, h5, h6⟩ := bind_ok_iff.1 h3
    simp only [pure, Except.pure, Except.ok.injEq, Prod.mk.injEq] at h6
    have hu3 := read_sock_regx_sockets h5
    simp only at h4
    obtain ⟨u4, h7, h8⟩ := bind_ok_iff.1 h4
    simp only [pure, Except.pure, Except.ok.injEq, Prod.mk.injEq] at h8
    unfold read_buf_recv at h7
    have hu4 := (w5100_command_tables h7).2
    obtain ⟨reads, -, hw⟩ := read_buf_sure_world i (if n > toread then toread else n) p u2
    rw [← h8.2, hu4, write_reg_sockets, hw, ← h6.2, hu3, hu]
  · simp only [pure, Except.pure, Except.ok.injEq, Prod.mk.injEq] at h2
    rw [← h2.2, hu]

theorem write_buf_sockets {i n : Nat} {buf : List Nat} {w w1 : World} {r : Nat}
    (h : write_buf i buf n w = .ok (r, w1)) : w1.w5100_sockets = w.w5100_sockets := by
  unfold write_buf at h
  obtain ⟨⟨nfree, u⟩, h1, h2⟩ := bind_ok_iff.1 h
  have hu := write_buf_len_sockets h1
  have hlt : nfree < 65536 := by
    unfold write_buf_len at h1
    obtain ⟨⟨a, u0⟩, h3, h4⟩ := bind_ok_iff.1 h1
    simp only [pure, Except.pure, Except.ok.injEq, Prod.mk.injEq] at h4
    rw [← h4.1]; exact ntohs_lt _
  simp only at h2
  split at h2
  · obtain ⟨⟨p, u2⟩, h3, h4⟩ := bind_ok_iff.1 h2
    unfold write_buf_pstart at h3
    obtain ⟨⟨p0, u3⟩, h5, h6⟩ := bind_ok_iff.1 h3
    simp only [pure, Except.pure, Except.ok.injEq, Prod.mk.injEq] at h6
    have hu3 := read_sock_regx_sockets h5
    simp only at h4
    obtain ⟨u4, h7, h8⟩ := bind_ok_iff.1 h4
    simp only [pure, Except.pure, Except.ok.injEq, Prod.mk.injEq] at h8
    unfold write_buf_send at h7
    have hu4 := (w5100_command_tables h7).2
    have hm : (if n > nfree then nfree else n) < 65536 := by split <;> omega
    have hw := (write_buf_sure_world i buf (if n > nfree then nfree else n) p u2 hm).2.2.1
    rw [← h8.2, hu4, write_reg_sockets, hw, ← h6.2, hu3, hu]
  · simp only [pure, Except.pure, Except.ok.injEq, Prod.mk.injEq] at h2
    rw [← h2.2, hu]

theorem timeout_init_sockets {t : Nat} {w w1 : World} {tom : timeout_manager}
    (h : timeout_init t w = .ok (tom, w1)) : w1.w5100_sockets = w.w5100_sockets := by
  unfold timeout_init at h
  split at h
  · unfold clock_gettime at h
    cases hc : w.clock with
    | nil => simp [hc, Bind.bind, Except.bind] at h
    | cons a l =>
      simp only [hc, Bind.bind, Except.bind, pure, Except.pure, Except.ok.injEq,
        Prod.mk.injEq] at h
      rw [← h.2]
  · simp only [Except.ok.injEq, Prod.mk.injEq] at h
    rw [← h.2]

theorem timeout_ended_sockets {tom : timeout_manager} {w w1 : World} {b : Bool}
    (h : timeout_ended tom w = .ok (b, w1)) : w1.w5100_sockets = w.w5100_sockets := by
  unfold timeout_ended at h
  split at h
  · unfold clock_gettime at h
    cases hc : w.clock with
    | nil => simp [hc, Bind.bind, Except.bind] at h
    | cons a l =>
      simp only [hc, Bind.bind, Except.bind, pure, Except.pure] at h
      split at h
      · simp only [Except.ok.injEq, Prod.mk.injEq] at h
        rw [← h.2]; rfl
      · simp only [Except.ok.injEq, Prod.mk.injEq] at h
        rw [← h.2]
  · simp only [Except.ok.injEq, Prod.mk.injEq] at h
    rw [← h.2]

theorem fill_fd_struct_sockets {fd : Int} {i : Nat} {w w1 : World} {k : Nat}
    (h : fill_fd_struct fd i w = .ok (k, w1)) : w1.w5100_sockets = w.w5100_sockets := by
  unfold fill_fd_struct at h
  split at h
  · exact absurd h (by simp)
  · simp only [Except.ok.injEq, Prod.mk.injEq] at h
    rw [← h.2]; rfl

theorem file_alloc_sockets (w : World) : (file_alloc w).2.w5100_sockets = w.w5100_sockets := by
  unfold file_alloc
  split <;> rfl

theorem get_socket_from_fd_sockets (fd : Int) (w : World) :
    (get_socket_from_fd fd w).2.w5100_sockets = w.w5100_sockets := by
  unfold get_socket_from_fd
  split
  · rfl
  · split
    · rfl
    · split <;> rfl
theorem manage_disconnect_table {si : Nat} {w w1 : World} {r : Int}
    (h : manage_disconnect si w = .ok (r, w1)) (hw : table_ok w)
    (hlive : (sock w si).state ≠ W5100_SOCK_STATE_NONE) : table_ok w1 := by
  unfold manage_disconnect at h
  obtain ⟨⟨sr, u⟩, h1, h2⟩ := bind_ok_iff.1 h
  have hu := read_sock_reg_sockets h1
  simp only at h2
  split at h2
  · obtain ⟨u1, h3, h4⟩ := bind_ok_iff.1 h2
    have hu1 : u1.w5100_sockets = w.w5100_sockets := by
      rw [(w5100_command_tables h3).2]
      split <;> simp [hu]
    obtain ⟨⟨sr2, u2⟩, h5, h6⟩ := bind_ok_iff.1 h4
    have hu2 : u2.w5100_sockets = w.w5100_sockets := by rw [(wait_reg_tables h5).2, hu1]
    simp only at h6
    split at h6
    · obtain ⟨u3, h7, h8⟩ := bind_ok_iff.1 h6
      obtain ⟨u4, h9, h10⟩ := bind_ok_iff.1 h8
      obtain ⟨⟨sr3, u5⟩, h11, h12⟩ := bind_ok_iff.1 h10
      have hu5 : u5.w5100_sockets = w.w5100_sockets := by
        rw [(wait_reg_tables h11).2, (w5100_command_tables h9).2, (w5100_command_tables h7).2, hu2]
      simp only [pure, Except.pure, Except.ok.injEq, Prod.mk.injEq] at h12
      rw [← h12.2]
      exact table_ok_upd_live (table_ok_congr hu5 hw) (by rw [sock_congr hu5]; exact hlive) rfl
        (by simp)
    · simp only [pure, Except.pure, Except.ok.injEq, Prod.mk.injEq] at h6
      rw [← h6.2]
      exact table_ok_upd_live (table_ok_congr hu2 hw) (by rw [sock_congr hu2]; exact hlive) rfl
        (by simp)
  · simp only [pure, Except.pure, Except.ok.injEq, Prod.mk.injEq] at h2
    rw [← h2.2]
    exact table_ok_congr hu hw

/-- A return value 0 of `manage_disconnect` means the table is as it was. -/
theorem manage_disconnect_zero {si : Nat} {w w1 : World} {r : Int}
    (h : manage_disconnect si w = .ok (r, w1)) (hr : r ≠ -1) :
    w1.w5100_sockets = w.w5100_sockets := by
  unfold manage_disconnect at h
  obtain ⟨⟨sr, u⟩, h1, h2⟩ := bind_ok_iff.1 h
  have hu := read_sock_reg_sockets h1
  simp only at h2
  split at h2
  · obtain ⟨u1, h3, h4⟩ := bind_ok_iff.1 h2
    obtain ⟨⟨sr2, u2⟩, h5, h6⟩ := bind_ok_iff.1 h4
    simp only at h6
    split at h6
    · obtain ⟨u3, h7, h8⟩ := bind_ok_iff.1 h6
      obtain ⟨u4, h9, h10⟩ := bind_ok_iff.1 h8
      obtain ⟨⟨sr3, u5⟩, h11, h12⟩ := bind_ok_iff.1 h10
      simp only [pure, Except.pure, Except.ok.injEq, Prod.mk.injEq] at h12
      exact absurd h12.1.symm hr
    · simp only [pure, Except.pure, Except.ok.injEq, Prod.mk.injEq] at h6
      exact absurd h6.1.symm hr
  · simp only [pure, Except.pure, Except.ok.injEq, Prod.mk.injEq] at h2
    rw [← h2.2, hu]

theorem check_bind_udp_table {si : Nat} {w w1 : World} (h : check_bind_udp si w = .ok w1)
    (hw : table_ok w) : table_ok w1 := by
  rcases check_bind_udp_ok h with ⟨-, rfl⟩ | ⟨hst, u, port, hs, -, -, -, -, -, -, -, rfl⟩
  · exact hw
  · exact table_ok_upd_live (table_ok_congr hs hw)
      (by rw [sock_congr hs, hst]; decide) rfl (by simp)

theorem setsockopt_table (fd level name : Int) (val : option_object) {w : World}
    (hw : table_ok w) : table_ok (setsockopt fd level name val w).2 := by
  unfold setsockopt
  cases hg : (get_socket_from_fd fd w).1 with
  | none =>
    obtain ⟨e, -, he⟩ := get_socket_from_fd_none hg
    simp only [he]
    exact table_ok_congr (by simp) hw
  | some si =>
    simp only [get_socket_from_fd_some hg]
    split
    · exact table_ok_congr (by simp) hw
    · split
      · exact table_ok_upd hw (chan_ok_same rfl rfl rfl rfl)
      · split
        · exact table_ok_upd hw (chan_ok_same rfl rfl rfl rfl)
        · split
          · exact table_ok_upd hw (chan_ok_same rfl rfl rfl rfl)
          · exact table_ok_congr (by simp) hw

theorem getsockopt_sockets (fd level name : Int) (val : option_object) (w : World) :
    (getsockopt fd level name val w).2.w5100_sockets = w.w5100_sockets := by
  unfold getsockopt
  cases hg : (get_socket_from_fd fd w).1 with
  | none =>
    obtain ⟨e, -, he⟩ := get_socket_from_fd_none hg
    simp only [he]; rfl
  | some si =>
    simp only [get_socket_from_fd_some hg]
    repeat' split
    all_goals rfl

theorem get_sockaddr_in_sockets (a : sockaddr_in) (address : Option sockaddr_in)
    (address_len : Option Nat) (w : World) :
    (get_sockaddr_in a address address_len w).2.w5100_sockets = w.w5100_sockets := by
  unfold get_sockaddr_in
  cases address <;> rfl

theorem getsockname_sockets (fd : Int) (address : Option sockaddr_in)
    (address_len : Option Nat) (w : World) :
    (getsockname fd address address_len w).2.w5100_sockets = w.w5100_sockets := by
  unfold getsockname
  cases hg : (get_socket_from_fd fd w).1 with
  | none =>
    obtain ⟨e, -, he⟩ := get_socket_from_fd_none hg
    simp only [he]; rfl
  | some si =>
    simp only [get_socket_from_fd_some hg]
    split
    · rfl
    · exact get_sockaddr_in_sockets _ _ _ _

theorem getpeername_sockets (fd : Int) (address : Option sockaddr_in)
    (address_len : Option Nat) (w : World) :
    (getpeername fd address address_len w).2.w5100_sockets = w.w5100_sockets := by
  unfold getpeername
  cases hg : (get_socket_from_fd fd w).1 with
  | none =>
    obtain ⟨e, -, he⟩ := get_socket_from_fd_none hg
    simp only [he]; rfl
  | some si =>
    simp only [get_socket_from_fd_some hg]
    split
    · rfl
    · exact get_sockaddr_in_sockets _ _ _ _
theorem socket_table {domain type protocol : Int} {w w1 : World} {r : Int}
    (h : socket domain type protocol w = .ok (r, w1)) (hw : table_ok w) : table_ok w1 := by
  unfold socket at h
  split at h
  · simp only [Except.ok.injEq, Prod.mk.injEq] at h
    rw [← h.2]; exact table_ok_congr (by simp) hw
  · split at h
    · simp only [Except.ok.injEq, Prod.mk.injEq] at h
      rw [← h.2]; exact table_ok_congr (by simp) hw
    · split at h
      · simp only [Except.ok.injEq, Prod.mk.injEq] at h
        rw [← h.2]; exact table_ok_congr (by simp) hw
      · unfold socket_create socket_alloc at h
        cases hf : first_free_sock w.w5100_sockets with
        | none =>
          simp only [hf, ne_eq, not_true_eq_false, if_false, Except.ok.injEq,
            Prod.mk.injEq] at h
          rw [← h.2]; exact table_ok_congr (by simp) hw
        | some i =>
          have hi : ¬ ((i : Int) = -1) := by omega
          simp only [hf, ne_eq, hi, not_false_eq_true, if_true, Int.toNat_ofNat] at h
          generalize hA : upd_sock w i (fun s => { s with fd := (i : Int) }) = A at h
          cases hff : first_free_file A.files with
          | none =>
            simp only [file_alloc, hff, if_true, Except.ok.injEq, Prod.mk.injEq] at h
            rw [← h.2]
            apply table_ok_congr (w := socket_free i A) (by simp)
            rw [← hA]
            intro j hj
            have hj2 : j < w.w5100_sockets.length := by simpa [socket_free] using hj
            rw [sock_socket_free]
            by_cases hc : j = i ∧ i < (upd_sock w i (fun s => { s with fd := (i : Int) })).w5100_sockets.length
            · rw [if_pos hc]; exact chan_ok_freed _
            · rw [if_neg hc, sock_upd_sock]
              have hc2 : ¬ (j = i ∧ i < w.w5100_sockets.length) := by simpa using hc
              rw [if_neg hc2]
              exact hw j hj2
          | some k =>
            have hk : ¬ ((k : Int) = -1) := by omega
            simp only [file_alloc, hff, hk, if_false] at h
            obtain ⟨⟨fds, B⟩, h1, h2⟩ := bind_ok_iff.1 h
            have hB : B.w5100_sockets = A.w5100_sockets := by
              rw [fill_fd_struct_sockets h1]; rfl
            simp only [get_socket_from_isocket] at h2
            split at h2
            · exact absurd h2 (by simp)
            · rename_i x si heq
              have hsi : si = i := by
                split at heq
                · exact absurd heq (by simp)
                · simpa using heq.symm
              subst hsi
              simp only [Int.toNat_ofNat, pure, Except.pure, Except.ok.injEq,
                Prod.mk.injEq] at h2
              rw [← h2.2]
              apply table_ok_congr (write_reg_sockets _ _ _ _)
              intro j hj
              have hj2 : j < w.w5100_sockets.length := by
                simpa [hB, ← hA] using hj
              rw [sock_upd_sock]
              by_cases hc : j = si ∧ si < B.w5100_sockets.length
              · rw [if_pos hc]
                unfold chan_ok
                simp only [W5100_SOCKET_FREE, reduceCtorEq, iff_false, hk, not_false_eq_true,
                  false_implies, and_self]
              · rw [if_neg hc, sock_congr hB, ← hA, sock_upd_sock]
                have hc2 : ¬ (j = si ∧ si < w.w5100_sockets.length) := by
                  simpa [hB, ← hA] using hc
                rw [if_neg hc2]
                exact hw j hj2

theorem bind_table {fd : Int} {addr : sockaddr_in} {w w1 : World} {r : Int}
    (h : bind fd addr w = .ok (r, w1)) (hw : table_ok w) : table_ok w1 := by
  unfold bind at h
  cases hg : (get_socket_from_fd fd w).1 with
  | none =>
    obtain ⟨e, -, he⟩ := get_socket_from_fd_none hg
    simp only [he, Except.ok.injEq, Prod.mk.injEq] at h
    rw [← h.2]; exact table_ok_congr (by simp) hw
  | some si =>
    simp only [get_socket_from_fd_some hg] at h
    split at h
    · simp only [Except.ok.injEq, Prod.mk.injEq] at h
      rw [← h.2]; exact table_ok_congr (by simp) hw
    · split at h
      · simp only [Except.ok.injEq, Prod.mk.injEq] at h
        rw [← h.2]; exact table_ok_congr (by simp) hw
      · rename_i hst
        have hst2 : (sock w si).state = W5100_SOCK_STATE_CREATED := by simpa using hst
        split at h
        · obtain ⟨u1, h1, h2⟩ := bind_ok_iff.1 h
          obtain ⟨⟨sr, u2⟩, h3, h4⟩ := bind_ok_iff.1 h2
          simp only [pure, Except.pure, Except.ok.injEq, Prod.mk.injEq] at h4
          have hu2 : u2.w5100_sockets = w.w5100_sockets := by
            rw [(wait_reg_tables h3).2, (w5100_command_tables h1).2]; rfl
          rw [← h4.2]
          exact table_ok_upd_live (table_ok_congr hu2 hw)
            (by rw [sock_congr hu2, hst2]; decide) rfl (by simp)
        · split at h
          · obtain ⟨u1, h1, h2⟩ := bind_ok_iff.1 h
            simp only [pure, Except.pure, Except.ok.injEq, Prod.mk.injEq] at h2
            rw [← h2.2]
            obtain ⟨u, hs, -, -, -, -, -, -, -, rfl⟩ := bind_udp_ok h1
            exact table_ok_upd_live (table_ok_congr hs hw)
              (by rw [sock_congr hs, hst2]; decide) rfl (by simp)
          · simp only [Except.ok.injEq, Prod.mk.injEq] at h
            rw [← h.2]; exact table_ok_congr (by simp) hw

theorem listen_table {fd backlog : Int} {w w1 : World} {r : Int}
    (h : listen fd backlog w = .ok (r, w1)) (hw : table_ok w) : table_ok w1 := by
  unfold listen at h
  cases hg : (get_socket_from_fd fd w).1 with
  | none =>
    obtain ⟨e, -, he⟩ := get_socket_from_fd_none hg
    simp only [he, Except.ok.injEq, Prod.mk.injEq] at h
    rw [← h.2]; exact table_ok_congr (by simp) hw
  | some si =>
    simp only [get_socket_from_fd_some hg] at h
    split at h
    · simp only [Except.ok.injEq, Prod.mk.injEq] at h
      rw [← h.2]; exact table_ok_congr (by simp) hw
    · rename_i hst
      have hst2 : (sock w si).state = W5100_SOCK_STATE_BOUND := by simpa using hst
      split at h
      · simp only [Except.ok.injEq, Prod.mk.injEq] at h
        rw [← h.2]; exact table_ok_congr (by simp) hw
      · obtain ⟨u1, h1, h2⟩ := bind_ok_iff.1 h
        obtain ⟨⟨sr, u2⟩, h3, h4⟩ := bind_ok_iff.1 h2
        simp only [pure, Except.pure, Except.ok.injEq, Prod.mk.injEq] at h4
        have hu2 : u2.w5100_sockets = w.w5100_sockets := by
          rw [(wait_reg_tables h3).2, (w5100_command_tables h1).2]
        rw [← h4.2]
        exact table_ok_upd_live (table_ok_congr hu2 hw)
          (by rw [sock_congr hu2, hst2]; decide) rfl (by simp)

theorem connect_table {fd : Int} {addr : sockaddr_in} {w w1 : World} {r : Int}
    (h : connect fd addr w = .ok (r, w1)) (hw : table_ok w) : table_ok w1 := by
  unfold connect at h
  cases hg : (get_socket_from_fd fd w).1 with
  | none =>
    obtain ⟨e, -, he⟩ := get_socket_from_fd_none hg
    simp only [he, Except.ok.injEq, Prod.mk.injEq] at h
    rw [← h.2]; exact table_ok_congr (by simp) hw
  | some si =>
    simp only [get_socket_from_fd_some hg] at h
    split at h
    · unfold connect_tcp at h
      simp only at h
      split at h
      · simp only [Except.ok.injEq, Prod.mk.injEq] at h
        rw [← h.2]; exact table_ok_congr (by simp) hw
      · split at h
        · simp only [Except.ok.injEq, Prod.mk.injEq] at h
          rw [← h.2]; exact table_ok_congr (by simp) hw
        · split at h
          · simp only [Except.ok.injEq, Prod.mk.injEq] at h
            rw [← h.2]; exact table_ok_congr (by simp) hw
          · split at h
            · simp only [Except.ok.injEq, Prod.mk.injEq] at h
              rw [← h.2]; exact table_ok_congr (by simp) hw
            · rename_i hst
              have hst2 : (sock w si).state = W5100_SOCK_STATE_CREATED := by simpa using hst
              obtain ⟨u1, h1, h2⟩ := bind_ok_iff.1 h
              obtain ⟨⟨sr, u2⟩, h3, h4⟩ := bind_ok_iff.1 h2
              obtain ⟨u3, h5, h6⟩ := bind_ok_iff.1 h4
              obtain ⟨⟨sr2, u4⟩, h7, h8⟩ := bind_ok_iff.1 h6
              have hu4 : u4.w5100_sockets = w.w5100_sockets := by
                rw [(wait_reg_tables h7).2, (w5100_command_tables h5).2]
                simp only [write_reg_sockets]
                rw [(wait_reg_tables h3).2, (w5100_command_tables h1).2]; rfl
              simp only at h8
              split at h8
              · simp only [pure, Except.pure, Except.ok.injEq, Prod.mk.injEq] at h8
                rw [← h8.2]
                exact table_ok_upd_live (table_ok_congr hu4 hw)
                  (by rw [sock_congr hu4, hst2]; decide) rfl (by simp)
              · split at h8
                · simp only [pure, Except.pure, Except.ok.injEq, Prod.mk.injEq] at h8
                  rw [← h8.2]; exact table_ok_congr (by simpa using hu4) hw
                · simp only [pure, Except.pure, Except.ok.injEq, Prod.mk.injEq] at h8
                  rw [← h8.2]; exact table_ok_congr (by simpa using hu4) hw
    · split at h
      · unfold connect_udp at h
        split at h
        · obtain ⟨u1, h1, h2⟩ := bind_ok_iff.1 h
          simp only [pure, Except.pure, Except.ok.injEq, Prod.mk.injEq] at h2
          rw [← h2.2]
          exact check_bind_udp_table h1 (table_ok_upd hw (chan_ok_same rfl rfl rfl rfl))
        · split at h
          · obtain ⟨u1, h1, h2⟩ := bind_ok_iff.1 h
            simp only [pure, Except.pure, Except.ok.injEq, Prod.mk.injEq] at h2
            rw [← h2.2]
            exact check_bind_udp_table h1 (table_ok_upd hw (chan_ok_same rfl rfl rfl rfl))
          · simp only [Except.ok.injEq, Prod.mk.injEq] at h
            rw [← h.2]; exact table_ok_congr (by simp) hw
      · simp only [Except.ok.injEq, Prod.mk.injEq] at h
        rw [← h.2]; exact table_ok_congr (by simp) hw
theorem accept_loop_table (si : Nat) (addr : Option sockaddr_in) (addrlen : Option Nat)
    (nb : Bool) :
    ∀ (fuel : Nat) (w w1 : World) (r : AcceptResult),
      accept_loop si addr addrlen nb fuel w = .ok (r, w1) → table_ok w →
      (sock w si).state ≠ W5100_SOCK_STATE_NONE → table_ok w1 := by
  intro fuel
  induction fuel with
  | zero => intro w w1 r h; simp [accept_loop] at h
  | succ n ih =>
    intro w w1 r h hw hlive
    unfold accept_loop at h
    obtain ⟨⟨sr, u⟩, h1, h2⟩ := bind_ok_iff.1 h
    have hu := read_sock_reg_sockets h1
    simp only at h2
    split at h2
    · have hfa := file_alloc_sockets u
      generalize file_alloc u = fa at h2 hfa
      obtain ⟨nfd, u1⟩ := fa
      simp only at h2 hfa
      split at h2
      · obtain ⟨u2, h3, h4⟩ := bind_ok_iff.1 h2
        obtain ⟨u3, h5, h6⟩ := bind_ok_iff.1 h4
        obtain ⟨u4, h7, h8⟩ := bind_ok_iff.1 h6
        simp only [pure, Except.pure, Except.ok.injEq, Prod.mk.injEq] at h8
        rw [← h8.2]
        apply table_ok_congr _ hw
        rw [(w5100_command_tables h7).2, (w5100_command_tables h5).2,
          (w5100_command_tables h3).2, set_errno_sockets, hfa, hu]
      · obtain ⟨⟨fds, u2⟩, h3, h4⟩ := bind_ok_iff.1 h2
        have hu1 : u1.w5100_sockets = w.w5100_sockets := by rw [hfa, hu]
        have hA : table_ok (upd_sock u1 si
            (fun s => { s with state := W5100_SOCK_STATE_ACCEPTED })) :=
          table_ok_upd_live (table_ok_congr hu1 hw) (by rw [sock_congr hu1]; exact hlive) rfl
            (by simp)
        have hB : table_ok (upd_sock u2 si (fun s => { s with connection_data := some fds })) := by
          apply table_ok_upd (table_ok_congr (fill_fd_struct_sockets h3) hA)
          intro hs
          refine chan_ok_live (s := sock u2 si) rfl ?_ ?_ hs
          · rw [sock_congr (fill_fd_struct_sockets h3), sock_upd_sock]
            split
            · simp
            · rw [sock_congr hu1]; exact hlive
          · rw [sock_congr (fill_fd_struct_sockets h3), sock_upd_sock]
            split
            · simp
            · rw [sock_congr hu1]; exact hlive
        simp only at h4
        split at h4
        · obtain ⟨⟨ip, u3⟩, h5, h6⟩ := bind_ok_iff.1 h4
          obtain ⟨⟨port, u4⟩, h7, h8⟩ := bind_ok_iff.1 h6
          simp only [pure, Except.pure, Except.ok.injEq, Prod.mk.injEq] at h8
          rw [← h8.2]
          exact table_ok_congr
            (by rw [read_sock_regx_sockets h7, read_sock_regx32_sockets h5]) hB
        · simp only [pure, Except.pure, Except.ok.injEq, Prod.mk.injEq] at h4
          rw [← h4.2]; exact hB
    · split at h2
      · simp only [pure, Except.pure, Except.ok.injEq, Prod.mk.injEq] at h2
        rw [← h2.2]; exact table_ok_congr (by simpa using hu) hw
      · exact ih u w1 r h2 (table_ok_congr hu hw) (by rw [sock_congr hu]; exact hlive)

theorem accept_table {fd : Int} {addr : Option sockaddr_in} {addrlen : Option Nat}
    {w w1 : World} {r : AcceptResult}
    (h : accept fd addr addrlen w = .ok (r, w1)) (hw : table_ok w) : table_ok w1 := by
  unfold accept at h
  cases hg : (get_socket_from_fd fd w).1 with
  | none =>
    obtain ⟨e, -, he⟩ := get_socket_from_fd_none hg
    simp only [he, Except.ok.injEq, Prod.mk.injEq] at h
    rw [← h.2]; exact table_ok_congr (by simp) hw
  | some si =>
    simp only [get_socket_from_fd_some hg] at h
    split at h
    · simp only [Except.ok.injEq, Prod.mk.injEq] at h
      rw [← h.2]; exact table_ok_congr (by simp) hw
    · rename_i hst
      have hst2 : (sock w si).state = W5100_SOCK_STATE_LISTENING := by simpa using hst
      split at h
      · simp only [Except.ok.injEq, Prod.mk.injEq] at h
        rw [← h.2]; exact table_ok_congr (by simp) hw
      · obtain ⟨nb, h1, h2⟩ := bind_ok_iff.1 h
        exact accept_loop_table si addr addrlen nb _ w w1 r h2 hw (by rw [hst2]; decide)

theorem recvfrom_wait_table {address : Option sockaddr_in} {address_len : Option Nat}
    {nb : Bool} {tom : timeout_manager} {again : World → Run (RecvResult × World)}
    {w w1 : World} {r : RecvResult}
    (h : recvfrom_wait address address_len nb tom again w = .ok (r, w1)) (hw : table_ok w)
    (hag : ∀ u, u.w5100_sockets = w.w5100_sockets → again u = .ok (r, w1) → table_ok w1) :
    table_ok w1 := by
  unfold recvfrom_wait at h
  split at h
  · simp only [Except.ok.injEq, Prod.mk.injEq] at h
    rw [← h.2]; exact table_ok_congr (by simp) hw
  · split at h
    · exact absurd h (by simp)
    · rename_i ended u hte
      split at h
      · simp only [Except.ok.injEq, Prod.mk.injEq] at h
        rw [← h.2]; exact table_ok_congr (timeout_ended_sockets hte) hw
      · exact hag u (timeout_ended_sockets hte) h

theorem recvfrom_loop_table (si len : Nat) (address : Option sockaddr_in)
    (address_len : Option Nat) (nb : Bool) (tom : timeout_manager) :
    ∀ (fuel : Nat) (w w1 : World) (r : RecvResult),
      recvfrom_loop si len address address_len nb tom fuel w = .ok (r, w1) → table_ok w →
      ((sock w si).type = SOCK_STREAM → (sock w si).state ≠ W5100_SOCK_STATE_NONE) →
      table_ok w1 := by
  intro fuel
  induction fuel with
  | zero => intro w w1 r h; simp [recvfrom_loop] at h
  | succ n ih =>
    intro w w1 r h hw hlive
    have hnext : ∀ v : World, v.w5100_sockets = w.w5100_sockets → ∀ u : World,
        u.w5100_sockets = v.w5100_sockets →
        recvfrom_loop si len address address_len nb tom n u = .ok (r, w1) → table_ok w1 := by
      intro v hv u hu hrun
      have huw : u.w5100_sockets = w.w5100_sockets := by rw [hu, hv]
      exact ih u w1 r hrun (table_ok_congr huw hw) (by rw [sock_congr huw]; exact hlive)
    unfold recvfrom_loop at h
    simp only at h
    split at h
    · rename_i hty
      split at h
      · exact absurd h (by simp)
      · rename_i nread bytes u hrb
        have hu := read_buf_sockets hrb
        split at h
        · simp only [Except.ok.injEq, Prod.mk.injEq] at h
          rw [← h.2]; exact table_ok_congr hu hw
        · split at h
          · exact absurd h (by simp)
          · rename_i rr u2 hmd
            split at h
            · simp only [Except.ok.injEq, Prod.mk.injEq] at h
              rw [← h.2]
              exact manage_disconnect_table hmd (table_ok_congr hu hw)
                (by rw [sock_congr hu]; exact hlive hty)
            · rename_i hrr
              have hu2 : u2.w5100_sockets = w.w5100_sockets := by
                rw [manage_disconnect_zero hmd hrr, hu]
              exact recvfrom_wait_table h (table_ok_congr hu2 hw) (hnext u2 hu2)
    · split at h
      · split at h
        · exact absurd h (by simp)
        · rename_i toread u hrl
          have hu := read_buf_len_sockets hrl
          split at h
          · split at h
            · exact absurd h (by simp)
            · rename_i pread u2 hps
              have hu2 : u2.w5100_sockets = w.w5100_sockets := by
                unfold read_buf_pstart at hps
                obtain ⟨⟨p0, u3⟩, h5, h6⟩ := bind_ok_iff.1 hps
                simp only [pure, Except.pure, Except.ok.injEq, Prod.mk.injEq] at h6
                rw [← h6.2, read_sock_regx_sockets h5, hu]
              split at h
              · exact absurd h (by simp)
              · rename_i u5 hrecv
                simp only [Except.ok.injEq, Prod.mk.injEq] at h
                rw [← h.2]
                unfold read_buf_recv at hrecv
                apply table_ok_congr _ hw
                rw [(w5100_command_tables hrecv).2, write_reg_sockets]
                obtain ⟨reads2, -, hw2⟩ := read_buf_sure_world (sock w si).isocket
                  (ntohs (le16 ((read_buf_sure (sock w si).isocket 8 pread u2).1.1.getD 6 0)
                    ((read_buf_sure (sock w si).isocket 8 pread u2).1.1.getD 7 0)))
                  (read_buf_sure (sock w si).isocket 8 pread u2).1.2
                  (read_buf_sure (sock w si).isocket 8 pread u2).2
                obtain ⟨reads1, -, hw1⟩ := read_buf_sure_world (sock w si).isocket 8 pread u2
                rw [hw2, hw1]
                exact hu2
          · exact recvfrom_wait_table h (table_ok_congr hu hw) (hnext u hu)
      · exact recvfrom_wait_table h hw (hnext w rfl)

theorem recvfrom_table {fd : Int} {len : Nat} {address : Option sockaddr_in}
    {address_len : Option Nat} {w w1 : World} {r : RecvResult}
    (h : recvfrom fd len address address_len w = .ok (r, w1)) (hw : table_ok w) :
    table_ok w1 := by
  unfold recvfrom at h
  cases hg : (get_socket_from_fd fd w).1 with
  | none =>
    obtain ⟨e, -, he⟩ := get_socket_from_fd_none hg
    simp only [he, Except.ok.injEq, Prod.mk.injEq] at h
    rw [← h.2]; exact table_ok_congr (by simp) hw
  | some si =>
    simp only [get_socket_from_fd_some hg] at h
    split at h
    · simp only [Except.ok.injEq, Prod.mk.injEq] at h
      rw [← h.2]; exact table_ok_congr (by simp) hw
    · rename_i hst
      split at h
      · simp only [Except.ok.injEq, Prod.mk.injEq] at h
        rw [← h.2]; exact table_ok_congr (by simp) hw
      · split at h
        · simp only [Except.ok.injEq, Prod.mk.injEq] at h
          rw [← h.2]; exact hw
        · obtain ⟨nb, h1, h2⟩ := bind_ok_iff.1 h
          have hlive : (sock w si).type = SOCK_STREAM →
              (sock w si).state ≠ W5100_SOCK_STATE_NONE := by
            intro hty hnone
            apply hst
            refine ⟨hty, ?_, ?_⟩ <;> rw [hnone] <;> decide
          split at h2
          · obtain ⟨⟨tom, u⟩, h3, h4⟩ := bind_ok_iff.1 h2
            have hu : u.w5100_sockets = w.w5100_sockets := timeout_init_sockets h3
            exact recvfrom_loop_table si len address address_len nb tom _ u w1 r h4
              (table_ok_congr hu hw) (by rw [sock_congr hu]; exact hlive)
          · obtain ⟨⟨tom, u⟩, h3, h4⟩ := bind_ok_iff.1 h2
            have hu : u.w5100_sockets = w.w5100_sockets := by
              simp only [pure, Except.pure, Except.ok.injEq, Prod.mk.injEq] at h3
              rw [← h3.2]
            exact recvfrom_loop_table si len address address_len nb tom _ u w1 r h4
              (table_ok_congr hu hw) (by rw [sock_congr hu]; exact hlive)
theorem send_loop_table (si : Nat) (nb : Bool) (tom : timeout_manager) :
    ∀ (fuel : Nat) (ret : Option Int) (bytes : List Nat) (towrite : Nat) (w w1 : World)
      (r : Option Int × Nat),
      send_loop si nb tom fuel ret bytes towrite w = .ok (r, w1) → table_ok w →
      (sock w si).state ≠ W5100_SOCK_STATE_NONE → table_ok w1 := by
  intro fuel
  induction fuel with
  | zero => intro ret bytes towrite w w1 r h; simp [send_loop] at h
  | succ n ih =>
    intro ret bytes towrite w w1 r h hw hlive
    unfold send_loop at h
    split at h
    · split at h
      · exact absurd h (by simp)
      · rename_i written u hwb
        have hu := write_buf_sockets hwb
        split at h
        · split at h
          · simp only [Except.ok.injEq, Prod.mk.injEq] at h
            rw [← h.2]; exact table_ok_congr hu hw
          · exact ih _ _ _ u w1 r h (table_ok_congr hu hw) (by rw [sock_congr hu]; exact hlive)
        · split at h
          · exact absurd h (by simp)
          · rename_i rr u2 hmd
            split at h
            · simp only [Except.ok.injEq, Prod.mk.injEq] at h
              rw [← h.2]
              exact manage_disconnect_table hmd (table_ok_congr hu hw)
                (by rw [sock_congr hu]; exact hlive)
            · rename_i hrr
              have hu2 : u2.w5100_sockets = w.w5100_sockets := by
                rw [manage_disconnect_zero hmd hrr, hu]
              split at h
              · simp only [Except.ok.injEq, Prod.mk.injEq] at h
                rw [← h.2]; exact table_ok_congr (by simpa using hu2) hw
              · split at h
                · exact absurd h (by simp)
                · rename_i ended u3 hte
                  have hu3 : u3.w5100_sockets = w.w5100_sockets := by
                    rw [timeout_ended_sockets hte, hu2]
                  split at h
                  · simp only [Except.ok.injEq, Prod.mk.injEq] at h
                    rw [← h.2]; exact table_ok_congr hu3 hw
                  · exact ih _ _ _ u3 w1 r h (table_ok_congr hu3 hw)
                      (by rw [sock_congr hu3]; exact hlive)
    · simp only [Except.ok.injEq, Prod.mk.injEq] at h
      rw [← h.2]; exact hw

theorem sendto_loop_sockets (i : Nat) (buf : List Nat) (len : Nat) (peer : sockaddr_in)
    (nb : Bool) (tom : timeout_manager) :
    ∀ (fuel : Nat) (w w1 : World) (r : Int),
      sendto_loop i buf len peer nb tom fuel w = .ok (r, w1) →
      w1.w5100_sockets = w.w5100_sockets := by
  intro fuel
  induction fuel with
  | zero => intro w w1 r h; simp [sendto_loop] at h
  | succ n ih =>
    intro w w1 r h
    unfold sendto_loop at h
    split at h
    · exact absurd h (by simp)
    · rename_i nfree u hwl
      have hu := write_buf_len_sockets hwl
      split at h
      · simp only at h
        split at h
        · exact absurd h (by simp)
        · rename_i k u2 hwb
          simp only [Except.ok.injEq, Prod.mk.injEq] at h
          rw [← h.2, write_buf_sockets hwb]
          simpa using hu
      · split at h
        · simp only [Except.ok.injEq, Prod.mk.injEq] at h
          rw [← h.2]; simpa using hu
        · split at h
          · exact absurd h (by simp)
          · rename_i ended u3 hte
            split at h
            · simp only [Except.ok.injEq, Prod.mk.injEq] at h
              rw [← h.2, timeout_ended_sockets hte, hu]
            · rw [ih u3 w1 r h, timeout_ended_sockets hte, hu]

theorem send_body_table
    {callee : Int → List Nat → Nat → Option sockaddr_in → World → Run (Int × World)}
    (hcallee : ∀ fd buf len dest w r w1, callee fd buf len dest w = .ok (r, w1) →
      table_ok w → table_ok w1)
    {fd : Int} {buf : List Nat} {len : Nat} {w w1 : World} {r : Int}
    (h : send_body callee fd buf len w = .ok (r, w1)) (hw : table_ok w) : table_ok w1 := by
  unfold send_body at h
  cases hg : (get_socket_from_fd fd w).1 with
  | none =>
    obtain ⟨e, -, he⟩ := get_socket_from_fd_none hg
    simp only [he, Except.ok.injEq, Prod.mk.injEq] at h
    rw [← h.2]; exact table_ok_congr (by simp) hw
  | some si =>
    simp only [get_socket_from_fd_some hg] at h
    split at h
    · split at h
      · simp only [Except.ok.injEq, Prod.mk.injEq] at h
        rw [← h.2]; exact table_ok_congr (by simp) hw
      · exact hcallee _ _ _ _ _ _ _ h hw
    · split at h
      · simp only [Except.ok.injEq, Prod.mk.injEq] at h
        rw [← h.2]; exact table_ok_congr (by simp) hw
      · split at h
        · simp only [Except.ok.injEq, Prod.mk.injEq] at h
          rw [← h.2]; exact table_ok_congr (by simp) hw
        · rename_i hst
          have hlive : (sock w si).state ≠ W5100_SOCK_STATE_NONE := by
            intro hnone
            apply hst
            refine ⟨?_, ?_⟩ <;> rw [hnone] <;> decide
          obtain ⟨nb, h1, h2⟩ := bind_ok_iff.1 h
          split at h2
          · obtain ⟨⟨tom, u⟩, h3, h4⟩ := bind_ok_iff.1 h2
            have hu : u.w5100_sockets = w.w5100_sockets := timeout_init_sockets h3
            obtain ⟨⟨rr, u2⟩, h5, h6⟩ := bind_ok_iff.1 h4
            simp only [pure, Except.pure, Except.ok.injEq, Prod.mk.injEq] at h6
            rw [← h6.2]
            exact send_loop_table si nb tom _ _ _ _ u u2 rr h5 (table_ok_congr hu hw)
              (by rw [sock_congr hu]; exact hlive)
          · obtain ⟨⟨tom, u⟩, h3, h4⟩ := bind_ok_iff.1 h2
            have hu : u.w5100_sockets = w.w5100_sockets := by
              simp only [pure, Except.pure, Except.ok.injEq, Prod.mk.injEq] at h3
              rw [← h3.2]
            obtain ⟨⟨rr, u2⟩, h5, h6⟩ := bind_ok_iff.1 h4
            simp only [pure, Except.pure, Except.ok.injEq, Prod.mk.injEq] at h6
            rw [← h6.2]
            exact send_loop_table si nb tom _ _ _ _ u u2 rr h5 (table_ok_congr hu hw)
              (by rw [sock_congr hu]; exact hlive)

theorem sendto_body_table {callee : Int → List Nat → Nat → World → Run (Int × World)}
    (hcallee : ∀ fd buf len w r w1, callee fd buf len w = .ok (r, w1) →
      table_ok w → table_ok w1)
    {fd : Int} {buf : List Nat} {len : Nat} {dest : Option sockaddr_in} {w w1 : World} {r : Int}
    (h : sendto_body callee fd buf len dest w = .ok (r, w1)) (hw : table_ok w) :
    table_ok w1 := by
  unfold sendto_body at h
  cases hg : (get_socket_from_fd fd w).1 with
  | none =>
    obtain ⟨e, -, he⟩ := get_socket_from_fd_none hg
    simp only [he, Except.ok.injEq, Prod.mk.injEq] at h
    rw [← h.2]; exact table_ok_congr (by simp) hw
  | some si =>
    simp only [get_socket_from_fd_some hg] at h
    split at h
    · exact hcallee _ _ _ _ _ _ h hw
    · split at h
      · obtain ⟨u, h1, h2⟩ := bind_ok_iff.1 h
        have hu := check_bind_udp_table h1 hw
        split at h2
        · simp only [pure, Except.pure, Except.ok.injEq, Prod.mk.injEq] at h2
          rw [← h2.2]; exact table_ok_congr (by simp) hu
        · split at h2
          · simp only [pure, Except.pure, Except.ok.injEq, Prod.mk.injEq] at h2
            rw [← h2.2]; exact table_ok_congr (by simp) hu
          · split at h2
            · simp only [pure, Except.pure, Except.ok.injEq, Prod.mk.injEq] at h2
              rw [← h2.2]; exact table_ok_congr (by simp) hu
            · obtain ⟨nb, h3, h4⟩ := bind_ok_iff.1 h2
              split at h4
              · obtain ⟨⟨tom, u2⟩, h5, h6⟩ := bind_ok_iff.1 h4
                exact table_ok_congr
                  (by rw [sendto_loop_sockets _ _ _ _ _ _ _ _ _ _ h6, timeout_init_sockets h5]) hu
              · obtain ⟨⟨tom, u2⟩, h5, h6⟩ := bind_ok_iff.1 h4
                simp only [pure, Except.pure, Except.ok.injEq, Prod.mk.injEq] at h5
                exact table_ok_congr
                  (by rw [sendto_loop_sockets _ _ _ _ _ _ _ _ _ _ h6, ← h5.2]) hu
      · simp only [Except.ok.injEq, Prod.mk.injEq] at h
        rw [← h.2]; exact table_ok_congr (by simp) hw

theorem send_table {fd : Int} {buf : List Nat} {len : Nat} {w w1 : World} {r : Int}
    (h : send fd buf len w = .ok (r, w1)) (hw : table_ok w) : table_ok w1 :=
  send_body_table
    (fun _ _ _ _ _ _ _ h2 hw2 =>
      sendto_body_table (fun _ _ _ _ _ _ h3 _ => absurd h3 (by simp)) h2 hw2) h hw

theorem sendto_table {fd : Int} {buf : List Nat} {len : Nat} {dest : Option sockaddr_in}
    {w w1 : World} {r : Int}
    (h : sendto fd buf len dest w = .ok (r, w1)) (hw : table_ok w) : table_ok w1 :=
  sendto_body_table
    (fun _ _ _ _ _ _ h2 hw2 =>
      send_body_table (fun _ _ _ _ _ _ _ h3 _ => absurd h3 (by simp)) h2 hw2) h hw

theorem poll_rw_sockets {i : Nat} {w w1 : World} {r : Nat}
    (h : w5100_sock_poll_rw i w = .ok (r, w1)) : w1.w5100_sockets = w.w5100_sockets := by
  unfold w5100_sock_poll_rw at h
  obtain ⟨⟨a, u⟩, h1, h2⟩ := bind_ok_iff.1 h
  obtain ⟨⟨b, u2⟩, h3, h4⟩ := bind_ok_iff.1 h2
  simp only [pure, Except.pure, Except.ok.injEq, Prod.mk.injEq] at h4
  rw [← h4.2, write_buf_len_sockets h3, read_buf_len_sockets h1]

theorem poll_sockets {fd : Int} {w w1 : World} {r : Nat}
    (h : w5100_sock_poll fd w = .ok (r, w1)) : w1.w5100_sockets = w.w5100_sockets := by
  unfold w5100_sock_poll at h
  cases hg : (get_socket_from_fd fd w).1 with
  | none =>
    obtain ⟨e, -, he⟩ := get_socket_from_fd_none hg
    simp only [he, Except.ok.injEq, Prod.mk.injEq] at h
    rw [← h.2]; rfl
  | some si =>
    simp only [get_socket_from_fd_some hg] at h
    split at h
    · obtain ⟨⟨sr, u⟩, h1, h2⟩ := bind_ok_iff.1 h
      have hu := read_sock_reg_sockets h1
      simp only at h2
      split at h2 <;>
        (simp only [pure, Except.pure, Except.ok.injEq, Prod.mk.injEq] at h2
         rw [← h2.2, hu])
    · split at h
      · obtain ⟨⟨sr, u⟩, h1, h2⟩ := bind_ok_iff.1 h
        have hu := read_sock_reg_sockets h1
        simp only at h2
        split at h2
        · simp only [pure, Except.pure, Except.ok.injEq, Prod.mk.injEq] at h2
          rw [← h2.2, hu]
        · rw [poll_rw_sockets h2, hu]
      · split at h
        · exact poll_rw_sockets h
        · simp only [Except.ok.injEq, Prod.mk.injEq] at h
          rw [← h.2]
theorem chan_ok_detach_primary {s : w5100_socket} (hs : chan_ok s) :
    chan_ok { s with fd_data := none } := by
  unfold chan_ok at *
  exact ⟨hs.1, fun h => ⟨rfl, (hs.2 h).2⟩⟩

theorem chan_ok_detach_accepted {s : w5100_socket} (hs : chan_ok s) :
    chan_ok { s with connection_data := none } := by
  unfold chan_ok at *
  exact ⟨hs.1, fun h => ⟨(hs.2 h).1, rfl⟩⟩

theorem chan_ok_attached {s : w5100_socket} (hs : chan_ok s) (h : s.fd_data ≠ none) :
    s.state ≠ W5100_SOCK_STATE_NONE := by
  intro hn
  exact h (hs.2 (hs.1.2 hn)).1

theorem close_table {fd : Int} {w w1 : World} {r : Int}
    (h : w5100_sock_close fd w = .ok (r, w1)) (hw : table_ok w) : table_ok w1 := by
  unfold w5100_sock_close at h
  cases hg : (get_socket_from_fd fd w).1 with
  | none =>
    obtain ⟨e, -, he⟩ := get_socket_from_fd_none hg
    simp only [he, Except.ok.injEq, Prod.mk.injEq] at h
    rw [← h.2]; exact table_ok_congr (by simp) hw
  | some si =>
    simp only [get_socket_from_fd_some hg] at h
    split at h
    · generalize hF : file_free
        (file (upd_file w ((sock w si).fd_data.getD 0) (fun f => { f with isopen := false }))
          ((sock w si).fd_data.getD 0)).fd
        (upd_file w ((sock w si).fd_data.getD 0) (fun f => { f with isopen := false })) = F at h
      have hFs : F.w5100_sockets = w.w5100_sockets := by rw [← hF]; simp
      have hD : table_ok (upd_sock F si (fun s => { s with fd_data := none })) :=
        table_ok_upd (table_ok_congr hFs hw) chan_ok_detach_primary
      split at h
      · obtain ⟨u1, h1, h2⟩ := bind_ok_iff.1 h
        obtain ⟨⟨sr, u2⟩, h3, h4⟩ := bind_ok_iff.1 h2
        simp only [pure, Except.pure, Except.ok.injEq, Prod.mk.injEq] at h4
        rw [← h4.2]
        apply table_ok_socket_free
        exact table_ok_congr
          (by rw [(wait_reg_tables h3).2, (w5100_command_tables h1).2]) hD
      · simp only [pure, Except.pure, Except.ok.injEq, Prod.mk.injEq] at h
        rw [← h.2]; exact hD
    · split at h
      · simp only [Except.ok.injEq, Prod.mk.injEq] at h
        rw [← h.2]; exact table_ok_congr (by simp) hw
      · split at h
        · generalize hF : file_free
            (file (upd_file w ((sock w si).connection_data.getD 0)
              (fun f => { f with isopen := false })) ((sock w si).connection_data.getD 0)).fd
            (upd_file w ((sock w si).connection_data.getD 0)
              (fun f => { f with isopen := false })) = F at h
          have hFs : F.w5100_sockets = w.w5100_sockets := by rw [← hF]; simp
          have hD : table_ok (upd_sock F si (fun s => { s with connection_data := none })) :=
            table_ok_upd (table_ok_congr hFs hw) chan_ok_detach_accepted
          obtain ⟨u1, h1, h2⟩ := bind_ok_iff.1 h
          obtain ⟨⟨sr, u2⟩, h3, h4⟩ := bind_ok_iff.1 h2
          have hu2 : u2.w5100_sockets
              = (upd_sock F si (fun s => { s with connection_data := none })).w5100_sockets := by
            rw [(wait_reg_tables h3).2, (w5100_command_tables h1).2]
          simp only at h4
          split at h4
          · simp only [pure, Except.pure, Except.ok.injEq, Prod.mk.injEq] at h4
            rw [← h4.2]
            exact table_ok_socket_free _ (table_ok_congr hu2 hD)
          · rename_i hprim
            obtain ⟨u3, h5, h6⟩ := bind_ok_iff.1 h4
            obtain ⟨u4, h7, h8⟩ := bind_ok_iff.1 h6
            obtain ⟨⟨sr2, u5⟩, h9, h10⟩ := bind_ok_iff.1 h8
            simp only [pure, Except.pure, Except.ok.injEq, Prod.mk.injEq] at h10
            rw [← h10.2]
            have hu5 : u5.w5100_sockets
                = (upd_sock F si (fun s => { s with connection_data := none })).w5100_sockets := by
              rw [(wait_reg_tables h9).2, (w5100_command_tables h7).2,
                (w5100_command_tables h5).2, hu2]
            by_cases hin : si < w.w5100_sockets.length
            · have hlive0 : (sock w si).state ≠ W5100_SOCK_STATE_NONE :=
                chan_ok_attached (hw si hin) hprim
              refine table_ok_upd_live (table_ok_congr hu5 hD) ?_ rfl (by simp)
              rw [sock_congr hu5, sock_upd_sock]
              split
              · rw [sock_congr hFs]; exact hlive0
              · rw [sock_congr hFs]; exact hlive0
            · apply table_ok_congr _ (table_ok_congr hu5 hD)
              unfold upd_sock
              simp only
              rw [List.set_eq_of_length_le]
              rw [hu5]
              simpa [hFs] using Nat.le_of_not_lt hin
        · simp only [Except.ok.injEq, Prod.mk.injEq] at h
          rw [← h.2]; exact table_ok_congr (by simp) hw
theorem map_snd_ok {α : Type} {x : Run (α × World)} {w1 : World}
    (h : x.map (·.2) = .ok w1) : ∃ a, x = .ok (a, w1) := by
  cases x with
  | error e => simp [Except.map] at h
  | ok p =>
    obtain ⟨a, u⟩ := p
    simp only [Except.map, Except.ok.injEq] at h
    exact ⟨a, by rw [h]⟩

/-- Every call of the interface that returns keeps the channel table
consistent. -/
theorem run_call_table {c : ApiCall} {w w1 : World} (h : run_call c w = .ok w1)
    (hw : table_ok w) : table_ok w1 := by
  cases c with
  | socket d t p => obtain ⟨a, ha⟩ := map_snd_ok h; exact socket_table ha hw
  | bind fd addr => obtain ⟨a, ha⟩ := map_snd_ok h; exact bind_table ha hw
  | connect fd addr => obtain ⟨a, ha⟩ := map_snd_ok h; exact connect_table ha hw
  | listen fd b => obtain ⟨a, ha⟩ := map_snd_ok h; exact listen_table ha hw
  | accept fd addr al => obtain ⟨a, ha⟩ := map_snd_ok h; exact accept_table ha hw
  | send fd buf len => obtain ⟨a, ha⟩ := map_snd_ok h; exact send_table ha hw
  | sendto fd buf len dest => obtain ⟨a, ha⟩ := map_snd_ok h; exact sendto_table ha hw
  | recv fd len => obtain ⟨a, ha⟩ := map_snd_ok h; exact recvfrom_table ha hw
  | recvfrom fd len ad al => obtain ⟨a, ha⟩ := map_snd_ok h; exact recvfrom_table ha hw
  | setsockopt fd l n v =>
    simp only [run_call, Except.ok.injEq] at h
    rw [← h]; exact setsockopt_table fd l n v hw
  | getsockopt fd l n v =>
    simp only [run_call, Except.ok.injEq] at h
    rw [← h]; exact table_ok_congr (getsockopt_sockets fd l n v w) hw
  | getsockname fd ad al =>
    simp only [run_call, Except.ok.injEq] at h
    rw [← h]; exact table_ok_congr (getsockname_sockets fd ad al w) hw
  | getpeername fd ad al =>
    simp only [run_call, Except.ok.injEq] at h
    rw [← h]; exact table_ok_congr (getpeername_sockets fd ad al w) hw
  | write fd buf len => obtain ⟨a, ha⟩ := map_snd_ok h; exact send_table ha hw
  | read fd len => obtain ⟨a, ha⟩ := map_snd_ok h; exact recvfrom_table ha hw
  | poll fd => obtain ⟨a, ha⟩ := map_snd_ok h; exact table_ok_congr (poll_sockets ha) hw
  | close fd => obtain ⟨a, ha⟩ := map_snd_ok h; exact close_table ha hw

theorem run_calls_table : ∀ (calls : List ApiCall) (w w1 : World),
    run_calls calls w = .ok w1 → table_ok w → table_ok w1 := by
  intro calls
  induction calls with
  | nil =>
    intro w w1 h hw
    simp only [run_calls, Except.ok.injEq] at h
    rw [← h]; exact hw
  | cons c rest ih =>
    intro w w1 h hw
    unfold run_calls at h
    split at h
    · exact absurd h (by simp)
    · rename_i u hc
      exact ih u w1 h (run_call_table hc hw)

/-! ## The accepted handle after the listening handle is closed -/

/-- On a stream channel in ACCEPTED state whose primary descriptor pointer is
`NULL`, `send` (with any `len`) and `recvfrom` / `recv` (with `len > 0`) read
`s->fd_data->status_flags` through the `NULL` pointer. -/
theorem detached_primary_null_deref (fd : Int) (w : World) (si : Nat)
    (hg : (get_socket_from_fd fd w).1 = some si)
    (hty : (sock w si).type = SOCK_STREAM)
    (hst : (sock w si).state = W5100_SOCK_STATE_ACCEPTED)
    (hnull : (sock w si).fd_data = none) :
    (∀ buf len, send fd buf len w = .error Stuck.null_deref) ∧
    (∀ len address address_len, 0 < len →
      recvfrom fd len address address_len w = .error Stuck.null_deref) ∧
    (∀ len, 0 < len → recv fd len w = .error Stuck.null_deref) := by
  have hsd : ¬ (SOCK_STREAM = SOCK_DGRAM) := by decide
  have hrecv : ∀ len address address_len, 0 < len →
      recvfrom fd len address address_len w = .error Stuck.null_deref := by
    intro len address address_len hlen
    have hl : ¬ len = 0 := by omega
    simp [recvfrom, get_socket_from_fd_some hg, hty, hst, hsd, hnull, hl, nonblock_of,
      Bind.bind, Except.bind]
  refine ⟨?_, hrecv, fun len hlen => hrecv len none none hlen⟩
  intro buf len
  simp [send, send_body, get_socket_from_fd_some hg, hty, hst, hsd, hnull, nonblock_of,
    Bind.bind, Except.bind]

/-- The lemma on the accepted handle 1 of `world_listener_closed`. -/
theorem detached_primary_null_deref_witness :
    send 1 [7] 1 world_listener_closed = .error Stuck.null_deref :=
  (detached_primary_null_deref 1 world_listener_closed 0 (by decide) (by decide) (by decide)
    (by decide)).1 [7] 1

/-! ## Claims -/

/-- C7: `socket` rejects an unsupported address family with EAFNOSUPPORT, then
an unsupported type with EPROTOTYPE, then a non-zero protocol with
EPROTONOSUPPORT; each time it returns -1 and changes nothing but `errno`: no
channel, no descriptor, no register, no script and no bus transfer. -/
theorem socket_rejects_bad_arguments (domain type protocol : Int) (w : World) :
    (domain ≠ (AF_INET : Int) →
      socket domain type protocol w = .ok (-1, { w with errno := some EAFNOSUPPORT })) ∧
    (domain = (AF_INET : Int) → type ≠ SOCK_STREAM → type ≠ SOCK_DGRAM → type ≠ SOCK_RAW →
      socket domain type protocol w = .ok (-1, { w with errno := some EPROTOTYPE })) ∧
    (domain = (AF_INET : Int) → (type = SOCK_STREAM ∨ type = SOCK_DGRAM ∨ type = SOCK_RAW) →
      protocol ≠ 0 →
      socket domain type protocol w = .ok (-1, { w with errno := some EPROTONOSUPPORT })) := by
  refine ⟨?_, ?_, ?_⟩
  · intro h
    simp [socket, h, set_errno]
  · intro h h1 h2 h3
    simp [socket, h, h1, h2, h3, set_errno]
  · intro h ht hp
    have : ¬ (type ≠ SOCK_STREAM ∧ type ≠ SOCK_DGRAM ∧ type ≠ SOCK_RAW) := by
      rcases ht with ht | ht | ht <;> simp [ht]
    simp [socket, h, this, hp, set_errno]

/-- The three rejections of `socket` at concrete arguments. -/
theorem socket_rejects_bad_arguments_witness :
    socket 10 SOCK_STREAM 0 (world_stream W5100_SOCK_STATE_NONE)
        = .ok (-1, { world_stream W5100_SOCK_STATE_NONE with errno := some EAFNOSUPPORT }) ∧
    socket (AF_INET : Int) 5 0 (world_stream W5100_SOCK_STATE_NONE)
        = .ok (-1, { world_stream W5100_SOCK_STATE_NONE with errno := some EPROTOTYPE }) ∧
    socket (AF_INET : Int) SOCK_DGRAM 17 (world_stream W5100_SOCK_STATE_NONE)
        = .ok (-1, { world_stream W5100_SOCK_STATE_NONE with errno := some EPROTONOSUPPORT }) :=
  ⟨(socket_rejects_bad_arguments 10 SOCK_STREAM 0 _).1 (by decide),
   (socket_rejects_bad_arguments (AF_INET : Int) 5 0 _).2.1 rfl (by decide) (by decide)
     (by decide),
   (socket_rejects_bad_arguments (AF_INET : Int) SOCK_DGRAM 17 _).2.2 rfl (Or.inr (Or.inl rfl))
     (by decide)⟩

/-- C1: on the failing input (connected stream socket, one byte to send, no
free TX space, status register CLOSED) `send` sees the hard disconnect (the
channel goes to DISCONNECTED, `errno` is ETIMEDOUT) and still returns the byte
count 0, not -1; when one byte went out before the disconnect it returns 1. -/
theorem send_hard_disconnect_returns_count :
    ret_of (send 0 [7] 1 world_send_disconnect) = some 0 ∧
    (world_of (send 0 [7] 1 world_send_disconnect)).map (fun w => w.errno)
      = some (some ETIMEDOUT) ∧
    (world_of (send 0 [7] 1 world_send_disconnect)).map (fun w => (sock w 0).state)
      = some W5100_SOCK_STATE_DISCONNECTED ∧
    ret_of (send 0 [7, 8] 2 world_send_disconnect_late) = some 1 ∧
    (world_of (send 0 [7, 8] 2 world_send_disconnect_late)).map (fun w => (sock w 0).state)
      = some W5100_SOCK_STATE_DISCONNECTED := by
  refine ⟨?_, ?_, ?_, ?_, ?_⟩ <;> rfl

/-- C8: the wrong-state rejections return 1, not -1: `bind` on a bound channel
(EINVAL), `listen` on a created one (EDESTADDRREQ), `accept` on a created one
(EINVAL), `recvfrom` and `send` on an unconnected stream channel (ENOTCONN). -/
theorem wrong_state_rejections_return_one :
    ret_of (bind 0 ⟨AF_INET, 80, 0⟩ (world_stream W5100_SOCK_STATE_BOUND)) = some 1 ∧
    (world_of (bind 0 ⟨AF_INET, 80, 0⟩ (world_stream W5100_SOCK_STATE_BOUND))).map
      (fun w => w.errno) = some (some EINVAL) ∧
    ret_of (listen 0 1 (world_stream W5100_SOCK_STATE_CREATED)) = some 1 ∧
    (world_of (listen 0 1 (world_stream W5100_SOCK_STATE_CREATED))).map
      (fun w => w.errno) = some (some EDESTADDRREQ) ∧
    (ret_of (accept 0 none none (world_stream W5100_SOCK_STATE_CREATED))).map
      (fun r => r.ret) = some 1 ∧
    (world_of (accept 0 none none (world_stream W5100_SOCK_STATE_CREATED))).map
      (fun w => w.errno) = some (some EINVAL) ∧
    (ret_of (recvfrom 0 4 none none (world_stream W5100_SOCK_STATE_CREATED))).map
      (fun r => r.ret) = some 1 ∧
    (world_of (recvfrom 0 4 none none (world_stream W5100_SOCK_STATE_CREATED))).map
      (fun w => w.errno) = some (some ENOTCONN) ∧
    ret_of (send 0 [1, 2, 3, 4] 4 (world_stream W5100_SOCK_STATE_CREATED)) = some 1 ∧
    (world_of (send 0 [1, 2, 3, 4] 4 (world_stream W5100_SOCK_STATE_CREATED))).map
      (fun w => w.errno) = some (some ENOTCONN) := by
  refine ⟨?_, ?_, ?_, ?_, ?_, ?_, ?_, ?_, ?_, ?_⟩ <;> rfl

/-- A close that is rejected.  Closing a handle that resolves to no channel,
or to a channel of which it is neither the attached primary nor the attached
accepted handle, returns -1 and changes nothing but `errno` (no channel field,
no descriptor, no register, no script, no bus transfer); `errno` is EBADF,
unless the lookup found a descriptor that is not a socket, which
`get_socket_from_fd` reports as ENOTSOCK.  And in a descriptor table that keeps
each handle in its own slot, a close of the same handle that follows any close
that returned is of that kind. -/
theorem close_rejected (fd : Int) (w : World) :
    (((get_socket_from_fd fd w).1 = none ∨
        ∃ si, (get_socket_from_fd fd w).1 = some si ∧
          ptr_fd_is w (sock w si).fd_data fd = false ∧
          ptr_fd_is w (sock w si).connection_data fd = false) →
      ∃ e, (e = EBADF ∨ e = ENOTSOCK) ∧
        (e = ENOTSOCK → ∃ k, file_struct_get fd w = some k ∧ (file w k).is_sock = false) ∧
        w5100_sock_close fd w = .ok (-1, { w with errno := some e })) ∧
    ((∀ j, j < w.files.length → (file w j).fd = fd → (j : Int) = fd) →
      ∀ r w1, w5100_sock_close fd w = .ok (r, w1) →
        ∃ e, (e = EBADF ∨ e = ENOTSOCK) ∧
          w5100_sock_close fd w1 = .ok (-1, { w1 with errno := some e })) := by
  have part1 : ∀ w : World, ((get_socket_from_fd fd w).1 = none ∨
        ∃ si, (get_socket_from_fd fd w).1 = some si ∧
          ptr_fd_is w (sock w si).fd_data fd = false ∧
          ptr_fd_is w (sock w si).connection_data fd = false) →
      ∃ e, (e = EBADF ∨ e = ENOTSOCK) ∧
        (e = ENOTSOCK → ∃ k, file_struct_get fd w = some k ∧ (file w k).is_sock = false) ∧
        w5100_sock_close fd w = .ok (-1, set_errno e w) := by
    intro w h
    rcases h with h | ⟨si, hg, h1, h2⟩
    · unfold get_socket_from_fd at h
      cases hf : file_struct_get fd w with
      | none =>
        refine ⟨EBADF, Or.inl rfl, by simp, ?_⟩
        simp [w5100_sock_close, get_socket_from_fd, hf]
      | some k =>
        simp only [hf] at h
        by_cases hs : (file w k).is_sock = true
        · cases hb : (file w k).backing with
          | none =>
            refine ⟨EBADF, Or.inl rfl, by simp, ?_⟩
            simp [w5100_sock_close, get_socket_from_fd, hf, hs, hb]
          | some i => simp [hs, hb] at h
        · refine ⟨ENOTSOCK, Or.inr rfl, fun _ => ⟨k, rfl, by simpa using hs⟩, ?_⟩
          simp [w5100_sock_close, get_socket_from_fd, hf, hs]
    · exact ⟨EBADF, Or.inl rfl, by simp, close_unattached hg h1 h2⟩
  refine ⟨fun h => part1 w h, ?_⟩
  intro hwf r w1 hc
  by_cases hat : ∃ si, (get_socket_from_fd fd w).1 = some si ∧
      (ptr_fd_is w (sock w si).fd_data fd = true
        ∨ ptr_fd_is w (sock w si).connection_data fd = true)
  · obtain ⟨si, hg, hat⟩ := hat
    have hfd := (get_socket_from_fd_range hg).1
    obtain ⟨k, hkf, hkl, hfiles⟩ := close_attached_files hg hat hc
    have hno := no_entry_after_free hwf hkf hfd hkl
    have hno1 : ∀ j, j < w1.files.length → (file w1 j).fd ≠ fd := by
      intro j hj
      have := hno j (by rw [← hfiles]; exact hj)
      unfold file at this ⊢
      rw [hfiles]
      exact this
    obtain ⟨e, he, hcl⟩ := close_of_no_entry hno1
    exact ⟨e, he, hcl⟩
  · have hpre : (get_socket_from_fd fd w).1 = none ∨
        ∃ si, (get_socket_from_fd fd w).1 = some si ∧
          ptr_fd_is w (sock w si).fd_data fd = false ∧
          ptr_fd_is w (sock w si).connection_data fd = false := by
      cases hg : (get_socket_from_fd fd w).1 with
      | none => exact Or.inl rfl
      | some si =>
        refine Or.inr ⟨si, rfl, ?_, ?_⟩
        · by_contra hx
          exact hat ⟨si, hg, Or.inl (by simpa using hx)⟩
        · by_contra hx
          exact hat ⟨si, hg, Or.inr (by simpa using hx)⟩
    obtain ⟨e, -, -, hcl⟩ := part1 w hpre
    rw [hcl] at hc
    simp only [Except.ok.injEq, Prod.mk.injEq] at hc
    obtain ⟨-, rfl⟩ := hc
    have hpre1 : (get_socket_from_fd fd (set_errno e w)).1 = none ∨
        ∃ si, (get_socket_from_fd fd (set_errno e w)).1 = some si ∧
          ptr_fd_is (set_errno e w) (sock (set_errno e w) si).fd_data fd = false ∧
          ptr_fd_is (set_errno e w) (sock (set_errno e w) si).connection_data fd = false := by
      rw [get_socket_from_fd_fst_congr (w := w) (u := set_errno e w) rfl]
      exact hpre
    obtain ⟨e2, he2, -, hcl2⟩ := part1 (set_errno e w) hpre1
    exact ⟨e2, he2, hcl2⟩

/-- The two parts of `close_rejected` at concrete inputs: the released handle 1
of `world_stale_handle`, and a second close of handle 0 after the close that
detached it. -/
theorem close_rejected_witness :
    w5100_sock_close 1 world_stale_handle
      = .ok (-1, { world_stale_handle with errno := some EBADF }) ∧
    (∀ r w1, w5100_sock_close 0 (world_stream W5100_SOCK_STATE_ACCEPTED) = .ok (r, w1) →
      ∃ e, (e = EBADF ∨ e = ENOTSOCK) ∧
        w5100_sock_close 0 w1 = .ok (-1, { w1 with errno := some e })) := by
  refine ⟨?_, ?_⟩
  · obtain ⟨e, he, hn, hcl⟩ := (close_rejected 1 world_stale_handle).1
      (Or.inr ⟨0, by decide, by decide, by decide⟩)
    rcases he with rfl | rfl
    · exact hcl
    · obtain ⟨k, hk, hs⟩ := hn rfl
      have hk1 : k = 1 := by
        have : file_struct_get 1 world_stale_handle = some 1 := by decide
        rw [this] at hk
        exact (Option.some.inj hk).symm
      subst hk1
      exact absurd hs (by decide)
  · exact (close_rejected 0 (world_stream W5100_SOCK_STATE_ACCEPTED)).2 (by
      intro j hj hf
      have hj0 : j = 0 := by
        have : (world_stream W5100_SOCK_STATE_ACCEPTED).files.length = 1 := rfl
        omega
      subst hj0
      rfl)

/-- C9 (as stated, refuted): on a raw socket `connect` fails with EAFNOSUPPORT,
`bind` and `sendto` with EBADF, `send` with EDESTADDRREQ and a non-blocking
`recvfrom` with EAGAIN; none of them sets EOPNOTSUPP.  A blocking `recvfrom`
without a receive timeout does not return at all. -/
theorem raw_socket_errno_is_not_eopnotsupp :
    ret_of (connect 0 ⟨AF_INET, 80, 1⟩ (world_raw O_RDWR)) = some (-1) ∧
    (world_of (connect 0 ⟨AF_INET, 80, 1⟩ (world_raw O_RDWR))).map (fun w => w.errno)
      = some (some EAFNOSUPPORT) ∧
    (world_of (bind 0 ⟨AF_INET, 80, 0⟩ (world_raw O_RDWR))).map (fun w => w.errno)
      = some (some EBADF) ∧
    (world_of (send 0 [1] 1 (world_raw O_RDWR))).map (fun w => w.errno)
      = some (some EDESTADDRREQ) ∧
    (world_of (sendto 0 [1] 1 (some ⟨AF_INET, 80, 1⟩) (world_raw O_RDWR))).map
      (fun w => w.errno) = some (some EBADF) ∧
    (world_of (recvfrom 0 1 none none (world_raw (O_RDWR ||| O_NONBLOCK)))).map
      (fun w => w.errno) = some (some EAGAIN) ∧
    ret_of (recvfrom 0 1 none none (world_raw O_RDWR)) = none := by
  refine ⟨?_, ?_, ?_, ?_, ?_, ?_, ?_⟩ <;> decide

/-- C9 (amended): on a handle of a raw socket `connect`, `send` and `sendto`
return -1 with `errno` EAFNOSUPPORT, EDESTADDRREQ and EBADF; `bind` of an
AF_INET address on the channel in CREATED state returns -1 with EBADF; and
`recvfrom` (hence `recv`) with `len > 0` in non-blocking mode returns -1 with
EAGAIN and stores no byte.  None of them changes anything but `errno`: no
data moves, no register is touched. -/
theorem raw_socket_operations_fail (fd : Int) (w : World) (si : Nat)
    (hg : (get_socket_from_fd fd w).1 = some si) (hraw : (sock w si).type = SOCK_RAW) :
    (∀ addr, connect fd addr w = .ok (-1, { w with errno := some EAFNOSUPPORT })) ∧
    (∀ buf len, send fd buf len w = .ok (-1, { w with errno := some EDESTADDRREQ })) ∧
    (∀ buf len dest, sendto fd buf len dest w = .ok (-1, { w with errno := some EBADF })) ∧
    (∀ addr, addr.sin_family = AF_INET → (sock w si).state = W5100_SOCK_STATE_CREATED →
      bind fd addr w = .ok (-1, { w with errno := some EBADF })) ∧
    (∀ len address address_len k, 0 < len → (sock w si).fd_data = some k →
      (file w k).status_flags &&& O_NONBLOCK ≠ 0 →
      recvfrom fd len address address_len w
        = .ok (⟨-1, [], address, address_len⟩, { w with errno := some EAGAIN }) ∧
      recv fd len w = .ok (⟨-1, [], none, none⟩, { w with errno := some EAGAIN })) := by
  have hgs := get_socket_from_fd_some hg
  have h1 : ¬ (sock w si).type = SOCK_STREAM := by rw [hraw]; decide
  have h2 : ¬ (sock w si).type = SOCK_DGRAM := by rw [hraw]; decide
  have hrecv : ∀ len address address_len k, 0 < len → (sock w si).fd_data = some k →
      (file w k).status_flags &&& O_NONBLOCK ≠ 0 →
      recvfrom fd len address address_len w
        = .ok (⟨-1, [], address, address_len⟩, set_errno EAGAIN w) := by
    intro len address address_len k hlen hk hnb
    have hl : ¬ len = 0 := by omega
    simp [recvfrom, hgs, h1, h2, hl, hk, nonblock_of, hnb, Bind.bind, Except.bind, pure,
      Except.pure, recvfrom_loop, recvfrom_wait]
  refine ⟨?_, ?_, ?_, ?_, ?_⟩
  · intro addr
    simp [connect, hgs, h1, h2, set_errno]
  · intro buf len
    simp [send, send_body, hgs, h1, h2, set_errno]
  · intro buf len dest
    simp [sendto, sendto_body, hgs, h1, h2, set_errno]
  · intro addr ha hs
    simp [bind, hgs, h1, h2, ha, hs, set_errno]
  · intro len address address_len k hlen hk hnb
    exact ⟨hrecv len address address_len k hlen hk hnb, hrecv len none none k hlen hk hnb⟩

/-- The raw-socket failures on the non-blocking raw socket `world_raw`. -/
theorem raw_socket_operations_fail_witness :
    connect 0 ⟨AF_INET, 80, 1⟩ (world_raw (O_RDWR ||| O_NONBLOCK))
      = .ok (-1, { world_raw (O_RDWR ||| O_NONBLOCK) with errno := some EAFNOSUPPORT }) ∧
    recvfrom 0 4 none none (world_raw (O_RDWR ||| O_NONBLOCK))
      = .ok (⟨-1, [], none, none⟩,
          { world_raw (O_RDWR ||| O_NONBLOCK) with errno := some EAGAIN }) :=
  ⟨(raw_socket_operations_fail 0 (world_raw (O_RDWR ||| O_NONBLOCK)) 0 (by decide)
      (by decide)).1 _,
   ((raw_socket_operations_fail 0 (world_raw (O_RDWR ||| O_NONBLOCK)) 0 (by decide)
      (by decide)).2.2.2.2 4 none none 0 (by decide) (by decide) (by decide)).1⟩

/-- C3: `accept` on a listening stream channel whose status register reads
ESTABLISHED, with a free descriptor slot: it returns a new handle, distinct
from the listening handle `fd`; the channel goes from LISTENING to ACCEPTED;
the new handle's descriptor is recorded as the accepted connection and points
back at the channel; the primary handle stays attached and open; no other
channel changes; and a poll on the listening handle that follows (the chip
answering its register reads) returns without the invalid flag. -/
theorem accept_established (fd : Int) (w : World) (si : Nat) (addr : Option sockaddr_in)
    (addrlen : Option Nat) (v : Nat) (rest : List Nat) (j : Nat)
    (hg : (get_socket_from_fd fd w).1 = some si)
    (hst : (sock w si).state = W5100_SOCK_STATE_LISTENING)
    (hty : (sock w si).type = SOCK_STREAM)
    (hprim : (sock w si).fd_data = some fd.toNat)
    (hfd : (file w fd.toNat).fd = fd)
    (hopen : (file w fd.toNat).isopen = true)
    (hsr : w.feed W5100_Sn_SR (sock w si).isocket = v :: rest)
    (hv : v % 256 = W5100_SOCK_ESTABLISHED)
    (hj : j < w.files.length) (hfree : (file w j).fd = -1) :
    ∃ res w1, accept fd addr addrlen w = .ok (res, w1) ∧
      0 ≤ res.ret ∧ res.ret ≠ fd ∧
      (sock w1 si).state = W5100_SOCK_STATE_ACCEPTED ∧
      (sock w1 si).connection_data = some res.ret.toNat ∧
      (file w1 res.ret.toNat).fd = res.ret ∧
      (file w1 res.ret.toNat).isopen = true ∧
      (file w1 res.ret.toNat).backing = some (sock w si).isocket ∧
      (sock w1 si).fd_data = some fd.toNat ∧
      (file w1 fd.toNat).fd = fd ∧ (file w1 fd.toNat).isopen = true ∧
      w1.w5100_sockets.length = w.w5100_sockets.length ∧
      (∀ i, i ≠ si → sock w1 i = sock w i) ∧
      (∀ v2 rest2 a ra b rb, rest = v2 :: rest2 →
        w.feed W5100_Sn_RX_RSR (sock w si).isocket = a :: ra →
        w.feed W5100_Sn_TX_FSR (sock w si).isocket = b :: rb →
        ∃ r w2, w5100_sock_poll fd w1 = .ok (r, w2) ∧ r &&& POLLNVAL = 0) := by
  have hgs := get_socket_from_fd_some hg
  obtain ⟨hfd0, hfdl, hsock, hback⟩ := get_socket_from_fd_range hg
  have hsi : si < w.w5100_sockets.length := sock_in_range (by rw [hst]; decide)
  obtain ⟨n, hn⟩ := first_free_file_exists hj (by simpa [file] using hfree)
  obtain ⟨hnl, hnf, -⟩ := first_free_file_some hn
  have hnf2 : (file w n).fd = -1 := by simpa [file] using hnf
  have hne : n ≠ fd.toNat := by
    intro h
    rw [h, hfd] at hnf2
    omega
  have hne2 : ¬ fd.toNat = n := fun h => hne h.symm
  have hnfd : (n : Int) ≠ fd := by omega
  -- the state `accept` leaves
  let wA := set_feed w W5100_Sn_SR (sock w si).isocket rest
  let wB := upd_file wA n (fun f => { f with fd := (n : Int) })
  let wC := upd_sock wB si (fun s => { s with state := W5100_SOCK_STATE_ACCEPTED })
  let wD := upd_file wC n (fun f =>
    { f with isopen := true, is_sock := true, status_flags := O_RDWR,
             backing := some (sock w si).isocket })
  let wE := upd_sock wD si (fun s => { s with connection_data := some n })
  have hacc : ∃ res, accept fd addr addrlen w = .ok (res, wE) ∧ res.ret = (n : Int) := by
    have hread := read_sock_reg_cons (r := W5100_Sn_SR) (w := w) rfl hsr
    have hfa : file_alloc wA = ((n : Int), wB) := file_alloc_some (w := wA) hn
    have hn1 : ¬ ((n : Int) = -1) := by omega
    have hfill : fill_fd_struct (n : Int) (sock w si).isocket wC = .ok (n, wD) := by
      simp only [fill_fd_struct]
      rw [file_struct_get_nat (by simpa [wC, wB, wA] using hnl)]
    cases addr with
    | none =>
      simp only [accept, hgs, hst, hty, hprim, nonblock_of, ne_eq, not_true_eq_false,
        if_false, Bind.bind, Except.bind, accept_loop, hread, hv, if_true, hfa, hn1,
        sock_set_feed, sock_upd_file, hfill, pure, Except.pure]
      exact ⟨_, rfl, rfl⟩
    | some client =>
      simp only [accept, hgs, hst, hty, hprim, nonblock_of, ne_eq, not_true_eq_false,
        if_false, Bind.bind, Except.bind, accept_loop, hread, hv, if_true, hfa, hn1,
        sock_set_feed, sock_upd_file, hfill, pure, Except.pure,
        read_sock_regx32_stored _ _ (rfl : W5100_Sn_DIPR.volatile = false),
        read_sock_regx_stored _ _ (rfl : W5100_Sn_DPORT.volatile = false)]
      exact ⟨_, rfl, rfl⟩
  obtain ⟨res, hres, hret⟩ := hacc
  have hsE : sock wE si =
      { sock w si with state := W5100_SOCK_STATE_ACCEPTED, connection_data := some n } := by
    simp [wE, wD, wC, wB, wA, sock_upd_sock, hsi]
  have hfn : file wE n = ⟨(n : Int), true, true, O_RDWR, some (sock w si).isocket⟩ := by
    simp [wE, wD, wC, wB, wA, file_upd_file, hnl]
  have hff : file wE fd.toNat = file w fd.toNat := by
    simp [wE, wD, wC, wB, wA, file_upd_file, hne2]
  have hlen : wE.files.length = w.files.length := by simp [wE, wD, wC, wB, wA]
  have hn0 : (n : Int).toNat = n := by simp
  refine ⟨res, wE, hres, by rw [hret]; omega, by rw [hret]; exact hnfd, ?_, ?_, ?_, ?_, ?_, ?_,
    ?_, ?_, ?_, ?_, ?_⟩
  · rw [hsE]
  · rw [hsE, hret, hn0]
  · rw [hret, hn0, hfn]
  · rw [hret, hn0, hfn]
  · rw [hret, hn0, hfn]
  · rw [hsE]; exact hprim
  · rw [hff]; exact hfd
  · rw [hff]; exact hopen
  · simp [wE, wD, wC, wB, wA, upd_sock]
  · intro i hi
    simp [wE, wD, wC, wB, wA, sock_upd_sock, hi]
  · intro v2 rest2 a ra b rb hrest hrsr hfsr
    have hgE : (get_socket_from_fd fd wE).1 = some si := by
      rw [get_socket_from_fd_fst_entry hlen hff]; exact hg
    have hgsE := get_socket_from_fd_some hgE
    have hsrE : wE.feed W5100_Sn_SR (sock w si).isocket = v2 :: rest2 := by
      simp [wE, wD, wC, wB, wA, hrest]
    have hrsrE : ∀ l, (set_feed wE W5100_Sn_SR (sock w si).isocket l).feed W5100_Sn_RX_RSR
        (sock w si).isocket = a :: ra := by
      intro l; simp [wE, wD, wC, wB, wA, hrsr]
    have hfsrE : ∀ l l2, (set_feed (set_feed wE W5100_Sn_SR (sock w si).isocket l)
        W5100_Sn_RX_RSR (sock w si).isocket l2).feed W5100_Sn_TX_FSR
        (sock w si).isocket = b :: rb := by
      intro l l2; simp [wE, wD, wC, wB, wA, hfsr]
    have hread := read_sock_reg_cons (r := W5100_Sn_SR) (w := wE) rfl hsrE
    simp only [w5100_sock_poll, hgsE, hsE, hty, Bind.bind, Except.bind, hread]
    by_cases hv2 : v2 % 256 = W5100_SOCK_ESTABLISHED
    · have h1 := read_sock_regx_cons (r := W5100_Sn_RX_RSR) rfl (hrsrE rest2)
      have h2 := read_sock_regx_cons (r := W5100_Sn_TX_FSR) rfl (hfsrE rest2 ra)
      simp only [hv2, w5100_sock_poll_rw, read_buf_len, write_buf_len, Bind.bind, Except.bind,
        h1, h2, pure, Except.pure]
      simp only [reduceCtorEq, if_false, true_and, or_true, if_true, ne_eq, not_true_eq_false]
      refine ⟨_, _, rfl, ?_⟩
      have := poll_rw_not_invalid (decide (ntohs (a % 65536) > 0)) (decide (ntohs (b % 65536) > 0))
      simpa using this
    · simp only [hv2, reduceCtorEq, if_false, true_and, or_true, if_true, ne_eq,
        not_false_eq_true, pure, Except.pure]
      exact ⟨_, _, rfl, by decide⟩

/-- The accept theorem on `world_listen_pending`: handle 0 listens, the new
handle is 1. -/
theorem accept_established_witness :
    (ret_of (accept 0 none none world_listen_pending)).map (fun r => r.ret) = some 1 ∧
    ∃ res w1, accept 0 none none world_listen_pending = .ok (res, w1) ∧ res.ret ≠ 0 ∧
      (sock w1 0).state = W5100_SOCK_STATE_ACCEPTED ∧
      ∃ r w2, w5100_sock_poll 0 w1 = .ok (r, w2) ∧ r &&& POLLNVAL = 0 := by
  refine ⟨by decide, ?_⟩
  obtain ⟨res, w1, h, -, h2, h3, -, -, -, -, -, -, -, -, -, hp⟩ :=
    accept_established 0 world_listen_pending 0 none none W5100_SOCK_ESTABLISHED
      [W5100_SOCK_ESTABLISHED] 1 (by decide) (by decide) (by decide) (by decide) (by decide)
      (by decide) (by decide) (by decide) (by decide) (by decide)
  exact ⟨res, w1, h, h2, h3, hp W5100_SOCK_ESTABLISHED [] (htons 5) [] (htons 2048) [] rfl
    (by decide) (by decide)⟩

/-- C4: a channel in ACCEPTED state with its listening handle `fl` and its
accepted handle `fa` both attached.  When the chip acknowledges the commands
and reaches the awaited statuses: closing `fa` returns 0 and leaves the channel
allocated, in LISTENING state, with the primary handle attached and the
accepted slot cleared; closing `fl` and then `fa` returns 0 both times and
leaves the channel free, in NONE state, with both ownership slots cleared. -/
theorem close_accept_handoff (fl fa : Int) (w : World) (si : Nat)
    (hgl : (get_socket_from_fd fl w).1 = some si)
    (hga : (get_socket_from_fd fa w).1 = some si)
    (hst : (sock w si).state = W5100_SOCK_STATE_ACCEPTED)
    (hiso : (sock w si).isocket = si)
    (halloc : (sock w si).fd ≠ W5100_SOCKET_FREE)
    (hprim : (sock w si).fd_data = some fl.toNat) (hfl : (file w fl.toNat).fd = fl)
    (hacc : (sock w si).connection_data = some fa.toNat) (hfa : (file w fa.toNat).fd = fa)
    (hne : fl ≠ fa) :
    (awaits [cmd_done, cmd_done, cmd_done] (w.feed W5100_Sn_CR si) = true →
      awaits [sr_closed, sr_listen] (w.feed W5100_Sn_SR si) = true →
      ∃ w1, w5100_sock_close fa w = .ok (0, w1) ∧
        (sock w1 si).state = W5100_SOCK_STATE_LISTENING ∧
        (sock w1 si).fd ≠ W5100_SOCKET_FREE ∧
        (sock w1 si).fd_data = some fl.toNat ∧ (file w1 fl.toNat).fd = fl ∧
        (sock w1 si).connection_data = none) ∧
    (awaits [cmd_done] (w.feed W5100_Sn_CR si) = true →
      awaits [sr_closed] (w.feed W5100_Sn_SR si) = true →
      ∃ w1 w2, w5100_sock_close fl w = .ok (0, w1) ∧ w5100_sock_close fa w1 = .ok (0, w2) ∧
        (sock w2 si).fd = W5100_SOCKET_FREE ∧
        (sock w2 si).state = W5100_SOCK_STATE_NONE ∧
        (sock w2 si).fd_data = none ∧ (sock w2 si).connection_data = none) := by
  have hsi : si < w.w5100_sockets.length := sock_in_range (by rw [hst]; decide)
  obtain ⟨hfl0, hfll, -, -⟩ := get_socket_from_fd_range hgl
  obtain ⟨hfa0, hfal, hfas, hfab⟩ := get_socket_from_fd_range hga
  have hnt : ¬ fa.toNat = fl.toNat := by omega
  have hnt2 : ¬ fl.toNat = fa.toNat := by omega
  have hgsa := get_socket_from_fd_some hga
  have hgsl := get_socket_from_fd_some hgl
  have p1 : ptr_fd_is w (some fl.toNat) fa = false := by
    simp [ptr_fd_is, hfl, hne]
  have p2 : ptr_fd_is w (some fa.toNat) fa = true := by
    simp [ptr_fd_is, hfa]
  have p3 : ptr_fd_is w (some fl.toNat) fl = true := by
    simp [ptr_fd_is, hfl]
  refine ⟨?_, ?_⟩
  · intro hcr hsr
    obtain ⟨v1, r1, ha1, hcr⟩ := awaits_cons hcr
    obtain ⟨v2, r2, ha2, hcr⟩ := awaits_cons hcr
    obtain ⟨v3, r3, ha3, -⟩ := awaits_cons hcr
    obtain ⟨s1, q1, hb1, hsr⟩ := awaits_cons hsr
    obtain ⟨s2, q2, hb2, -⟩ := awaits_cons hsr
    simp only [w5100_sock_close, hgsa, hprim, p1, hacc, p2, Bool.false_eq_true, if_false,
      if_true, reduceCtorEq, Option.getD_some, hiso]
    generalize hW0 : upd_sock (file_free
        (file (upd_file w fa.toNat (fun f => { f with isopen := false })) fa.toNat).fd
        (upd_file w fa.toNat (fun f => { f with isopen := false }))) si
        (fun s => { s with connection_data := none }) = W0
    have hW0s : sock W0 si = { sock w si with connection_data := none } := by
      rw [← hW0, sock_upd_sock]; simp [hsi]
    have hW0f : ∀ k, file W0 k = if k = fa.toNat then
        { file w fa.toNat with isopen := false, fd := -1 } else file w k := by
      intro k; rw [← hW0, file_upd_sock, file_after_detach hfa0 hfal hfa]
    have hW0feed : W0.feed = w.feed := by rw [← hW0]; simp
    obtain ⟨W1, hc1, hf1, hg1, hs1, hfi1, -, -⟩ :=
      command_step (w := W0) W5100_CMD_DISCON (by rw [hW0feed]; exact ha1)
    obtain ⟨W2, hc2, hf2, hg2, hs2, hfi2, -, -⟩ :=
      wait_step (w := W1) (p := sr_closed)
        (by rw [hg1 _ _ (by decide), hW0feed]; exact hb1)
    obtain ⟨W3, hc3, hf3, hg3, hs3, hfi3, -, -⟩ :=
      command_step (w := W2) W5100_CMD_OPEN (by rw [hg2 _ _ (by decide), hf1]; exact ha2)
    obtain ⟨W4, hc4, hf4, hg4, hs4, hfi4, -, -⟩ :=
      command_step (w := W3) W5100_CMD_LISTEN (by rw [hf3]; exact ha3)
    have hW4s : sock W4 si = sock W0 si := by
      rw [sock_congr hs4, sock_congr hs3, sock_congr hs2, sock_congr hs1]
    obtain ⟨W5, hc5, hf5, hg5, hs5, hfi5, -, -⟩ :=
      wait_step (w := W4) (i := si) (p := sr_listen)
        (by rw [hg4 _ _ (by decide), hg3 _ _ (by decide), hf2]; exact hb2)
    have hi4 : (sock W4 si).isocket = si := by rw [hW4s, hW0s]; exact hiso
    simp only [Bind.bind, Except.bind, hc1, hc2, hc3, hc4, hi4, hc5, pure, Except.pure]
    have hW5s : sock W5 si = sock W0 si := by rw [sock_congr hs5, hW4s]
    have hlen5 : si < W5.w5100_sockets.length := by
      rw [hs5, hs4, hs3, hs2, hs1, ← hW0]; simpa using hsi
    refine ⟨_, rfl, ?_, ?_, ?_, ?_, ?_⟩
    · rw [sock_upd_sock]; simp [hlen5]
    · rw [sock_upd_sock]; simp [hlen5, hW5s, hW0s]; exact halloc
    · rw [sock_upd_sock]; simp [hlen5, hW5s, hW0s]; exact hprim
    · rw [file_upd_sock, file_congr hfi5, file_congr hfi4, file_congr hfi3, file_congr hfi2,
        file_congr hfi1, hW0f]
      simp [hnt2, hfl]
    · rw [sock_upd_sock]; simp [hlen5, hW5s, hW0s]
  · intro hcr hsr
    obtain ⟨v1, r1, ha1, -⟩ := awaits_cons hcr
    obtain ⟨s1, q1, hb1, -⟩ := awaits_cons hsr
    have hstn : ¬ (sock w si).state ≠ W5100_SOCK_STATE_ACCEPTED := by simp [hst]
    -- the first close only detaches the listening handle
    have hfirst : w5100_sock_close fl w = .ok (0, upd_sock (file_free
        (file (upd_file w fl.toNat (fun f => { f with isopen := false })) fl.toNat).fd
        (upd_file w fl.toNat (fun f => { f with isopen := false }))) si
        (fun s => { s with fd_data := none })) := by
      simp only [w5100_sock_close, hgsl, hprim, p3, if_true, Option.getD_some]
      rw [if_neg hstn]
      rfl
    generalize hM : upd_sock (file_free
        (file (upd_file w fl.toNat (fun f => { f with isopen := false })) fl.toNat).fd
        (upd_file w fl.toNat (fun f => { f with isopen := false }))) si
        (fun s => { s with fd_data := none }) = M at hfirst
    have hMs : sock M si = { sock w si with fd_data := none } := by
      rw [← hM, sock_upd_sock]; simp [hsi]
    have hMf : ∀ k, file M k = if k = fl.toNat then
        { file w fl.toNat with isopen := false, fd := -1 } else file w k := by
      intro k; rw [← hM, file_upd_sock, file_after_detach hfl0 hfll hfl]
    have hMfeed : M.feed = w.feed := by rw [← hM]; simp
    have hMlen : M.files.length = w.files.length := by rw [← hM]; simp
    have hMslen : M.w5100_sockets.length = w.w5100_sockets.length := by rw [← hM]; simp
    have hMfa : file M fa.toNat = file w fa.toNat := by rw [hMf]; simp [hnt]
    have hgM : (get_socket_from_fd fa M).1 = some si := by
      rw [get_socket_from_fd_fst_entry hMlen hMfa]; exact hga
    have hgsM := get_socket_from_fd_some hgM
    have q1' : ptr_fd_is M none fa = false := rfl
    have q2' : ptr_fd_is M (some fa.toNat) fa = true := by
      simp [ptr_fd_is, hMfa, hfa]
    generalize hN0 : upd_sock (file_free
        (file (upd_file M fa.toNat (fun f => { f with isopen := false })) fa.toNat).fd
        (upd_file M fa.toNat (fun f => { f with isopen := false }))) si
        (fun s => { s with connection_data := none }) = N0
    have hN0s : sock N0 si = { sock w si with fd_data := none, connection_data := none } := by
      rw [← hN0, sock_upd_sock]; simp [hMslen, hsi, hMs]
    have hN0feed : N0.feed = w.feed := by rw [← hN0]; simp [hMfeed]
    have hN0len : N0.w5100_sockets.length = w.w5100_sockets.length := by
      rw [← hN0]; simp [hMslen]
    obtain ⟨N1, hc1, hf1, hg1, hs1, hfi1, -, -⟩ :=
      command_step (w := N0) (i := si) W5100_CMD_DISCON (by rw [hN0feed]; exact ha1)
    obtain ⟨N2, hc2, hf2, hg2, hs2, hfi2, -, -⟩ :=
      wait_step (w := N1) (i := si) (p := sr_closed)
        (by rw [hg1 _ _ (by decide), hN0feed]; exact hb1)
    have hN2s : sock N2 si = sock N0 si := by rw [sock_congr hs2, sock_congr hs1]
    have hlen2 : si < N2.w5100_sockets.length := by rw [hs2, hs1, hN0len]; exact hsi
    refine ⟨M, socket_free si N2, hfirst, ?_, ?_, ?_, ?_, ?_⟩
    · simp only [w5100_sock_close, hgsM, hMs, hacc, q1', q2', Bool.false_eq_true, if_false,
        if_true, reduceCtorEq, Option.getD_some, hiso, hN0, Bind.bind, Except.bind, hc1, hc2,
        pure, Except.pure]
    · rw [sock_socket_free]; simp [hlen2]
    · rw [sock_socket_free]; simp [hlen2]
    · rw [sock_socket_free]; simp [hlen2]
    · rw [sock_socket_free]; simp [hlen2]

/-- The hand-off theorem on `world_accepted`: handle 0 listens, handle 1 is the
accepted connection. -/
theorem close_accept_handoff_witness :
    ret_of (w5100_sock_close 1 world_accepted) = some 0 ∧
    (∃ w1, w5100_sock_close 1 world_accepted = .ok (0, w1) ∧
      (sock w1 0).state = W5100_SOCK_STATE_LISTENING ∧ (sock w1 0).connection_data = none) ∧
    (∃ w1 w2, w5100_sock_close 0 world_accepted = .ok (0, w1) ∧
      w5100_sock_close 1 w1 = .ok (0, w2) ∧ (sock w2 0).state = W5100_SOCK_STATE_NONE) := by
  have h := close_accept_handoff 0 1 world_accepted 0 (by decide) (by decide) (by decide)
    (by decide) (by decide) (by decide) (by decide) (by decide) (by decide) (by decide)
  refine ⟨by decide, ?_, ?_⟩
  · obtain ⟨w1, h1, h2, -, -, -, h3⟩ := h.1 (by decide) (by decide)
    exact ⟨w1, h1, h2, h3⟩
  · obtain ⟨w1, w2, h1, h2, -, h3, -, -⟩ := h.2 (by decide) (by decide)
    exact ⟨w1, w2, h1, h2, h3⟩

/-- C10: `recvfrom` with `len > 0` on a datagram socket in CREATED or BOUND
state, when the RX size register reads at least 8 and the chip acknowledges the
RECV command (in blocking mode with a receive timeout the clock is read once).
With `i` the channel, `p` the read pointer and `m` the number that ring bytes
`p + 6` and `p + 7` encode big-endian: it returns `m`, stores `m` bytes in
`buf` (the ring bytes from `p + 8` on, when `m` fits the window), stores ring
bytes `p .. p + 3` as the address and `p + 4, p + 5` as the port of the
caller's address when both `address` and `address_len` are supplied, and
commits the pointer `p + 8 + m (mod 2^16)` followed by exactly one RECV
command, the only register writes of the call. -/
theorem recvfrom_datagram (fd : Int) (w : World) (si len k i p m : Nat)
    (address : Option sockaddr_in) (address_len : Option Nat) (v : Nat) (rest : List Nat)
    (hg : (get_socket_from_fd fd w).1 = some si)
    (hty : (sock w si).type = SOCK_DGRAM)
    (hst : (sock w si).state = W5100_SOCK_STATE_CREATED
      ∨ (sock w si).state = W5100_SOCK_STATE_BOUND)
    (hlen : 0 < len)
    (hk : (sock w si).fd_data = some k)
    (hclock : (file w k).status_flags &&& O_NONBLOCK ≠ 0 ∨ (sock w si).recv_timeout = 0
      ∨ w.clock ≠ [])
    (hi : i = (sock w si).isocket)
    (hwin : W5100_RX_MEM_BASE + get_rx_size i * (i + 1) ≤ 65536)
    (hrsr : w.feed W5100_Sn_RX_RSR i = v :: rest)
    (hv : 8 ≤ ntohs (v % 65536))
    (hack : awaits [cmd_done] (w.feed W5100_Sn_CR i) = true)
    (hp : p = ntohs (w.regs W5100_Sn_RX_RD i % 65536))
    (hm : m = rx_ring_byte w i (p + 6) * 256 + rx_ring_byte w i (p + 7)) :
    ∃ res w1 reads, recvfrom fd len address address_len w = .ok (res, w1) ∧
      res.ret = (m : Int) ∧ res.buf.length = m ∧
      (m ≤ 2048 → ∀ n, n < m → res.buf.getD n 0 = rx_ring_byte w i (p + 8 + n)) ∧
      (∀ peer alen, address = some peer → address_len = some alen →
        res.address = some { peer with
          sin_addr := le32 (rx_ring_byte w i p) (rx_ring_byte w i (p + 1))
            (rx_ring_byte w i (p + 2)) (rx_ring_byte w i (p + 3))
          sin_port := le16 (rx_ring_byte w i (p + 4)) (rx_ring_byte w i (p + 5)) } ∧
        res.address_len = some 16) ∧
      ((address = none ∨ address_len = none) →
        res.address = address ∧ res.address_len = address_len) ∧
      (∀ op ∈ reads, ∃ a n, op = BusOp.rmem a n) ∧
      w1.bus = w.bus ++ reads ++
        [BusOp.wreg W5100_Sn_RX_RD i (htons ((p + 8 + m) % 65536)),
          BusOp.wreg W5100_Sn_CR i W5100_CMD_RECV] ∧
      w1.regs W5100_Sn_RX_RD i = htons ((p + 8 + m) % 65536) ∧
      w1.w5100_sockets = w.w5100_sockets ∧ w1.errno = w.errno := by
  have hgs := get_socket_from_fd_some hg
  have hnot : ¬ (sock w si).type = SOCK_STREAM := by rw [hty]; decide
  have hl0 : ¬ len = 0 := by omega
  have hc2 : ¬ ((sock w si).type = SOCK_DGRAM ∧ (sock w si).state ≠ W5100_SOCK_STATE_BOUND
      ∧ (sock w si).state ≠ W5100_SOCK_STATE_CREATED) := by
    rcases hst with h | h <;> simp [h]
  -- the prelude: the loop starts in a state that differs from `w` in the clock at most
  have hpre : ∃ nb tom fuel u, recvfrom fd len address address_len w
        = recvfrom_loop si len address address_len nb tom (fuel + 1) u ∧
      u.w5100_sockets = w.w5100_sockets ∧ u.feed = w.feed ∧ u.regs = w.regs ∧
      u.mem = w.mem ∧ u.bus = w.bus ∧ u.errno = w.errno := by
    simp only [recvfrom, hgs, hnot, false_and, if_false, hc2, hl0, hk, nonblock_of, Bind.bind,
      Except.bind]
    by_cases hb : ((file w k).status_flags &&& O_NONBLOCK != 0) = true
    · simp only [hb, Bool.not_true, Bool.false_eq_true, if_false, pure, Except.pure]
      exact ⟨_, _, _, _, rfl, rfl, rfl, rfl, rfl, rfl, rfl⟩
    · have hb' : ((file w k).status_flags &&& O_NONBLOCK != 0) = false := by simpa using hb
      simp only [hb', Bool.not_false, if_true]
      by_cases ht : (sock w si).recv_timeout = 0
      · simp only [timeout_init, ht, timespec_diff]
        exact ⟨_, _, _, _, rfl, rfl, rfl, rfl, rfl, rfl, rfl⟩
      · have hcl : w.clock ≠ [] := by
          rcases hclock with h | h | h
          · exact absurd (by simpa using h) hb
          · exact absurd h ht
          · exact h
        obtain ⟨t, ct, hct⟩ := List.exists_cons_of_ne_nil hcl
        have htd : timespec_diff 0 (sock w si).recv_timeout ≠ 0 := by
          unfold timespec_diff; omega
        simp only [timeout_init, htd, ne_eq, not_false_eq_true, if_true, clock_gettime, hct,
          Bind.bind, Except.bind, pure, Except.pure]
        exact ⟨_, _, _, _, rfl, rfl, rfl, rfl, rfl, rfl, rfl⟩
  obtain ⟨nb, tom, fuel, u, hrun, hus, huf, hur, hum, hub, hue⟩ := hpre
  have hsu : sock u si = sock w si := sock_congr hus si
  have hiu : (sock u si).isocket = i := by rw [hsu, hi]
  -- the two ring reads and the command
  obtain ⟨⟨⟨header, p8⟩, uB⟩, hA⟩ : ∃ x, read_buf_sure i 8 p
      (set_feed u W5100_Sn_RX_RSR i rest) = x := ⟨_, rfl⟩
  obtain ⟨⟨⟨bytes, p9⟩, uC⟩, hB⟩ : ∃ x, read_buf_sure i
      (ntohs (le16 (header.getD 6 0) (header.getD 7 0))) p8 uB = x := ⟨_, rfl⟩
  have hhead : header = (List.range 8).map (fun n => rx_ring_byte w i (p + n)) := by
    have := read_buf_sure_content i 8 p (set_feed u W5100_Sn_RX_RSR i rest) (by decide) hwin
    rw [hA] at this
    simpa [rx_ring_byte, get_rx_size, hum] using this
  have hp8 : p8 = (p + 8) % 65536 := by
    have := (read_buf_sure_length i 8 p (set_feed u W5100_Sn_RX_RSR i rest) (by decide)).2
    rw [hA] at this
    exact this
  obtain ⟨reads1, hr1, hw1⟩ := read_buf_sure_world i 8 p (set_feed u W5100_Sn_RX_RSR i rest)
  rw [hA] at hw1
  simp only at hw1
  have hbyte : ∀ q, rx_ring_byte w i q < 256 := fun q => Nat.mod_lt _ (by decide)
  have hmlen : ntohs (le16 (header.getD 6 0) (header.getD 7 0)) = m := by
    rw [hhead, hm, ntohs_le16 _ _ (by simpa using hbyte _) (by simpa using hbyte _)]
    simp
  rw [hmlen] at hB
  have hm16 : m < 65536 := by rw [← hmlen]; exact ntohs_lt _
  have hblen := read_buf_sure_length i m p8 uB hm16
  rw [hB] at hblen
  simp only at hblen
  obtain ⟨reads2, hr2, hw2⟩ := read_buf_sure_world i m p8 uB
  rw [hB] at hw2
  simp only at hw2
  have hp9 : p9 = (p + 8 + m) % 65536 := by rw [hblen.2, hp8]; omega
  obtain ⟨c, r1, hawait, -⟩ := awaits_cons hack
  have hfeedC : (w5100_write_sock_reg W5100_Sn_RX_RD i (htons p9) uC).feed W5100_Sn_CR i
      = w.feed W5100_Sn_CR i := by
    rw [write_reg_feed, hw2, hw1]; simp [huf]
  obtain ⟨uD, hC, -, -, hDs, -, hDe, hDb⟩ :=
    command_step (w := w5100_write_sock_reg W5100_Sn_RX_RD i (htons p9) uC) (i := i)
      W5100_CMD_RECV (by rw [hfeedC]; exact hawait)
  have hround := dgram_round_eq si len address address_len nb tom fuel u v rest header bytes
    p8 p9 uB uC uD (by rw [hsu]; exact hty) (by rw [hiu, huf]; exact hrsr) hv
    (by rw [hiu, hur, ← hp]; exact hA) (by rw [hiu, hmlen]; exact hB) (by rw [hiu]; exact hC)
  rw [hmlen] at hround
  have hget : ∀ n, n < 8 → header.getD n 0 = rx_ring_byte w i (p + n) := by
    intro n hn
    rw [hhead]
    simp [List.getD_eq_getElem?_getD, List.getElem?_map, List.getElem?_range hn]
  refine ⟨_, uD, reads1 ++ reads2, hrun.trans hround, rfl, hblen.1, ?_, ?_, ?_, ?_, ?_, ?_, ?_, ?_⟩
  · intro hm2 n hn
    have hcont := read_buf_sure_content i m p8 uB hm2 hwin
    rw [hB] at hcont
    simp only at hcont
    show bytes.getD n 0 = _
    rw [hcont]
    have hmem : uB.mem = w.mem := by rw [hw1]; simp [hum]
    have hq : (p8 + n) % 2048 = (p + 8 + n) % 2048 := by rw [hp8]; omega
    simp [List.getD_eq_getElem?_getD, List.getElem?_map, List.getElem?_range hn, rx_ring_byte,
      get_rx_size, hmem, hq]
  · intro peer alen ha hal
    subst ha hal
    have hget2 : ∀ n, n < 8 → header[n]?.getD 0 = rx_ring_byte w i (p + n) := by
      intro n hn
      rw [← List.getD_eq_getElem?_getD]
      exact hget n hn
    simp [hget2 0 (by decide), hget2 1 (by decide), hget2 2 (by decide), hget2 3 (by decide),
      hget2 4 (by decide), hget2 5 (by decide)]
  · intro hnone
    rcases hnone with h | h <;> simp [h]
  · intro op hop
    rcases List.mem_append.1 hop with h | h
    · exact hr1 op h
    · exact hr2 op h
  · rw [hDb, write_reg_bus, hw2, hw1, hp9]
    simp [hub]
  · obtain ⟨rr, hrr⟩ := w5100_command_ok hC
    rw [hrr, hp9]
    simp [write_reg_regs]
  · rw [hDs, write_reg_sockets, hw2, hw1]
    simp [hus]
  · rw [hDe, write_reg_errno, hw2, hw1]
    simp [hue]

/-- The datagram theorem on `world_datagram`: a three-byte datagram whose
header straddles the end of the RX window. -/
theorem recvfrom_datagram_witness :
    ret_of (recvfrom 0 16 (some ⟨0, 0, 0⟩) (some 16) world_datagram)
      = some ⟨3, [0xAA, 0xBB, 0xCC], some ⟨0, le16 0x12 0x34, le32 10 0 0 1⟩, some 16⟩ ∧
    ∃ res w1 reads, recvfrom 0 16 (some ⟨0, 0, 0⟩) (some 16) world_datagram = .ok (res, w1) ∧
      res.ret = 3 ∧ res.buf.length = 3 ∧
      w1.bus = world_datagram.bus ++ reads ++
        [BusOp.wreg W5100_Sn_RX_RD 0 (htons ((2044 + 8 + 3) % 65536)),
          BusOp.wreg W5100_Sn_CR 0 W5100_CMD_RECV] := by
  refine ⟨by decide, ?_⟩
  obtain ⟨res, w1, reads, h, h1, h2, -, -, -, -, h3, -⟩ :=
    recvfrom_datagram 0 world_datagram 0 16 0 0 2044 3 (some ⟨0, 0, 0⟩) (some 16) (htons 11) []
      (by decide) (by decide) (Or.inr (by decide)) (by decide) (by decide)
      (Or.inr (Or.inl (by decide))) (by decide) (by decide) (by decide) (by decide) (by decide)
      (by decide) (by decide)
  exact ⟨res, w1, reads, h, h1, h2, h3⟩

/-- C6: from a table of `N` channels that are all free, with at least `N` free
descriptor slots, `N` successive calls `socket(AF_INET, type, 0)` with a
supported type all succeed: call `t` returns a handle `>= 0` and takes channel
`t` (state CREATED, owned by that handle), the handles are pairwise distinct;
and one more call returns -1 with `errno` ENOMEM and changes nothing but
`errno`. -/
theorem socket_exhausts_channels (type : Int) (w : World)
    (htype : type = SOCK_STREAM ∨ type = SOCK_DGRAM ∨ type = SOCK_RAW)
    (hfree : ∀ i, i < w.w5100_sockets.length → (sock w i).fd = W5100_SOCKET_FREE)
    (hfiles : w.w5100_sockets.length ≤ free_files w) :
    ∃ fds w1, socket_n type w.w5100_sockets.length w = .ok (fds, w1) ∧
      fds.length = w.w5100_sockets.length ∧
      w1.w5100_sockets.length = w.w5100_sockets.length ∧
      (∀ fd ∈ fds, 0 ≤ fd) ∧ fds.Nodup ∧
      (∀ t, t < w.w5100_sockets.length → (sock w1 t).fd = fds.getD t 0 ∧
        (sock w1 t).fd ≠ W5100_SOCKET_FREE ∧
        (sock w1 t).state = W5100_SOCK_STATE_CREATED ∧ (sock w1 t).type = type) ∧
      socket (AF_INET : Int) type 0 w1 = .ok (-1, { w1 with errno := some ENOMEM }) := by
  have hocc0 : occupied_below w 0 :=
    ⟨fun i hi => absurd hi (Nat.not_lt_zero i), fun i _ hi => hfree i hi⟩
  obtain ⟨fds, w1, hrun, hl, hocc, hlen, hch, -, hnd, hfd, -, -⟩ :=
    socket_n_spec type htype w.w5100_sockets.length 0 w hocc0 (by omega) hfiles
  refine ⟨fds, w1, hrun, hl, hlen, fun fd h => (hfd fd h).1, hnd, ?_, ?_⟩
  · intro t ht
    have h := hch t ht
    rw [Nat.zero_add] at h
    refine ⟨h.1, ?_, h.2.1, h.2.2⟩
    have := hocc.1 t (by omega)
    exact this
  · have hvalid : ¬ (type ≠ SOCK_STREAM ∧ type ≠ SOCK_DGRAM ∧ type ≠ SOCK_RAW) := by
      rcases htype with h | h | h <;> simp [h]
    have hnone : first_free_sock w1.w5100_sockets = none :=
      first_free_sock_none (fun i hi => by
        have := hocc.1 i (by rw [Nat.zero_add, ← hlen]; exact hi)
        simpa [sock] using this)
    simp [socket, hvalid, socket_create, socket_alloc, hnone, set_errno]

/-- The exhaustion theorem on the initial table of a chip with four channels. -/
theorem socket_exhausts_channels_witness :
    (ret_of (socket_n SOCK_STREAM 4 world_init)) = some [0, 1, 2, 3] ∧
    ∃ fds w1, socket_n SOCK_STREAM 4 world_init = .ok (fds, w1) ∧ fds.Nodup ∧
      socket (AF_INET : Int) SOCK_STREAM 0 w1 = .ok (-1, { w1 with errno := some ENOMEM }) := by
  refine ⟨by decide, ?_⟩
  obtain ⟨fds, w1, h, -, -, -, hnd, -, hlast⟩ :=
    socket_exhausts_channels SOCK_STREAM world_init (Or.inl rfl) (by decide) (by decide)
  exact ⟨fds, w1, h, hnd, hlast⟩

/-- `send` on a stream socket in CONNECTED or ACCEPTED state whose status
register reads ESTABLISHED at every reading, with the mode of the call read
where the code reads it: in the flags of the primary descriptor `k` of the
channel, whatever handle `fd` the call is made on.  (1) Whatever it returns is
the number `r` of bytes it moved into the TX ring, `0 <= r <= len` (so never
-1), and `r = len` when that descriptor is blocking and no clock reading is
past the deadline.  (2) When that descriptor is non-blocking, a call with
`len > 0` returns after one round with `min len nfree`, `nfree` the free size
read (0 when there is no room).  (3) When it is blocking, the call returns
`len` when every reading of the free size is positive and every command is
acknowledged at once, given `len` readings of each. -/
theorem send_established (fd : Int) (w : World) (si k : Nat) (buf : List Nat) (len : Nat)
    (hg : (get_socket_from_fd fd w).1 = some si)
    (hty : (sock w si).type = SOCK_STREAM)
    (hst : (sock w si).state = W5100_SOCK_STATE_CONNECTED
      ∨ (sock w si).state = W5100_SOCK_STATE_ACCEPTED)
    (hk : (sock w si).fd_data = some k)
    (hlink : ∀ x ∈ w.feed W5100_Sn_SR (sock w si).isocket, x % 256 = W5100_SOCK_ESTABLISHED) :
    (∀ r w1, send fd buf len w = .ok (r, w1) →
      0 ≤ r ∧ r ≤ (len : Int) ∧ tx_bytes w1.bus = tx_bytes w.bus + r.toNat ∧
      ((file w k).status_flags &&& O_NONBLOCK = 0 →
        ((sock w si).send_timeout = 0 ∨
          ∀ t0 ct, w.clock = t0 :: ct → ∀ c ∈ ct, c ≤ t0 + (sock w si).send_timeout) →
        r = (len : Int))) ∧
    ((file w k).status_flags &&& O_NONBLOCK ≠ 0 → 0 < len →
      ∀ v rest, w.feed W5100_Sn_TX_FSR (sock w si).isocket = v :: rest →
        (0 < ntohs (v % 65536) →
          awaits [cmd_done] (w.feed W5100_Sn_CR (sock w si).isocket) = true) →
        (ntohs (v % 65536) = 0 → w.feed W5100_Sn_SR (sock w si).isocket ≠ []) →
        ∃ w1, send fd buf len w = .ok (((min len (ntohs (v % 65536)) : Nat) : Int), w1)) ∧
    ((file w k).status_flags &&& O_NONBLOCK = 0 →
      ((sock w si).send_timeout = 0 ∨ w.clock ≠ []) →
      (∀ x ∈ w.feed W5100_Sn_TX_FSR (sock w si).isocket, 0 < ntohs (x % 65536)) →
      len ≤ (w.feed W5100_Sn_TX_FSR (sock w si).isocket).length →
      (∀ x ∈ w.feed W5100_Sn_CR (sock w si).isocket, x % 256 = 0) →
      len ≤ (w.feed W5100_Sn_CR (sock w si).isocket).length →
      ∃ w1, send fd buf len w = .ok ((len : Int), w1)) := by
  have hgs := get_socket_from_fd_some hg
  have hnd : ¬ (sock w si).type = SOCK_DGRAM := by rw [hty]; decide
  have hns : ¬ (sock w si).type ≠ SOCK_STREAM := by simp [hty]
  have hstate : ¬ ((sock w si).state ≠ W5100_SOCK_STATE_ACCEPTED
      ∧ (sock w si).state ≠ W5100_SOCK_STATE_CONNECTED) := by
    rcases hst with h | h <;> simp [h]
  have hunf : send fd buf len w = (do
      let nonblock ← nonblock_of (some k) w
      let (tom, u) ←
        if !nonblock then timeout_init (sock w si).send_timeout w
        else pure ({ has_timeout := false, tm_end := 0 }, w)
      let ((_, towrite), u) ← send_loop si nonblock tom
        ((u.feed W5100_Sn_TX_FSR (sock w si).isocket).length + 1) none buf len u
      pure (((len - towrite : Nat) : Int), u)) := by
    simp only [send, send_body, hgs, hnd, if_false, hstate, hk]
    rw [if_neg hns]
  refine ⟨?_, ?_, ?_⟩
  · intro r w1 h
    rw [hunf] at h
    simp only [nonblock_of, Bind.bind, Except.bind] at h
    by_cases hb : ((file w k).status_flags &&& O_NONBLOCK != 0) = true
    · simp only [hb, Bool.not_true, Bool.false_eq_true, if_false, pure, Except.pure] at h
      cases hl : send_loop si true { has_timeout := false, tm_end := 0 }
          ((w.feed W5100_Sn_TX_FSR (sock w si).isocket).length + 1) none buf len w with
      | error e => simp [hl] at h
      | ok q =>
        obtain ⟨⟨r2, tw⟩, w2⟩ := q
        simp only [hl, Except.ok.injEq, Prod.mk.injEq] at h
        obtain ⟨rfl, rfl⟩ := h
        obtain ⟨h1, h2, -⟩ := send_loop_sound si true _ _ _ _ _ _ _ _ _ hl hlink
        refine ⟨by omega, by omega, by rw [h2]; simp, ?_⟩
        intro hblk
        simp [hblk] at hb
    · have hb' : ((file w k).status_flags &&& O_NONBLOCK != 0) = false := by simpa using hb
      simp only [hb', Bool.not_false, if_true] at h
      have hblk0 : (file w k).status_flags &&& O_NONBLOCK = 0 := by simpa using hb'
      by_cases hto : (sock w si).send_timeout = 0
      · simp only [timeout_init, hto, timespec_diff] at h
        simp only [Int.sub_self, ne_eq, not_true_eq_false, if_false, Nat.cast_zero] at h
        cases hl : send_loop si false { has_timeout := false, tm_end := 0 }
            ((w.feed W5100_Sn_TX_FSR (sock w si).isocket).length + 1) none buf len w with
        | error e => simp [hl] at h
        | ok q =>
          obtain ⟨⟨r2, tw⟩, w2⟩ := q
          simp only [hl, pure, Except.pure, Except.ok.injEq, Prod.mk.injEq] at h
          obtain ⟨rfl, rfl⟩ := h
          obtain ⟨h1, h2, h3⟩ := send_loop_sound si false _ _ _ _ _ _ _ _ _ hl hlink
          refine ⟨by omega, by omega, by rw [h2]; simp, ?_⟩
          intro _ _
          have := h3 rfl (Or.inl rfl)
          subst this
          simp
      · have htd : timespec_diff 0 (sock w si).send_timeout ≠ 0 := by
          unfold timespec_diff; omega
        simp only [timeout_init, htd, ne_eq, not_false_eq_true, if_true, clock_gettime] at h
        cases hcl : w.clock with
        | nil => simp [hcl, Bind.bind, Except.bind] at h
        | cons t0 ct =>
          simp only [hcl, Bind.bind, Except.bind, pure, Except.pure] at h
          cases hl : send_loop si false { has_timeout := true, tm_end := t0 + (sock w si).send_timeout }
              (((({ w with clock := ct } : World).feed W5100_Sn_TX_FSR
                (sock w si).isocket).length + 1))
              none buf len { w with clock := ct } with
          | error e => simp [hl] at h
          | ok q =>
            obtain ⟨⟨r2, tw⟩, w2⟩ := q
            simp only [hl, Except.ok.injEq, Prod.mk.injEq] at h
            obtain ⟨rfl, rfl⟩ := h
            obtain ⟨h1, h2, h3⟩ := send_loop_sound si false _ _ _ _ _ _ _ _ _ hl hlink
            refine ⟨by omega, by omega, by rw [h2]; simp, ?_⟩
            intro _ hno
            have hct : ∀ c ∈ ct, c ≤ t0 + (sock w si).send_timeout := by
              rcases hno with hno | hno
              · exact absurd hno hto
              · exact hno t0 ct rfl
            have := h3 rfl (Or.inr hct)
            subst this
            simp
  · intro hnb hlen v rest hf hack hsr
    rw [hunf]
    have hb : ((file w k).status_flags &&& O_NONBLOCK != 0) = true := by simpa using hnb
    simp only [nonblock_of, Bind.bind, Except.bind, hb, Bool.not_true, Bool.false_eq_true,
      if_false, pure, Except.pure, hf, List.length_cons]
    rw [send_loop, if_pos (by omega : len > 0)]
    by_cases hv : ntohs (v % 65536) = 0
    · rw [write_buf_full _ _ hf hv]
      simp only [gt_iff_lt, Nat.lt_irrefl, if_false]
      obtain ⟨x, xs, hxs⟩ := List.exists_cons_of_ne_nil (hsr hv)
      have hx : x % 256 = W5100_SOCK_ESTABLISHED := hlink x (by rw [hxs]; simp)
      have hiso : (sock (set_feed w W5100_Sn_TX_FSR (sock w si).isocket rest) si).isocket
          = (sock w si).isocket := rfl
      rw [manage_disconnect_established (v := x) (l := xs) (by rw [hiso]; simpa using hxs) hx]
      simp [hv]
    · have hv0 : 0 < ntohs (v % 65536) := by omega
      obtain ⟨c, r1, hawait, -⟩ := awaits_cons (hack hv0)
      obtain ⟨w2, hwb, -⟩ := write_buf_room buf len hf hv0 hawait
      rw [hwb]
      have hpos : min len (ntohs (v % 65536)) > 0 := by omega
      simp only [hpos, if_true]
      refine ⟨w2, ?_⟩
      have : len - (len - min len (ntohs (v % 65536))) = min len (ntohs (v % 65536)) := by
        omega
      rw [this]
  · intro hblk hclock hfsr hfl hcr hcl
    rw [hunf]
    have hb : ((file w k).status_flags &&& O_NONBLOCK != 0) = false := by simpa using hblk
    simp only [nonblock_of, Bind.bind, Except.bind, hb, Bool.not_false, if_true]
    by_cases hto : (sock w si).send_timeout = 0
    · simp only [timeout_init, hto, timespec_diff, Int.sub_self, ne_eq, not_true_eq_false,
        if_false, Nat.cast_zero]
      obtain ⟨w1, hl⟩ := send_loop_room si { has_timeout := false, tm_end := 0 }
        ((w.feed W5100_Sn_TX_FSR (sock w si).isocket).length + 1) none buf len w hfsr hfl hcr
        hcl (by omega)
      simp [hl, pure, Except.pure]
    · have htd : timespec_diff 0 (sock w si).send_timeout ≠ 0 := by
        unfold timespec_diff; omega
      have hcne : w.clock ≠ [] := by
        rcases hclock with h | h
        · exact absurd h hto
        · exact h
      obtain ⟨t0, ct, hct⟩ := List.exists_cons_of_ne_nil hcne
      simp only [timeout_init, htd, ne_eq, not_false_eq_true, if_true, clock_gettime, hct,
        Bind.bind, Except.bind, pure, Except.pure]
      obtain ⟨w1, hl⟩ := send_loop_room si
        { has_timeout := true, tm_end := t0 + (sock w si).send_timeout }
        ((w.feed W5100_Sn_TX_FSR (sock w si).isocket).length + 1) none buf len
        { w with clock := ct } hfsr hfl hcr hcl (by omega)
      exact ⟨w1, by rw [hl]; simp⟩

/-- The lemma `send_established` on `world_send`: non-blocking, 5 bytes with
room for 3 gives 3; blocking on `world_send_room`, 5 bytes go out in three
rounds. -/
theorem send_established_witness :
    ret_of (send 0 [1, 2, 3, 4, 5] 5 (world_send O_RDWR)) = some 5 ∧
    (∃ w1, send 0 [1, 2, 3, 4, 5] 5 (world_send (O_RDWR ||| O_NONBLOCK))
      = .ok (((min 5 (ntohs (htons 3 % 65536)) : Nat) : Int), w1)) ∧
    (∃ w1, send 0 [1, 2, 3, 4, 5] 5 world_send_room = .ok (5, w1)) := by
  refine ⟨by decide, ?_, ?_⟩
  · exact (send_established 0 (world_send (O_RDWR ||| O_NONBLOCK)) 0 0 [1, 2, 3, 4, 5] 5
      (by decide) (by decide) (Or.inl (by decide)) (by decide) (by decide)).2.1
      (by decide) (by decide) (htons 3) [0, htons 4] (by decide) (fun _ => by decide)
      (fun _ => by decide)
  · exact (send_established 0 world_send_room 0 0 [1, 2, 3, 4, 5] 5
      (by decide) (by decide) (Or.inl (by decide)) (by decide) (by decide)).2.2
      (by decide) (Or.inl (by decide)) (by decide) (by decide) (by decide) (by decide)

/-- C19: on a table of `N` channels (`N` at most the start value, as on the
chip, which has four), whatever the port registers hold, `get_avail_port`
returns: its loop ends within `N + 1` rounds, so after at most `N` decrements,
with the greatest value `v` not above `htons(0x7FF0)` that no channel in a
state other than NONE has in its port register: `v` is not in use and every
value above it up to the start value is. -/
theorem get_avail_port_greatest_free (w : World)
    (hN : w.w5100_sockets.length ≤ htons 0x7FF0) :
    ∃ v, get_avail_port w = some v ∧ v ≤ htons 0x7FF0 ∧
      htons 0x7FF0 - v ≤ w.w5100_sockets.length ∧
      ¬ port_used w v ∧ ∀ u, v < u → u ≤ htons 0x7FF0 → port_used w u := by
  have hs : htons 0x7FF0 < 65536 := by decide
  obtain ⟨v, h1, h2, h3, h4⟩ := get_avail_port_loop_spec w (htons 0x7FF0) hN hs
    (w.w5100_sockets.length + 1) (htons 0x7FF0) (le_refl _)
    (fun u h1 h2 => absurd h2 (Nat.not_le_of_lt h1)) (by omega)
  refine ⟨v, h1, h2, ?_, h3, h4⟩
  have := used_ports_le w (v + 1) (htons 0x7FF0) (fun u h5 h6 => h4 u (by omega) h6)
  omega

/-- The port scan on `world_ports`: the start port and the one below it are in
use by the bound channels 0 and 2, so the second decrement gives the port. -/
theorem get_avail_port_greatest_free_witness :
    get_avail_port world_ports = some (htons 0x7FF0 - 2) ∧
    ∃ v, get_avail_port world_ports = some v ∧ v ≤ htons 0x7FF0 ∧
      htons 0x7FF0 - v ≤ world_ports.w5100_sockets.length ∧
      ¬ port_used world_ports v ∧
      ∀ u, v < u → u ≤ htons 0x7FF0 → port_used world_ports u :=
  ⟨by decide, get_avail_port_greatest_free world_ports (by decide)⟩

/-- C18: `manage_disconnect` on channel `si`, the status register reading `v`
first.  Whatever it returns is 0 or -1, and 0 exactly when `v` is ESTABLISHED;
then nothing changes (only the reading is consumed).  Otherwise, when the chip
acknowledges the commands and reaches CLOSED (and LISTEN after the re-open),
it returns -1 with `errno` ECONNRESET when `v` is CLOSE_WAIT and ETIMEDOUT for
any other value; the channel goes to LISTENING when it was ACCEPTED with the
primary handle attached (after DISCON, OPEN and LISTEN), and to DISCONNECTED
in every other case (after DISCON alone); no other field, channel or
descriptor changes. -/
theorem manage_disconnect_outcome (si : Nat) (w : World) (v : Nat) (rest : List Nat) (i : Nat)
    (hin : si < w.w5100_sockets.length)
    (hi : i = (sock w si).isocket)
    (hsr : w.feed W5100_Sn_SR i = v :: rest) :
    (∀ r w1, manage_disconnect si w = .ok (r, w1) →
      (r = 0 ∨ r = -1) ∧ (r = 0 ↔ v % 256 = W5100_SOCK_ESTABLISHED)) ∧
    (v % 256 = W5100_SOCK_ESTABLISHED →
      manage_disconnect si w = .ok (0, set_feed w W5100_Sn_SR i rest)) ∧
    (v % 256 ≠ W5100_SOCK_ESTABLISHED →
      (sock w si).state = W5100_SOCK_STATE_ACCEPTED → (sock w si).fd_data ≠ none →
      awaits [cmd_done, cmd_done, cmd_done] (w.feed W5100_Sn_CR i) = true →
      awaits [sr_closed, sr_listen] rest = true →
      ∃ w1, manage_disconnect si w = .ok (-1, w1) ∧
        w1.errno = some (if v % 256 = W5100_SOCK_CLOSE_WAIT then ECONNRESET else ETIMEDOUT) ∧
        sock w1 si = { sock w si with state := W5100_SOCK_STATE_LISTENING } ∧
        (∀ j, j ≠ si → sock w1 j = sock w j) ∧ w1.files = w.files ∧
        w1.bus = w.bus ++ [BusOp.wreg W5100_Sn_CR i W5100_CMD_DISCON,
          BusOp.wreg W5100_Sn_CR i W5100_CMD_OPEN, BusOp.wreg W5100_Sn_CR i W5100_CMD_LISTEN]) ∧
    (v % 256 ≠ W5100_SOCK_ESTABLISHED →
      ¬ ((sock w si).state = W5100_SOCK_STATE_ACCEPTED ∧ (sock w si).fd_data ≠ none) →
      awaits [cmd_done] (w.feed W5100_Sn_CR i) = true →
      awaits [sr_closed] rest = true →
      ∃ w1, manage_disconnect si w = .ok (-1, w1) ∧
        w1.errno = some (if v % 256 = W5100_SOCK_CLOSE_WAIT then ECONNRESET else ETIMEDOUT) ∧
        sock w1 si = { sock w si with state := W5100_SOCK_STATE_DISCONNECTED } ∧
        (∀ j, j ≠ si → sock w1 j = sock w j) ∧ w1.files = w.files ∧
        w1.bus = w.bus ++ [BusOp.wreg W5100_Sn_CR i W5100_CMD_DISCON]) := by
  subst hi
  have hrd := read_sock_reg_cons (r := W5100_Sn_SR) (i := (sock w si).isocket) (w := w) rfl hsr
  refine ⟨?_, ?_, ?_, ?_⟩
  · intro r w1 h
    unfold manage_disconnect at h
    simp only [hrd, Bind.bind, Except.bind] at h
    by_cases hv : v % 256 = W5100_SOCK_ESTABLISHED
    · simp only [hv, ne_eq, not_true_eq_false, if_false, pure, Except.pure, Except.ok.injEq,
        Prod.mk.injEq] at h
      simp [← h.1, hv]
    · have hr : r = -1 := by
        simp only [ne_eq, hv, not_false_eq_true, if_true] at h
        split at h
        · exact absurd h (by simp)
        · split at h
          · exact absurd h (by simp)
          · split at h
            · split at h
              · exact absurd h (by simp)
              · split at h
                · exact absurd h (by simp)
                · split at h
                  · exact absurd h (by simp)
                  · simp only [pure, Except.pure, Except.ok.injEq, Prod.mk.injEq] at h
                    exact h.1.symm
            · simp only [pure, Except.pure, Except.ok.injEq, Prod.mk.injEq] at h
              exact h.1.symm
      subst hr
      simp [hv]
  · intro hv
    exact manage_disconnect_established hsr hv
  · intro hv hst hfd hcr hsr2
    obtain ⟨v1, r1, ha1, hcr⟩ := awaits_cons hcr
    obtain ⟨v2, r2, ha2, hcr⟩ := awaits_cons hcr
    obtain ⟨v3, r3, ha3, -⟩ := awaits_cons hcr
    obtain ⟨s1, q1, hb1, hsr2⟩ := awaits_cons hsr2
    obtain ⟨s2, q2, hb2, -⟩ := awaits_cons hsr2
    generalize hE : (if v % 256 = W5100_SOCK_CLOSE_WAIT then ECONNRESET else ETIMEDOUT) = e
    generalize hW0 : set_errno e (set_feed w W5100_Sn_SR (sock w si).isocket rest) = W0
    have hW0s : W0.w5100_sockets = w.w5100_sockets := by rw [← hW0]; simp
    have hW0f : W0.files = w.files := by rw [← hW0]; simp
    have hW0b : W0.bus = w.bus := by rw [← hW0]; simp
    have hW0cr : W0.feed W5100_Sn_CR (sock w si).isocket = w.feed W5100_Sn_CR (sock w si).isocket := by
      rw [← hW0]; simp
    have hW0sr : W0.feed W5100_Sn_SR (sock w si).isocket = rest := by
      rw [← hW0]; simp
    have hW0e : W0.errno = some e := by rw [← hW0]; simp
    obtain ⟨W1, hc1, hf1, hg1, hs1, hfi1, he1, hbu1⟩ :=
      command_step (w := W0) W5100_CMD_DISCON (by rw [hW0cr]; exact ha1)
    obtain ⟨W2, hc2, hf2, hg2, hs2, hfi2, he2, hbu2⟩ :=
      wait_step (w := W1) (p := sr_closed) (by rw [hg1 _ _ (by decide), hW0sr]; exact hb1)
    obtain ⟨W3, hc3, hf3, hg3, hs3, hfi3, he3, hbu3⟩ :=
      command_step (w := W2) W5100_CMD_OPEN (by rw [hg2 _ _ (by decide), hf1]; exact ha2)
    obtain ⟨W4, hc4, hf4, hg4, hs4, hfi4, he4, hbu4⟩ :=
      command_step (w := W3) W5100_CMD_LISTEN (by rw [hf3]; exact ha3)
    obtain ⟨W5, hc5, hf5, hg5, hs5, hfi5, he5, hbu5⟩ :=
      wait_step (w := W4) (p := sr_listen)
        (by rw [hg4 _ _ (by decide), hg3 _ _ (by decide), hf2]; exact hb2)
    have hW2s : sock W2 si = sock w si := by rw [sock_congr hs2, sock_congr hs1, sock_congr hW0s]
    have hW5s : sock W5 si = sock w si := by
      rw [sock_congr hs5, sock_congr hs4, sock_congr hs3, hW2s]
    have hlen5 : si < W5.w5100_sockets.length := by rw [hs5, hs4, hs3, hs2, hs1, hW0s]; exact hin
    have hcond : (sock W2 si).state = W5100_SOCK_STATE_ACCEPTED ∧ (sock W2 si).fd_data ≠ none := by
      rw [hW2s]; exact ⟨hst, hfd⟩
    refine ⟨upd_sock W5 si (fun s => { s with state := W5100_SOCK_STATE_LISTENING }), ?_, ?_, ?_,
      ?_, ?_, ?_⟩
    · unfold manage_disconnect
      simp only [hrd, Bind.bind, Except.bind, ne_eq, hv, not_false_eq_true, if_true]
      have hE2 : (if v % 256 = W5100_SOCK_CLOSE_WAIT then
          set_errno ECONNRESET (set_feed w W5100_Sn_SR (sock w si).isocket rest)
          else set_errno ETIMEDOUT (set_feed w W5100_Sn_SR (sock w si).isocket rest)) = W0 := by
        rw [← hW0, ← hE]; split <;> rfl
      rw [hE2]
      simp only [hc1, hc2, if_pos hcond, hc3, hc4, hc5, pure, Except.pure]
    · simp [he5, he4, he3, he2, he1, hW0e]
    · rw [sock_upd_sock]; simp [hlen5, hW5s]
    · intro j hj
      rw [sock_upd_sock]; simp only [hj, false_and, if_false]
      rw [sock_congr hs5, sock_congr hs4, sock_congr hs3, sock_congr hs2, sock_congr hs1,
        sock_congr hW0s]
    · simp [hfi5, hfi4, hfi3, hfi2, hfi1, hW0f]
    · simp [hbu5, hbu4, hbu3, hbu2, hbu1, hW0b]
  · intro hv hno hcr hsr2
    obtain ⟨v1, r1, ha1, -⟩ := awaits_cons hcr
    obtain ⟨s1, q1, hb1, -⟩ := awaits_cons hsr2
    generalize hE : (if v % 256 = W5100_SOCK_CLOSE_WAIT then ECONNRESET else ETIMEDOUT) = e
    generalize hW0 : set_errno e (set_feed w W5100_Sn_SR (sock w si).isocket rest) = W0
    have hW0s : W0.w5100_sockets = w.w5100_sockets := by rw [← hW0]; simp
    have hW0f : W0.files = w.files := by rw [← hW0]; simp
    have hW0b : W0.bus = w.bus := by rw [← hW0]; simp
    have hW0cr : W0.feed W5100_Sn_CR (sock w si).isocket = w.feed W5100_Sn_CR (sock w si).isocket := by
      rw [← hW0]; simp
    have hW0sr : W0.feed W5100_Sn_SR (sock w si).isocket = rest := by
      rw [← hW0]; simp
    have hW0e : W0.errno = some e := by rw [← hW0]; simp
    obtain ⟨W1, hc1, hf1, hg1, hs1, hfi1, he1, hbu1⟩ :=
      command_step (w := W0) W5100_CMD_DISCON (by rw [hW0cr]; exact ha1)
    obtain ⟨W2, hc2, hf2, hg2, hs2, hfi2, he2, hbu2⟩ :=
      wait_step (w := W1) (p := sr_closed) (by rw [hg1 _ _ (by decide), hW0sr]; exact hb1)
    have hW2s : sock W2 si = sock w si := by rw [sock_congr hs2, sock_congr hs1, sock_congr hW0s]
    have hlen2 : si < W2.w5100_sockets.length := by rw [hs2, hs1, hW0s]; exact hin
    have hcond : ¬ ((sock W2 si).state = W5100_SOCK_STATE_ACCEPTED
        ∧ (sock W2 si).fd_data ≠ none) := by
      rw [hW2s]; exact hno
    refine ⟨upd_sock W2 si (fun s => { s with state := W5100_SOCK_STATE_DISCONNECTED }), ?_, ?_,
      ?_, ?_, ?_, ?_⟩
    · unfold manage_disconnect
      simp only [hrd, Bind.bind, Except.bind, ne_eq, hv, not_false_eq_true, if_true]
      have hE2 : (if v % 256 = W5100_SOCK_CLOSE_WAIT then
          set_errno ECONNRESET (set_feed w W5100_Sn_SR (sock w si).isocket rest)
          else set_errno ETIMEDOUT (set_feed w W5100_Sn_SR (sock w si).isocket rest)) = W0 := by
        rw [← hW0, ← hE]; split <;> rfl
      rw [hE2]
      simp only [hc1, hc2, if_neg hcond, pure, Except.pure]
    · simp [he2, he1, hW0e]
    · rw [sock_upd_sock]; simp [hlen2, hW2s]
    · intro j hj
      rw [sock_upd_sock]; simp only [hj, false_and, if_false]
      rw [sock_congr hs2, sock_congr hs1, sock_congr hW0s]
    · simp [hfi2, hfi1, hW0f]
    · simp [hbu2, hbu1, hW0b]

/-- The outcomes of `manage_disconnect` at concrete inputs: a reset link on the
accepted channel of `world_link_lost` (back to LISTENING, ECONNRESET), a dead
link on the connected channel of `world_send_disconnect` (DISCONNECTED,
ETIMEDOUT), and a live link on `world_accepted`. -/
theorem manage_disconnect_outcome_witness :
    (∃ w1, manage_disconnect 0 world_link_lost = .ok (-1, w1) ∧
      w1.errno = some ECONNRESET ∧ (sock w1 0).state = W5100_SOCK_STATE_LISTENING) ∧
    (∃ w1, manage_disconnect 0 world_send_disconnect = .ok (-1, w1) ∧
      w1.errno = some ETIMEDOUT ∧ (sock w1 0).state = W5100_SOCK_STATE_DISCONNECTED) ∧
    ret_of (manage_disconnect 0 world_accepted) = some 0 := by
  refine ⟨?_, ?_, ?_⟩
  · obtain ⟨w1, h1, h2, h3, -⟩ :=
      (manage_disconnect_outcome 0 world_link_lost W5100_SOCK_CLOSE_WAIT
        [W5100_SOCK_CLOSED, W5100_SOCK_LISTEN] 0 (by decide) rfl rfl).2.2.1
        (by decide) (by decide) (by decide) (by decide) (by decide)
    exact ⟨w1, h1, by simpa using h2, by rw [h3]⟩
  · obtain ⟨w1, h1, h2, h3, -⟩ :=
      (manage_disconnect_outcome 0 world_send_disconnect W5100_SOCK_CLOSED
        [W5100_SOCK_CLOSED] 0 (by decide) rfl rfl).2.2.2
        (by decide) (by decide) (by decide) (by decide)
    exact ⟨w1, h1, by simpa using h2, by rw [h3]⟩
  · have h := (manage_disconnect_outcome 0 world_accepted W5100_SOCK_ESTABLISHED
      [W5100_SOCK_CLOSED, W5100_SOCK_LISTEN] 0 (by decide) rfl rfl).2.1 (by decide)
    rw [h]; rfl

/-- C17: for a channel `i` whose windows lie in the 16-bit address space (every
channel of the chip), a pointer `p` and a length `len` up to the window size
`S = 2048`: `read_buf_sure` and `write_buf_sure` put at most two transfers on
the bus, a first part of length `l1` at `base + (p & (S - 1))` and a second
part of length `l2` at `base`, where `base = region_base + S * i`,
`l1 + l2 = len`, `l1 <= S - (p & (S - 1))` and `l2 > 0` only when the request
straddles the window end; byte `n` of the destination is the content of window
offset `(p + n) mod S`, byte `n` of the source is stored at that offset, and
every address the transfers touch lies in `[base, base + S)`. -/
theorem ring_transfer_split (i p len : Nat) (buf : List Nat) (w : World)
    (hlen : len ≤ 2048)
    (hrx : W5100_RX_MEM_BASE + get_rx_size i * (i + 1) ≤ 65536)
    (htx : W5100_TX_MEM_BASE + get_tx_size i * (i + 1) ≤ 65536) :
    ∃ l1 l2 rops wops, l1 + l2 = len ∧ l1 ≤ 2048 - p % 2048 ∧
      (0 < l2 → 2048 < p % 2048 + len) ∧
      get_rx_size i = 2048 ∧ get_tx_size i = 2048 ∧
      p &&& get_rx_mask i = p % 2048 ∧ p &&& get_tx_mask i = p % 2048 ∧
      get_rx_base i = W5100_RX_MEM_BASE + 2048 * i ∧
      get_tx_base i = W5100_TX_MEM_BASE + 2048 * i ∧
      rops = (if 0 < l1 then [BusOp.rmem (get_rx_base i + p % 2048) l1] else [])
        ++ (if 0 < l2 then [BusOp.rmem (get_rx_base i) l2] else []) ∧
      wops = (if 0 < l1 then [BusOp.wmem (get_tx_base i + p % 2048) (slice buf 0 l1)] else [])
        ++ (if 0 < l2 then [BusOp.wmem (get_tx_base i) (slice buf l1 l2)] else []) ∧
      (read_buf_sure i len p w).2.bus = w.bus ++ rops ∧
      (write_buf_sure i buf len p w).2.bus = w.bus ++ wops ∧
      (read_buf_sure i len p w).1.1
        = (List.range len).map (fun n => w.mem (get_rx_base i + (p + n) % 2048) % 256) ∧
      (∀ n, n < len →
        (write_buf_sure i buf len p w).2.mem (get_tx_base i + (p + n) % 2048)
          = buf.getD n 0) ∧
      (∀ a, (a < get_tx_base i ∨ get_tx_base i + 2048 ≤ a) →
        (write_buf_sure i buf len p w).2.mem a = w.mem a) ∧
      (∀ op ∈ rops, ∀ a, op.touches a → get_rx_base i ≤ a ∧ a < get_rx_base i + 2048) ∧
      (∀ op ∈ wops, ∀ a, op.touches a → get_tx_base i ≤ a ∧ a < get_tx_base i + 2048) := by
  have ho : p % 2048 < 2048 := Nat.mod_lt _ (by decide)
  have hm := write_buf_sure_mem i buf len p w hlen htx
  refine ⟨min len (2048 - p % 2048), len - (2048 - p % 2048), _, _, by omega, by omega,
    by omega, rfl, rfl, rx_offset i p, tx_offset i p, rx_base_eq i hrx, tx_base_eq i htx,
    rfl, rfl, ?_, ?_, read_buf_sure_content i len p w hlen hrx, hm.1, ?_, ?_, ?_⟩
  · rw [read_buf_sure_split i len p w hlen hrx, List.append_assoc]
  · rw [write_buf_sure_split i buf len p w hlen htx, List.append_assoc]
  · intro a ha
    apply hm.2
    intro n hn
    have : (p + n) % 2048 < 2048 := Nat.mod_lt _ (by decide)
    omega
  · intro op hop a ha
    simp only [List.mem_append] at hop
    rcases hop with hop | hop
    · split at hop
      · simp only [List.mem_singleton] at hop
        subst hop
        simp only [BusOp.touches] at ha
        omega
      · simp at hop
    · split at hop
      · simp only [List.mem_singleton] at hop
        subst hop
        simp only [BusOp.touches] at ha
        omega
      · simp at hop
  · intro op hop a ha
    simp only [List.mem_append] at hop
    rcases hop with hop | hop
    · split at hop
      · simp only [List.mem_singleton] at hop
        subst hop
        simp only [BusOp.touches, slice_length] at ha
        omega
      · simp at hop
    · split at hop
      · simp only [List.mem_singleton] at hop
        subst hop
        simp only [BusOp.touches, slice_length] at ha
        omega
      · simp at hop

/-- The split on channel 0 at pointer 2044 for eight bytes: four bytes at the
end of the window and four at its start, read from the RX window of
`world_datagram` and written to its TX window. -/
theorem ring_transfer_split_witness :
    (read_buf_sure 0 8 2044 world_datagram).2.bus
      = [BusOp.rmem (0x6000 + 2044) 4, BusOp.rmem 0x6000 4] ∧
    (write_buf_sure 0 [1, 2, 3, 4, 5, 6, 7, 8] 8 2044 world_datagram).2.bus
      = [BusOp.wmem (0x4000 + 2044) [1, 2, 3, 4], BusOp.wmem 0x4000 [5, 6, 7, 8]] ∧
    ∃ l1 l2 rops wops, l1 + l2 = 8 ∧ l1 ≤ 2048 - 2044 % 2048 ∧
      (0 < l2 → 2048 < 2044 % 2048 + 8) ∧
      get_rx_size 0 = 2048 ∧ get_tx_size 0 = 2048 ∧
      2044 &&& get_rx_mask 0 = 2044 % 2048 ∧ 2044 &&& get_tx_mask 0 = 2044 % 2048 ∧
      get_rx_base 0 = W5100_RX_MEM_BASE + 2048 * 0 ∧
      get_tx_base 0 = W5100_TX_MEM_BASE + 2048 * 0 ∧
      rops = (if 0 < l1 then [BusOp.rmem (get_rx_base 0 + 2044 % 2048) l1] else [])
        ++ (if 0 < l2 then [BusOp.rmem (get_rx_base 0) l2] else []) ∧
      wops = (if 0 < l1 then
            [BusOp.wmem (get_tx_base 0 + 2044 % 2048) (slice [1, 2, 3, 4, 5, 6, 7, 8] 0 l1)]
          else [])
        ++ (if 0 < l2 then [BusOp.wmem (get_tx_base 0) (slice [1, 2, 3, 4, 5, 6, 7, 8] l1 l2)]
          else []) ∧
      (read_buf_sure 0 8 2044 world_datagram).2.bus = world_datagram.bus ++ rops ∧
      (write_buf_sure 0 [1, 2, 3, 4, 5, 6, 7, 8] 8 2044 world_datagram).2.bus
        = world_datagram.bus ++ wops ∧
      (read_buf_sure 0 8 2044 world_datagram).1.1
        = (List.range 8).map
            (fun n => world_datagram.mem (get_rx_base 0 + (2044 + n) % 2048) % 256) ∧
      (∀ n, n < 8 →
        (write_buf_sure 0 [1, 2, 3, 4, 5, 6, 7, 8] 8 2044 world_datagram).2.mem
            (get_tx_base 0 + (2044 + n) % 2048)
          = [1, 2, 3, 4, 5, 6, 7, 8].getD n 0) ∧
      (∀ a, (a < get_tx_base 0 ∨ get_tx_base 0 + 2048 ≤ a) →
        (write_buf_sure 0 [1, 2, 3, 4, 5, 6, 7, 8] 8 2044 world_datagram).2.mem a
          = world_datagram.mem a) ∧
      (∀ op ∈ rops, ∀ a, op.touches a → get_rx_base 0 ≤ a ∧ a < get_rx_base 0 + 2048) ∧
      (∀ op ∈ wops, ∀ a, op.touches a → get_tx_base 0 ≤ a ∧ a < get_tx_base 0 + 2048) :=
  ⟨by decide, by decide,
    ring_transfer_split 0 2044 8 [1, 2, 3, 4, 5, 6, 7, 8] world_datagram (by decide) (by decide)
      (by decide)⟩

/-- C12: ring round trip.  For a channel `i` of the chip, any pointer `p` and
any sequence `buf` of `K <= 2048` bytes: after `write_buf_sure` has written
`buf` at `p` into the TX window, `read_buf_sure` of `K` bytes at `p` from an RX
window with the same contents yields `buf`, and both leave their pointer at
`p + K (mod 2^16)`. -/
theorem ring_round_trip (i p : Nat) (buf : List Nat) (w u : World)
    (hK : buf.length ≤ 2048) (hbytes : ∀ b ∈ buf, b < 256)
    (hrx : W5100_RX_MEM_BASE + get_rx_size i * (i + 1) ≤ 65536)
    (htx : W5100_TX_MEM_BASE + get_tx_size i * (i + 1) ≤ 65536)
    (hsame : ∀ o, o < 2048 →
      u.mem (get_rx_base i + o)
        = (write_buf_sure i buf buf.length p w).2.mem (get_tx_base i + o)) :
    (read_buf_sure i buf.length p u).1.1 = buf ∧
    (read_buf_sure i buf.length p u).1.2 = (p + buf.length) % 65536 ∧
    (write_buf_sure i buf buf.length p w).1 = (p + buf.length) % 65536 := by
  refine ⟨?_, (read_buf_sure_length i buf.length p u (by omega)).2,
    (write_buf_sure_world i buf buf.length p w (by omega)).1⟩
  rw [read_buf_sure_content i buf.length p u hK hrx]
  apply List.ext_getElem
  · simp
  · intro n h1 h2
    simp only [List.getElem_map, List.getElem_range]
    rw [hsame _ (Nat.mod_lt _ (by decide)),
      (write_buf_sure_mem i buf buf.length p w hK htx).1 n h2]
    have hg : buf.getD n 0 = buf[n] := by
      simp [List.getD_eq_getElem?_getD, List.getElem?_eq_getElem h2]
    rw [hg]
    exact Nat.mod_eq_of_lt (hbytes _ (List.getElem_mem h2))

/-- The round trip on channel 0 at pointer 4095, whose window offset is the
last byte of the window: eight bytes, one before the wraparound and seven
after it. -/
theorem ring_round_trip_witness :
    (read_buf_sure 0 8 4095
      (loopback (write_buf_sure 0 [1, 2, 3, 4, 5, 6, 7, 8] 8 4095 world_datagram).2)).1.1
      = [1, 2, 3, 4, 5, 6, 7, 8] ∧
    (read_buf_sure 0 8 4095
      (loopback (write_buf_sure 0 [1, 2, 3, 4, 5, 6, 7, 8] 8 4095 world_datagram).2)).1.2
      = (4095 + 8) % 65536 ∧
    (write_buf_sure 0 [1, 2, 3, 4, 5, 6, 7, 8] 8 4095 world_datagram).1 = (4095 + 8) % 65536 :=
  ring_round_trip 0 4095 [1, 2, 3, 4, 5, 6, 7, 8] world_datagram
    (loopback (write_buf_sure 0 [1, 2, 3, 4, 5, 6, 7, 8] 8 4095 world_datagram).2)
    (by decide) (by decide) (by decide) (by decide)
    (fun o _ => by
      have hr : get_rx_base 0 = 0x6000 := by decide
      have ht : get_tx_base 0 = 0x4000 := by decide
      have hd : W5100_RX_MEM_BASE - W5100_TX_MEM_BASE = 0x2000 := by decide
      have e : 0x6000 + o - 0x2000 = 0x4000 + o := by omega
      simp only [loopback, hr, ht, hd, e]
      rfl)

/-- C16: `read_buf` on a channel whose RX size register reads `A`, and
`write_buf` on a channel whose TX free size register reads `F`.  When the
reading is zero the call returns 0 and changes nothing (only the reading is
consumed): no transfer, no pointer write, no command.  When it is positive and
the chip acknowledges the command, the call returns `min len A` (resp.
`min len F`), moves exactly that many bytes (stored into the caller's buffer,
resp. written to buffer memory), then writes the pointer register with the old
pointer plus that count (mod 2^16, in network order) and then issues one RECV
(resp. SEND) command; these are its only register writes. -/
theorem buf_transfer_exact (i len : Nat) (buf : List Nat) (w : World) :
    (∀ v rest, w.feed W5100_Sn_RX_RSR i = v :: rest →
      (ntohs (v % 65536) = 0 →
        read_buf i len w = .ok ((0, []), set_feed w W5100_Sn_RX_RSR i rest)) ∧
      (0 < ntohs (v % 65536) → awaits [cmd_done] (w.feed W5100_Sn_CR i) = true →
        ∃ bytes w1 reads,
          read_buf i len w = .ok ((min len (ntohs (v % 65536)), bytes), w1) ∧
          bytes.length = min len (ntohs (v % 65536)) ∧
          (∀ op ∈ reads, ∃ a k, op = BusOp.rmem a k) ∧
          w1.bus = w.bus ++ reads ++
            [BusOp.wreg W5100_Sn_RX_RD i (w1.regs W5100_Sn_RX_RD i),
             BusOp.wreg W5100_Sn_CR i W5100_CMD_RECV] ∧
          ntohs (w1.regs W5100_Sn_RX_RD i)
            = (ntohs (w.regs W5100_Sn_RX_RD i % 65536) + min len (ntohs (v % 65536)))
                % 65536 ∧
          w1.mem = w.mem)) ∧
    (∀ v rest, w.feed W5100_Sn_TX_FSR i = v :: rest →
      (ntohs (v % 65536) = 0 →
        write_buf i buf len w = .ok (0, set_feed w W5100_Sn_TX_FSR i rest)) ∧
      (0 < ntohs (v % 65536) → awaits [cmd_done] (w.feed W5100_Sn_CR i) = true →
        ∃ w1 writes,
          write_buf i buf len w = .ok (min len (ntohs (v % 65536)), w1) ∧
          tx_bytes writes = min len (ntohs (v % 65536)) ∧
          (∀ op ∈ writes, ∃ a d, op = BusOp.wmem a d) ∧
          w1.bus = w.bus ++ writes ++
            [BusOp.wreg W5100_Sn_TX_WR i (w1.regs W5100_Sn_TX_WR i),
             BusOp.wreg W5100_Sn_CR i W5100_CMD_SEND] ∧
          ntohs (w1.regs W5100_Sn_TX_WR i)
            = (ntohs (w.regs W5100_Sn_TX_WR i % 65536) + min len (ntohs (v % 65536)))
                % 65536)) := by
  refine ⟨?_, ?_⟩
  · intro v rest hf
    refine ⟨fun hv => read_buf_empty len hf hv, ?_⟩
    intro hv hack
    obtain ⟨bytes, w1, reads, h1, h2, h3, h4, h5, h6, -⟩ := read_buf_some len hf hv hack
    refine ⟨bytes, w1, reads, h1, h2, h3, ?_, ?_, h6⟩
    · rw [h4, h5]
    · rw [h5, ntohs_htons _ (Nat.mod_lt _ (by decide))]
  · intro v rest hf
    refine ⟨fun hv => write_buf_full buf len hf hv, ?_⟩
    intro hv hack
    obtain ⟨w1, writes, h1, h2, h3, h4, h5, -⟩ := write_buf_some buf len hf hv hack
    refine ⟨w1, writes, h1, h2, h3, ?_, ?_⟩
    · rw [h4, h5]
    · rw [h5, ntohs_htons _ (Nat.mod_lt _ (by decide))]

/-- The transfers at concrete inputs: four of the eleven unread bytes of
`world_datagram` are read from pointer 2044, and three of five bytes are
written on `world_send`, whose TX ring has room for three. -/
theorem buf_transfer_exact_witness :
    ret_of (read_buf 0 4 world_datagram) = some (4, [10, 0, 0, 1]) ∧
    ret_of (write_buf 0 [1, 2, 3, 4, 5] 5 (world_send O_RDWR)) = some 3 ∧
    (∃ bytes w1 reads,
      read_buf 0 4 world_datagram = .ok ((min 4 (ntohs (htons 11 % 65536)), bytes), w1) ∧
      bytes.length = min 4 (ntohs (htons 11 % 65536)) ∧
      (∀ op ∈ reads, ∃ a k, op = BusOp.rmem a k) ∧
      w1.bus = world_datagram.bus ++ reads ++
        [BusOp.wreg W5100_Sn_RX_RD 0 (w1.regs W5100_Sn_RX_RD 0),
         BusOp.wreg W5100_Sn_CR 0 W5100_CMD_RECV] ∧
      ntohs (w1.regs W5100_Sn_RX_RD 0)
        = (ntohs (world_datagram.regs W5100_Sn_RX_RD 0 % 65536)
            + min 4 (ntohs (htons 11 % 65536))) % 65536 ∧
      w1.mem = world_datagram.mem) ∧
    write_buf 0 [1, 2, 3, 4, 5] 5
        (set_feed (world_send O_RDWR) W5100_Sn_TX_FSR 0 [0, htons 4])
      = .ok (0, set_feed (set_feed (world_send O_RDWR) W5100_Sn_TX_FSR 0 [0, htons 4])
          W5100_Sn_TX_FSR 0 [htons 4]) :=
  ⟨by decide, by decide,
    ((buf_transfer_exact 0 4 [] world_datagram).1 (htons 11) [] rfl).2 (by decide) (by decide),
    ((buf_transfer_exact 0 5 [1, 2, 3, 4, 5]
      (set_feed (world_send O_RDWR) W5100_Sn_TX_FSR 0 [0, htons 4])).2 0 [htons 4] rfl).1
      (by decide)⟩

/-- C20: the datagram branch of `recvfrom` copies the payload length of the
header, whatever `len` and the RX size register say.  On `world_datagram`
(payload of three bytes) a call with `len = 1` stores three bytes into the
one-byte buffer and returns 3.  On `world_datagram_oversize` (eight unread
bytes, header announcing 0x0FFF) a call with `len = 16` returns 4095 and reads
8 + 4095 bytes from the ring, more than the eight unread bytes and more
than the window of 2048. -/
theorem recvfrom_datagram_overruns :
    (ret_of (recvfrom 0 1 none none world_datagram)).map (fun r => (r.ret, r.buf))
      = some (3, [0xAA, 0xBB, 0xCC]) ∧
    (ret_of (recvfrom 0 16 none none world_datagram_oversize)).map
      (fun r => r.ret) = some 4095 ∧
    (world_of (recvfrom 0 16 none none world_datagram_oversize)).map
      (fun w => rx_bytes w.bus) = some (8 + 4095) := by
  refine ⟨by decide, ?_, ?_⟩
  · decide
  · decide

/-- C13: on the failing input (a bound datagram socket in non-blocking mode
whose TX free size reads 0, one byte to send) `sendto` sets `errno` to EAGAIN
after one reading of the free size and puts nothing on the bus, but returns 1,
not -1.  The other would-block conditions do return -1 with EAGAIN: `accept`
on a listening channel whose status is LISTEN, `recv` on an ESTABLISHED stream
with no unread bytes, and `recvfrom` on a datagram socket with seven unread
bytes. -/
theorem sendto_would_block_returns_one :
    ret_of (sendto 0 [7] 1 (some ⟨AF_INET, 80, 1⟩)
      (world_nonblock SOCK_DGRAM W5100_SOCK_STATE_BOUND [] [0, 0] [])) = some 1 ∧
    (world_of (sendto 0 [7] 1 (some ⟨AF_INET, 80, 1⟩)
      (world_nonblock SOCK_DGRAM W5100_SOCK_STATE_BOUND [] [0, 0] []))).map
      (fun w => (w.errno, w.bus, w.feed W5100_Sn_TX_FSR 0)) = some (some EAGAIN, [], [0]) ∧
    (ret_of (accept 0 none none
      (world_nonblock SOCK_STREAM W5100_SOCK_STATE_LISTENING [W5100_SOCK_LISTEN] [] []))).map
      (fun r => r.ret) = some (-1) ∧
    (world_of (accept 0 none none
      (world_nonblock SOCK_STREAM W5100_SOCK_STATE_LISTENING [W5100_SOCK_LISTEN] [] []))).map
      (fun w => (w.errno, w.bus)) = some (some EAGAIN, []) ∧
    (ret_of (recv 0 4
      (world_nonblock SOCK_STREAM W5100_SOCK_STATE_CONNECTED [W5100_SOCK_ESTABLISHED] []
        [0]))).map (fun r => (r.ret, r.buf)) = some (-1, []) ∧
    (world_of (recv 0 4
      (world_nonblock SOCK_STREAM W5100_SOCK_STATE_CONNECTED [W5100_SOCK_ESTABLISHED] []
        [0]))).map (fun w => (w.errno, w.bus)) = some (some EAGAIN, []) ∧
    (ret_of (recvfrom 0 4 none none
      (world_nonblock SOCK_DGRAM W5100_SOCK_STATE_BOUND [] [] [htons 7]))).map
      (fun r => (r.ret, r.buf)) = some (-1, []) ∧
    (world_of (recvfrom 0 4 none none
      (world_nonblock SOCK_DGRAM W5100_SOCK_STATE_BOUND [] [] [htons 7]))).map
      (fun w => (w.errno, w.bus)) = some (some EAGAIN, []) := by
  refine ⟨by decide, by decide, by decide, by decide, by decide, by decide, by decide,
    by decide⟩

/-- C14: on the failing input `bound_twice` both calls of `bind` succeed
(`errno` is never set, and such a call returns 0), and the state they leave has
channels 0 and 1 both in BOUND state with the same local port, in the socket
name and in the port register. -/
theorem bind_same_port_twice :
    (final_state bound_twice).map (fun w => w.errno) = some none ∧
    (final_state bound_twice).map (fun w => ((sock w 0).state, (sock w 1).state))
      = some (W5100_SOCK_STATE_BOUND, W5100_SOCK_STATE_BOUND) ∧
    (final_state bound_twice).map
      (fun w => ((sock w 0).sockname.sin_port, (sock w 1).sockname.sin_port))
      = some (htons 5000, htons 5000) ∧
    (final_state bound_twice).map (fun w => (w.regs W5100_Sn_PORT 0, w.regs W5100_Sn_PORT 1))
      = some (htons 5000, htons 5000) ∧
    ret_of (bind 0 ⟨AF_INET, htons 5000, INADDR_ANY⟩
      { world_boot with w5100_sockets := [chan0 SOCK_STREAM W5100_SOCK_STATE_CREATED],
                        files := [sockfd0 0 O_RDWR] }) = some 0 := by
  refine ⟨by decide, by decide, by decide, by decide, by decide⟩

/-- C11: `sendto` on a datagram socket, `len` not above the TX window size, to
the broadcast address while the broadcast permission is unset.  It returns -1
with `errno` EINVAL: at once and changing nothing else on a channel that is not
in CREATED state; after the automatic bind on a channel in CREATED state (given
the chip acknowledges the OPEN command and reaches UDP), whose only bus
transfers are the port register and the OPEN command.  However it returns, no
byte went to the TX ring and the destination registers are untouched.  After
`setsockopt(SOL_SOCKET, SO_BROADCAST, non-zero)` on the same handle, which
returns 0 and sets the permission, the same `sendto` with the TX free size at
least `len` (at both of its readings, the command acknowledged) writes the
destination registers, moves `len` bytes and returns `len`. -/
theorem sendto_broadcast_permission (fd : Int) (w : World) (si k i : Nat) (buf : List Nat)
    (len : Nat) (peer : sockaddr_in)
    (hg : (get_socket_from_fd fd w).1 = some si)
    (hty : (sock w si).type = SOCK_DGRAM)
    (hi : i = (sock w si).isocket)
    (hlen : len ≤ get_tx_size i)
    (hpeer : peer.sin_addr = INADDR_BROADCAST)
    (hperm : (sock w si).can_broadcast = false)
    (hk : (sock w si).fd_data = some k) :
    ((sock w si).state ≠ W5100_SOCK_STATE_CREATED →
      sendto fd buf len (some peer) w = .ok (-1, { w with errno := some EINVAL })) ∧
    ((sock w si).state = W5100_SOCK_STATE_CREATED →
      w.w5100_sockets.length ≤ htons 0x7FF0 →
      awaits [cmd_done] (w.feed W5100_Sn_CR i) = true →
      awaits [sr_udp] (w.feed W5100_Sn_SR i) = true →
      ∃ w1 port, sendto fd buf len (some peer) w = .ok (-1, w1) ∧
        w1.bus = w.bus ++ [BusOp.wreg W5100_Sn_PORT i port,
          BusOp.wreg W5100_Sn_CR i W5100_CMD_OPEN]) ∧
    (∀ r w1, sendto fd buf len (some peer) w = .ok (r, w1) →
      r = -1 ∧ w1.errno = some EINVAL ∧ tx_bytes w1.bus = tx_bytes w.bus ∧ w1.mem = w.mem ∧
      w1.regs W5100_Sn_DIPR i = w.regs W5100_Sn_DIPR i ∧
      w1.regs W5100_Sn_DPORT i = w.regs W5100_Sn_DPORT i ∧
      ∀ val : option_object, val.as_int ≠ 0 →
        ∃ w2, setsockopt fd SOL_SOCKET SO_BROADCAST val w1 = (0, w2) ∧
          (sock w2 si).can_broadcast = true ∧
          ∀ a b rest, w2.feed W5100_Sn_TX_FSR i = a :: b :: rest →
            len ≤ ntohs (a % 65536) → len ≤ ntohs (b % 65536) →
            (0 < ntohs (b % 65536) → awaits [cmd_done] (w2.feed W5100_Sn_CR i) = true) →
            ((file w2 k).status_flags &&& O_NONBLOCK ≠ 0 ∨ (sock w2 si).send_timeout = 0
              ∨ w2.clock ≠ []) →
            ∃ w3 tail, sendto fd buf len (some peer) w2 = .ok ((len : Int), w3) ∧
              w3.bus = w2.bus ++ [BusOp.wreg W5100_Sn_DIPR i peer.sin_addr,
                BusOp.wreg W5100_Sn_DPORT i peer.sin_port] ++ tail ∧
              tx_bytes tail = len) := by
  subst hi
  have hin : si < w.w5100_sockets.length := sock_in_range_of_type (by rw [hty]; decide)
  -- the rejection, once the automatic bind has returned
  have hdenied : ∀ u, check_bind_udp si w = .ok u →
      sendto fd buf len (some peer) w = .ok (-1, set_errno EINVAL u) := by
    intro u hcb
    obtain ⟨-, -, -, -, -, -, -, -, -, -, hiso, hcan, -, -⟩ := check_bind_udp_frame hcb
    exact sendto_broadcast_denied buf hg hty hcb (by rw [hiso]; exact hlen) hpeer
      (by rw [hcan]; exact hperm)
  refine ⟨?_, ?_, ?_⟩
  · intro hst
    have hcb : check_bind_udp si w = .ok w := by simp [check_bind_udp, hst]
    rw [hdenied w hcb]; rfl
  · intro hst hN hcr hsr
    obtain ⟨port, hport⟩ := get_avail_port_some w hN
    obtain ⟨u, hu⟩ := @bind_udp_acks si port w hcr hsr
    have hcb : check_bind_udp si w = .ok u := by simp [check_bind_udp, hst, hport, hu]
    rcases check_bind_udp_ok hcb with ⟨hst2, -⟩ | ⟨-, v, port2, -, -, -, -, -, -, -, hb, rfl⟩
    · exact absurd hst hst2
    · exact ⟨_, port2, hdenied _ hcb, by simpa using hb⟩
  · intro r w1 h
    cases hcb : check_bind_udp si w with
    | error e =>
      have hns : ¬ (SOCK_DGRAM = SOCK_STREAM) := by decide
      simp [sendto, sendto_body, get_socket_from_fd_some hg, hty, hns, hcb, Bind.bind,
        Except.bind] at h
    | ok u =>
      rw [hdenied u hcb] at h
      simp only [Except.ok.injEq, Prod.mk.injEq] at h
      obtain ⟨hr, hw1⟩ := h
      subst hw1
      obtain ⟨hf, hm, he, hc, hb, hrg, hfe, hl, hst, hty2, hiso, hcan, hfd, hto⟩ :=
        check_bind_udp_frame hcb
      refine ⟨hr.symm, by simp, by simpa using hb, by simpa using hm,
        by simpa using hrg _ _ (by decide) (by decide),
        by simpa using hrg _ _ (by decide) (by decide), ?_⟩
      intro val hval
      have hg1 : (get_socket_from_fd fd (set_errno EINVAL u)).1 = some si := by
        rw [get_socket_from_fd_fst_congr (w := w) (by simpa using hf)]; exact hg
      have hinu : si < u.w5100_sockets.length := by rw [hl]; exact hin
      generalize hW2 : upd_sock (set_errno EINVAL u) si
        (fun s => { s with can_broadcast := decide (val.as_int ≠ 0) }) = w2
      have hs2 : sock w2 si = { sock u si with can_broadcast := true } := by
        rw [← hW2, sock_upd_sock]; simp [hinu, hval]
      have hf2 : w2.files = w.files := by rw [← hW2]; simpa using hf
      refine ⟨w2, ?_, by rw [hs2], ?_⟩
      · simp only [setsockopt, get_socket_from_fd_some hg1, ne_eq, not_true_eq_false, if_false,
          if_true, hW2]
      · intro a b rest hfsr ha hb2 hack hclock
        have hg2 : (get_socket_from_fd fd w2).1 = some si := by
          rw [get_socket_from_fd_fst_congr (w := w) hf2]; exact hg
        have hst2 : (sock w2 si).state ≠ W5100_SOCK_STATE_CREATED := by rw [hs2]; exact hst
        have hcb2 : check_bind_udp si w2 = .ok w2 := by simp [check_bind_udp, hst2]
        have hi2 : (sock w2 si).isocket = (sock w si).isocket := by rw [hs2]; exact hiso
        have := sendto_dgram_room (k := k) buf (q := peer) hg2 (by rw [hs2, ← hty]; exact hty2)
          hcb2 (by rw [hi2]; exact hlen) (fun _ => by rw [hs2]) (by rw [hs2, ← hk]; exact hfd)
          hclock (by rw [hi2]; exact hfsr) ha hb2 (by rw [hi2]; exact hack)
        rw [hi2] at this
        exact this

/-- The broadcast theorem on `world_bcast`: three bytes to the broadcast
address are rejected on the bound socket, and go out once the permission is
set; on the socket in CREATED state the rejection follows the automatic
bind. -/
theorem sendto_broadcast_permission_witness :
    sendto 0 [1, 2, 3] 3 (some ⟨AF_INET, 80, INADDR_BROADCAST⟩)
        (world_bcast W5100_SOCK_STATE_BOUND)
      = .ok (-1, { world_bcast W5100_SOCK_STATE_BOUND with errno := some EINVAL }) ∧
    (∃ w1 port, sendto 0 [1, 2, 3] 3 (some ⟨AF_INET, 80, INADDR_BROADCAST⟩)
        (world_bcast W5100_SOCK_STATE_CREATED) = .ok (-1, w1) ∧
      w1.bus = (world_bcast W5100_SOCK_STATE_CREATED).bus ++
        [BusOp.wreg W5100_Sn_PORT 0 port, BusOp.wreg W5100_Sn_CR 0 W5100_CMD_OPEN]) ∧
    ret_of (sendto 0 [1, 2, 3] 3 (some ⟨AF_INET, 80, INADDR_BROADCAST⟩)
      (setsockopt 0 SOL_SOCKET SO_BROADCAST ⟨1, ⟨0, 0⟩⟩
        { world_bcast W5100_SOCK_STATE_BOUND with errno := some EINVAL }).2) = some 3 := by
  have hb := sendto_broadcast_permission 0 (world_bcast W5100_SOCK_STATE_BOUND) 0 0 0 [1, 2, 3] 3
    ⟨AF_INET, 80, INADDR_BROADCAST⟩ (by decide) (by decide) (by decide) (by decide) rfl
    (by decide) (by decide)
  have hc := sendto_broadcast_permission 0 (world_bcast W5100_SOCK_STATE_CREATED) 0 0 0
    [1, 2, 3] 3 ⟨AF_INET, 80, INADDR_BROADCAST⟩ (by decide) (by decide) (by decide) (by decide)
    rfl (by decide) (by decide)
  exact ⟨hb.1 (by decide), hc.2.1 (by decide) (by decide) (by decide) (by decide), by decide⟩

/-- C15: in the state after `w5100_socket_init` and any sequence of calls of
the interface that return (whatever they return), a channel holds the free
marker if and only if its state is NONE.  A further call that leaves a
channel in state NONE leaves it as `socket_free` does, with the free marker
and both ownership slots cleared; and `socket_free` sets the state of its
channel to NONE, puts the free marker and clears both ownership slots,
touching no other channel. -/
theorem free_iff_state_none (w0 : World) (calls : List ApiCall) (w : World)
    (h : run_calls calls (w5100_socket_init w0) = .ok w) :
    (∀ i, i < w.w5100_sockets.length →
      ((sock w i).fd = W5100_SOCKET_FREE ↔ (sock w i).state = W5100_SOCK_STATE_NONE)) ∧
    (∀ (c : ApiCall) (w1 : World), run_call c w = .ok w1 →
      ∀ i, i < w1.w5100_sockets.length →
        ((sock w1 i).fd = W5100_SOCKET_FREE ↔ (sock w1 i).state = W5100_SOCK_STATE_NONE) ∧
        ((sock w1 i).state = W5100_SOCK_STATE_NONE →
          (sock w1 i).fd_data = none ∧ (sock w1 i).connection_data = none)) ∧
    (∀ (u : World) (i : Nat), i < u.w5100_sockets.length →
      sock (socket_free i u) i
        = { sock u i with fd := W5100_SOCKET_FREE, fd_data := none, connection_data := none,
                          state := W5100_SOCK_STATE_NONE } ∧
      ∀ j, j ≠ i → sock (socket_free i u) j = sock u j) := by
  have hw : table_ok w := run_calls_table calls _ w h (table_ok_init w0)
  refine ⟨fun i hi => (hw i hi).1, ?_, ?_⟩
  · intro c w1 hc i hi
    have h1 := run_call_table hc hw i hi
    exact ⟨h1.1, fun hn => h1.2 (h1.1.2 hn)⟩
  · intro u i hi
    refine ⟨by rw [sock_socket_free]; simp [hi], ?_⟩
    intro j hj
    rw [sock_socket_free]; simp [hj]

/-- The invariant on the state after initialisation, two calls of `socket` and
two calls of `bind`: channels 0 and 1 are taken and BOUND, channels 2 and 3
are free and in state NONE. -/
theorem free_iff_state_none_witness :
    (∀ i, i < world_bound_twice.w5100_sockets.length →
      ((sock world_bound_twice i).fd = W5100_SOCKET_FREE
        ↔ (sock world_bound_twice i).state = W5100_SOCK_STATE_NONE)) ∧
    (sock world_bound_twice 0).state = W5100_SOCK_STATE_BOUND ∧
    (sock world_bound_twice 2).state = W5100_SOCK_STATE_NONE :=
  ⟨(free_iff_state_none world_boot
      [ApiCall.socket (AF_INET : Int) SOCK_STREAM 0, ApiCall.socket (AF_INET : Int) SOCK_STREAM 0,
       ApiCall.bind 0 ⟨AF_INET, htons 5000, INADDR_ANY⟩,
       ApiCall.bind 1 ⟨AF_INET, htons 5000, INADDR_ANY⟩] world_bound_twice rfl).1,
    by decide, by decide⟩

/-- C21: the failing input.  On `world_accepted` (channel 0 in ACCEPTED state,
handle 0 listening, handle 1 the accepted connection) closing the listening
handle returns 0 and leaves the channel in ACCEPTED state with the primary
descriptor pointer `NULL` and the accepted descriptor attached and open.  On
that state `send`, `recv` and `recvfrom` on the accepted handle 1 do not
return: they read the non-blocking flag through the `NULL` primary
pointer. -/
theorem accepted_handle_null_deref :
    ret_of (w5100_sock_close 0 world_accepted) = some 0 ∧
    (world_of (w5100_sock_close 0 world_accepted)).map (fun w => (sock w 0))
      = some (sock world_listener_closed 0) ∧
    (sock world_listener_closed 0).state = W5100_SOCK_STATE_ACCEPTED ∧
    (sock world_listener_closed 0).fd_data = none ∧
    (sock world_listener_closed 0).connection_data = some 1 ∧
    (file world_listener_closed 1).isopen = true ∧
    (get_socket_from_fd 1 world_listener_closed).1 = some 0 ∧
    stuck_of (send 1 [7] 1 world_listener_closed) = some Stuck.null_deref ∧
    stuck_of (recv 1 4 world_listener_closed) = some Stuck.null_deref ∧
    stuck_of (recvfrom 1 4 none none world_listener_closed) = some Stuck.null_deref := by
  refine ⟨by decide, by decide, by decide, by decide, by decide, by decide, by decide,
    by decide, by decide, by decide⟩

/-- C5: closing a handle that is already released or detached, on a handle
whose descriptor (when the table has one) is a socket descriptor, the only
kind that carries this close callback.  When the handle resolves to no
channel, or to a channel of which it is neither the attached primary nor the
attached accepted handle, the close returns -1 with `errno` EBADF and changes
nothing else: no chip command, no bus transfer, no field of any channel, no
descriptor.  In particular, in a descriptor table that keeps each handle in
its own slot, a close of the same handle that follows any close that returned
is such a close: it returns -1 with EBADF and changes nothing else. -/
theorem close_released_handle (fd : Int) (w : World)
    (hsock : ∀ k, file_struct_get fd w = some k → (file w k).is_sock = true) :
    (((get_socket_from_fd fd w).1 = none ∨
        ∃ si, (get_socket_from_fd fd w).1 = some si ∧
          ptr_fd_is w (sock w si).fd_data fd = false ∧
          ptr_fd_is w (sock w si).connection_data fd = false) →
      w5100_sock_close fd w = .ok (-1, { w with errno := some EBADF })) ∧
    ((∀ j, j < w.files.length → (file w j).fd = fd → (j : Int) = fd) →
      ∀ r w1, w5100_sock_close fd w = .ok (r, w1) →
        w5100_sock_close fd w1 = .ok (-1, { w1 with errno := some EBADF })) := by
  -- a rejected close of a socket descriptor sets EBADF
  have part1 : ∀ u : World,
      (∀ k, file_struct_get fd u = some k → (file u k).is_sock = true) →
      ((get_socket_from_fd fd u).1 = none ∨
        ∃ si, (get_socket_from_fd fd u).1 = some si ∧
          ptr_fd_is u (sock u si).fd_data fd = false ∧
          ptr_fd_is u (sock u si).connection_data fd = false) →
      w5100_sock_close fd u = .ok (-1, { u with errno := some EBADF }) := by
    intro u hs h
    obtain ⟨e, he, hn, hcl⟩ := (close_rejected fd u).1 h
    rcases he with rfl | rfl
    · exact hcl
    · obtain ⟨k, hk, hns⟩ := hn rfl
      rw [hs k hk] at hns
      exact absurd hns (by decide)
  refine ⟨part1 w hsock, ?_⟩
  intro hwf r w1 hc
  by_cases hat : ∃ si, (get_socket_from_fd fd w).1 = some si ∧
      (ptr_fd_is w (sock w si).fd_data fd = true
        ∨ ptr_fd_is w (sock w si).connection_data fd = true)
  · obtain ⟨si, hg, hat⟩ := hat
    obtain ⟨hfd, hfl, -, -⟩ := get_socket_from_fd_range hg
    obtain ⟨k, hkf, hkl, hfiles⟩ := close_attached_files hg hat hc
    have hk : k = fd.toNat := by
      have := hwf k hkl hkf
      omega
    subst hk
    have hno := no_entry_after_free hwf hkf hfd hkl
    have hno1 : ∀ j, j < w1.files.length → (file w1 j).fd ≠ fd := by
      intro j hj
      have := hno j (by rw [← hfiles]; exact hj)
      unfold file at this ⊢
      rw [hfiles]
      exact this
    have hent : ∀ j, file w1 j = if j = fd.toNat then
        { file w fd.toNat with isopen := false, fd := -1 } else file w j := by
      intro j
      have h := file_after_detach hfd hfl hkf j
      unfold file at h ⊢
      rw [hfiles]
      exact h
    have hlen : w1.files.length = w.files.length := by
      rw [hfiles]; simp [file_free_length]
    apply part1 w1
    · intro k hk
      have hk2 : k = fd.toNat := by
        unfold file_struct_get at hk
        split at hk
        · exact (Option.some.inj hk).symm
        · exact absurd hk (by simp)
      subst hk2
      rw [hent]
      simp only [if_true]
      exact hsock fd.toNat (by simp [file_struct_get, hfd, hfl])
    · cases hg1 : (get_socket_from_fd fd w1).1 with
      | none => exact Or.inl rfl
      | some sj =>
        exact Or.inr ⟨sj, rfl, ptr_fd_is_false_of_no_entry hfd hno1 _,
          ptr_fd_is_false_of_no_entry hfd hno1 _⟩
  · have hpre : (get_socket_from_fd fd w).1 = none ∨
        ∃ si, (get_socket_from_fd fd w).1 = some si ∧
          ptr_fd_is w (sock w si).fd_data fd = false ∧
          ptr_fd_is w (sock w si).connection_data fd = false := by
      cases hg : (get_socket_from_fd fd w).1 with
      | none => exact Or.inl rfl
      | some si =>
        refine Or.inr ⟨si, rfl, ?_, ?_⟩
        · by_contra hx
          exact hat ⟨si, hg, Or.inl (by simpa using hx)⟩
        · by_contra hx
          exact hat ⟨si, hg, Or.inr (by simpa using hx)⟩
    have hcl := part1 w hsock hpre
    rw [hcl] at hc
    simp only [Except.ok.injEq, Prod.mk.injEq] at hc
    obtain ⟨-, rfl⟩ := hc
    have hpre1 : (get_socket_from_fd fd (set_errno EBADF w)).1 = none ∨
        ∃ si, (get_socket_from_fd fd (set_errno EBADF w)).1 = some si ∧
          ptr_fd_is (set_errno EBADF w) (sock (set_errno EBADF w) si).fd_data fd = false ∧
          ptr_fd_is (set_errno EBADF w) (sock (set_errno EBADF w) si).connection_data fd
            = false := by
      rw [get_socket_from_fd_fst_congr (w := w) (u := set_errno EBADF w) rfl]
      exact hpre
    exact part1 (set_errno EBADF w) hsock hpre1

/-- The close theorem at concrete inputs.  The released handle 1 of
`world_stale_handle` is rejected with EBADF.  On `world_closable` the first
close of handle 0 returns 0 and frees the channel, and a second close of
handle 0 returns -1 with EBADF and changes nothing else; likewise a second
close of the accepted handle 1 of `world_accepted`, after the first returned
0. -/
theorem close_released_handle_witness :
    w5100_sock_close 1 world_stale_handle
      = .ok (-1, { world_stale_handle with errno := some EBADF }) ∧
    w5100_sock_close 0 world_closable = .ok (0, world_closed) ∧
    (sock world_closed 0).state = W5100_SOCK_STATE_NONE ∧
    w5100_sock_close 0 world_closed = .ok (-1, { world_closed with errno := some EBADF }) ∧
    w5100_sock_close 1 world_accepted = .ok (0, world_accepted_closed) ∧
    w5100_sock_close 1 world_accepted_closed
      = .ok (-1, { world_accepted_closed with errno := some EBADF }) := by
  have hs1 : ∀ k, file_struct_get 1 world_stale_handle = some k →
      (file world_stale_handle k).is_sock = true := by
    intro k hk
    have h1 : file_struct_get 1 world_stale_handle = some 1 := by decide
    rw [h1] at hk
    rw [← Option.some.inj hk]
    decide
  have hs2 : ∀ k, file_struct_get 0 world_closable = some k →
      (file world_closable k).is_sock = true := by
    intro k hk
    have h1 : file_struct_get 0 world_closable = some 0 := by decide
    rw [h1] at hk
    rw [← Option.some.inj hk]
    decide
  have hs3 : ∀ k, file_struct_get 1 world_accepted = some k →
      (file world_accepted k).is_sock = true := by
    intro k hk
    have h1 : file_struct_get 1 world_accepted = some 1 := by decide
    rw [h1] at hk
    rw [← Option.some.inj hk]
    decide
  have hc2 : w5100_sock_close 0 world_closable = .ok (0, world_closed) := rfl
  have hc3 : w5100_sock_close 1 world_accepted = .ok (0, world_accepted_closed) := rfl
  refine ⟨?_, hc2, by decide, ?_, hc3, ?_⟩
  · exact (close_released_handle 1 world_stale_handle hs1).1
      (Or.inr ⟨0, by decide, by decide, by decide⟩)
  · refine (close_released_handle 0 world_closable hs2).2 ?_ 0 world_closed hc2
    intro j hj hf
    have hj0 : j = 0 := by
      have : world_closable.files.length = 1 := rfl
      omega
    subst hj0
    rfl
  · refine (close_released_handle 1 world_accepted hs3).2 ?_ 0 world_accepted_closed hc3
    intro j hj hf
    have hl : world_accepted.files.length = 2 := rfl
    have hj2 : j = 0 ∨ j = 1 := by omega
    rcases hj2 with rfl | rfl
    · exact absurd hf (by decide)
    · rfl

/-- C2: the failing inputs.  `send` reads the mode of the call in the flags of
the primary (listening) descriptor of the channel, not in those of the handle
the call is made on.  (1) The accepted handle 1 is blocking, without timeout,
and the listening handle 0 is non-blocking; the TX ring is full at the first
reading and has room at the second: `send(1, buf, 1)` returns 0 with `errno`
EAGAIN after the first reading and moves no byte, where a blocking call
returns `len = 1`.  (2) The accepted handle 1 is non-blocking and the
listening handle 0 is blocking: on the same ring the call waits through the
full reading and returns 1, and on a ring that stays full it has not returned
when the scripts end, where a non-blocking call returns the partial count 0 at
once.  (3) On a connected socket, whose only descriptor is the handle's own,
the contract holds also on timeout: with room for 3 of 5 bytes and the
deadline passed, the call returns the partial count 3. -/
theorem send_mode_of_listening_handle :
    (file (world_accepted_modes (O_RDWR ||| O_NONBLOCK) O_RDWR [0, htons 2048]) 1).status_flags
      &&& O_NONBLOCK = 0 ∧
    (get_socket_from_fd 1
      (world_accepted_modes (O_RDWR ||| O_NONBLOCK) O_RDWR [0, htons 2048])).1 = some 0 ∧
    ret_of (send 1 [7] 1
      (world_accepted_modes (O_RDWR ||| O_NONBLOCK) O_RDWR [0, htons 2048])) = some 0 ∧
    (world_of (send 1 [7] 1
      (world_accepted_modes (O_RDWR ||| O_NONBLOCK) O_RDWR [0, htons 2048]))).map
      (fun w => (w.errno, tx_bytes w.bus, w.feed W5100_Sn_TX_FSR 0))
      = some (some EAGAIN, 0, [htons 2048]) ∧
    (file (world_accepted_modes O_RDWR (O_RDWR ||| O_NONBLOCK) [0, htons 2048]) 1).status_flags
      &&& O_NONBLOCK ≠ 0 ∧
    ret_of (send 1 [7] 1
      (world_accepted_modes O_RDWR (O_RDWR ||| O_NONBLOCK) [0, htons 2048])) = some 1 ∧
    (world_of (send 1 [7] 1
      (world_accepted_modes O_RDWR (O_RDWR ||| O_NONBLOCK) [0, htons 2048]))).map
      (fun w => (w.errno, tx_bytes w.bus, w.feed W5100_Sn_TX_FSR 0)) = some (none, 1, []) ∧
    stuck_of (send 1 [7] 1
      (world_accepted_modes O_RDWR (O_RDWR ||| O_NONBLOCK) [0, 0])) = some Stuck.hang ∧
    ret_of (send 0 [1, 2, 3, 4, 5] 5 world_send_timeout) = some 3 ∧
    (world_of (send 0 [1, 2, 3, 4, 5] 5 world_send_timeout)).map
      (fun w => (w.errno, tx_bytes w.bus)) = some (some EAGAIN, 3) := by
  refine ⟨by decide, by decide, by decide, by decide, by decide, by decide, by decide,
    by decide, by decide, by decide⟩

end W5100
